import Mathlib

/-!
# KPHP symbol model: function specialisation, member resolution, closure conversion

A shallow embedding of

* `compiler/data/function-data.cpp` (`FunctionData`),
* `compiler/data/class-data.h` (`ClassData`),
* `compiler/data/lambda-generator.cpp` (`LambdaGenerator`),

followed by theorems about the embedded code.

Conventions of the embedding

* `std::string` is a list of characters (`Str`).
* A `FunctionPtr` / `ClassPtr` is `none` (null) or the address of an object in a heap
  (`State.functions`, `ClassHeap`); `new FunctionData()` allocates at the end of the heap.
* A vertex tree is a value: a node record and the list of its children.  The fields that the
  C++ keeps in the per-operation vertex classes are gathered in one record, `VertexData`.
* `kphp_assert` failing, a vertex cast to the wrong operation and a dereference of a missing
  child or object are a `Fault`; `kphp_error` appends a diagnostic to `State.errors` and
  execution goes on.
-/

namespace Kphp

/-! ## Strings and pointers -/

abbrev Str := List Char

abbrev FunctionPtr := Option Nat

abbrev ClassPtr := Option Nat

inductive Fault where
  | assert_failed
  | invalid_access
  | out_of_fuel
  deriving DecidableEq, Repr

/-! ## Vertices -/

inductive Operation where
  | op_function
  | op_func_param_list
  | op_func_param
  | op_func_name
  | op_var
  | op_instance_prop
  | op_seq
  | op_return
  | op_func_call
  | op_other (tag : Nat)
  deriving DecidableEq, Repr

inductive OperationExtra where
  | op_ex_none
  | op_ex_var_this
  | op_ex_func_call_arrow
  deriving DecidableEq, Repr

structure Location where
  file : Option Nat := none
  function : FunctionPtr := none
  line : Int := -1
  deriving DecidableEq, Repr

structure VertexData where
  type : Operation
  str_val : Str := []
  location : Location := {}
  extra_type : OperationExtra := OperationExtra.op_ex_none
  func_id : FunctionPtr := none
  template_type_id : Int := -1
  type_declaration : Str := []
  is_callable : Bool := false
  deriving DecidableEq, Repr

inductive Vertex where
  | mk (d : VertexData) (children : List Vertex)
  deriving Repr

mutual
def Vertex.decEq : (a b : Vertex) → Decidable (a = b)
  | .mk d cs, .mk e es =>
    if h : d = e then
      match Vertex.decEqList cs es with
      | isTrue h2 => isTrue (by rw [h, h2])
      | isFalse h2 => isFalse (fun h3 => h2 (Vertex.mk.inj h3).2)
    else isFalse (fun h3 => h (Vertex.mk.inj h3).1)
def Vertex.decEqList : (a b : List Vertex) → Decidable (a = b)
  | [], [] => isTrue rfl
  | [], _ :: _ => isFalse (fun h => List.noConfusion h)
  | _ :: _, [] => isFalse (fun h => List.noConfusion h)
  | a :: as, b :: bs =>
    match Vertex.decEq a b with
    | isTrue h1 =>
      match Vertex.decEqList as bs with
      | isTrue h2 => isTrue (by rw [h1, h2])
      | isFalse h2 => isFalse (fun h3 => h2 (List.cons.inj h3).2)
    | isFalse h1 => isFalse (fun h3 => h1 (List.cons.inj h3).1)
end

instance : DecidableEq Vertex := Vertex.decEq

def Vertex.data : Vertex → VertexData
  | .mk d _ => d

def Vertex.children : Vertex → List Vertex
  | .mk _ cs => cs

def Vertex.type (v : Vertex) : Operation := v.data.type

def Vertex.get_string (v : Vertex) : Str := v.data.str_val

def Vertex.location (v : Vertex) : Location := v.data.location

def Vertex.template_type_id (v : Vertex) : Int := v.data.template_type_id

def Vertex.set_string (s : Str) : Vertex → Vertex
  | .mk d cs => .mk { d with str_val := s } cs

def Vertex.set_location (l : Location) : Vertex → Vertex
  | .mk d cs => .mk { d with location := l } cs

def Vertex.set_func_id (p : FunctionPtr) : Vertex → Vertex
  | .mk d cs => .mk { d with func_id := p } cs

def Vertex.set_template_type_id (i : Int) : Vertex → Vertex
  | .mk d cs => .mk { d with template_type_id := i } cs

def Vertex.set_children (cs : List Vertex) : Vertex → Vertex
  | .mk d _ => .mk d cs

/-- The `i`-th child of a vertex; reading a child that is not there is a fault. -/
def Vertex.ith (v : Vertex) (i : Nat) : Except Fault Vertex :=
  match v.children.get? i with
  | some c => .ok c
  | none => .error Fault.invalid_access

/-- Replace the `i`-th child (the C++ mutates the child through the pointer it holds). -/
def Vertex.set_ith (v : Vertex) (i : Nat) (c : Vertex) : Vertex :=
  v.set_children (v.children.set i c)

/-- The cast `v.as<op>()`: the vertex itself when its operation is `op`, a fault otherwise. -/
def Vertex.as (op : Operation) (v : Vertex) : Except Fault Vertex :=
  if v.type = op then .ok v else .error Fault.assert_failed

/-- Children of `meta_op_function`: `name()`, `params()`, `cmd()` are children 0, 1, 2. -/
def Vertex.name (v : Vertex) : Except Fault Vertex := v.ith 0

def Vertex.params (v : Vertex) : Except Fault Vertex := v.ith 1

def Vertex.cmd (v : Vertex) : Except Fault Vertex := v.ith 2

/-- Child 0 of `op_func_param` is `var()`. -/
def Vertex.var (v : Vertex) : Except Fault Vertex := v.ith 0

/-- The constructor `VertexAdaptor<op>::create(children...)`: a fresh node with default fields. -/
def Vertex.create (op : Operation) (children : List Vertex) : Vertex :=
  .mk { type := op } children

/-! ## FunctionData -/

inductive func_type_t where
  | func_global
  | func_local
  | func_switch
  | func_class_holder
  deriving DecidableEq, Repr

inductive AccessType where
  | access_nonmember
  | access_static_public
  | access_static_private
  | access_static_protected
  | access_public
  | access_private
  | access_protected
  deriving DecidableEq, Repr

inductive body_value where
  | empty
  | non_empty
  | unknown
  deriving DecidableEq, Repr

/-- Modelled from the spec: the nominal-type-kind of an assumption
(`compiler/class-assumptions.h` is not part of the sources). -/
inductive AssumType where
  | assum_unknown
  | assum_not_instance
  | assum_instance
  | assum_instance_array
  deriving DecidableEq, Repr

/-- Modelled from the spec: an assumption is the fact
(nominal-type-kind, variable-or-parameter local name, resolved class reference-or-null). -/
structure Assumption where
  assum_type : AssumType
  var_name : Str
  klass : ClassPtr
  deriving DecidableEq, Repr

/-- The fields of `FunctionData` with the initial values of `FunctionData::FunctionData()`. -/
structure FunctionData where
  id : Int := 0
  root : Option Vertex := none
  is_required : Bool := false
  type_ : func_type_t := func_type_t.func_local
  name : Str := []
  file_id : Option Nat := none
  class_id : ClassPtr := none
  context_class : ClassPtr := none
  assumptions_for_vars : List Assumption := []
  assumptions_inited_args : Int := 0
  assumptions_inited_return : Int := 0
  varg_flag : Bool := false
  tinf_state : Int := 0
  const_data : Option Nat := none
  phpdoc_token : Option Nat := none
  min_argn : Int := 0
  used_in_source : Bool := false
  is_callback : Bool := false
  kphp_lib_export : Bool := false
  is_template : Bool := false
  is_auto_inherited : Bool := false
  is_inline : Bool := false
  has_variadic_param : Bool := false
  access_type : AccessType := AccessType.access_nonmember
  body_seq : body_value := body_value.unknown
  function_in_which_lambda_was_created : FunctionPtr := none
  fork_prev : FunctionPtr := none
  wait_prev : FunctionPtr := none
  /-- Modelled from the spec: the flag is-lambda that `is_lambda()` reads
  (function-data.h is not part of the sources). -/
  is_lambda : Bool := false
  deriving DecidableEq, Repr

/-- The part of the global registry `G` that the embedded code touches. -/
structure CompilerCore where
  registered_functions : List Nat := []
  required_functions : List Nat := []
  registered_classes : List Nat := []
  total_lambdas : Nat := 0
  deriving DecidableEq, Repr

/-- The program state: the heap of `FunctionData` objects (a `FunctionPtr` is an index into it),
the diagnostics reported so far, and the global registry. -/
structure State where
  functions : List FunctionData := []
  errors : List Str := []
  G : CompilerCore := {}
  /-- The file that `stage::get_file()` returns. -/
  stage_file : Option Nat := none
  deriving DecidableEq, Repr

def State.deref (st : State) (p : Nat) : Except Fault FunctionData :=
  match st.functions.get? p with
  | some f => .ok f
  | none => .error Fault.invalid_access

mutual
/-- The lambda `update_location` of `FunctionData::update_location_in_body`:
stamp the node, then every child in order. -/
def update_location (this : Nat) : Vertex → Vertex
  | .mk d cs =>
    .mk { d with location := { d.location with function := some this } } (update_location_list this cs)
def update_location_list (this : Nat) : List Vertex → List Vertex
  | [] => []
  | c :: cs => update_location this c :: update_location_list this cs
end

/-- The method `FunctionData::update_location_in_body` for the function at address `this`. -/
def FunctionData.update_location_in_body (this : Nat) (f : FunctionData) : FunctionData :=
  match f.root with
  | none => f
  | some root => { f with root := some (update_location this root) }

/-- The mapping `std::map<int, std::pair<AssumType, ClassPtr>>`, as an association list
(`find` returns the first entry with the key). -/
abbrev TemplateMap := List (Int × (AssumType × ClassPtr))

def TemplateMap.find (m : TemplateMap) (key : Int) : Option (AssumType × ClassPtr) :=
  m.lookup key

def deduce_error_message : Str :=
  "Can't deduce template parameter of function (check count of arguments passed).".toList

/-- What the loop over the parameters (function-data.cpp lines 98-113) leaves behind:
whether it ran to the end, the parameters of the clone, and the two assumption fields of
the new function. -/
structure BindResult where
  completed : Bool
  params : List Vertex
  assumptions_for_vars : List Assumption
  assumptions_inited_args : Int
  deriving DecidableEq, Repr

/-- The loop of lines 98-113 over the parameters of the cloned root, from parameter `i` on;
`as` and `ini` are `new_function->assumptions_for_vars` and `assumptions_inited_args`
on entry.  `completed = false` is the `return {}` of `kphp_error_act`; the parameters from
the failing one on are left as they were. -/
def bind_template_params (m : TemplateMap) :
    List Vertex → List Assumption → Int → Except Fault BindResult
  | [], as, ini => .ok ⟨true, [], as, ini⟩
  | p :: ps, as, ini => do
    let param ← p.as Operation.op_func_param
    match m.find param.template_type_id with
    | none =>
      if m.isEmpty || param.template_type_id == -1 then
        let r ← bind_template_params m ps as ini
        pure { r with params := param.set_template_type_id (-1) :: r.params }
      else
        pure ⟨false, p :: ps, as, ini⟩
    | some assum_and_class =>
      let var ← param.var
      let r ← bind_template_params m ps
        (as ++ [⟨assum_and_class.1, var.get_string, assum_and_class.2⟩]) 2
      pure { r with params := param.set_template_type_id (-1) :: r.params }

/-- Modelled from the spec: `VertexAdaptor::clone()` (compiler/vertex.h is not part of the
sources) is a deep, structure-preserving clone that shares no node with the original.
Trees are values here, so the clone is the same value and later writes to it do not
reach the original. -/
def Vertex.clone (v : Vertex) : Vertex := v

/-- The body of `FunctionData::generate_instance_of_template_function` (lines 90-141) for the
template object `f = *func`, with `new_ptr` the address of the object that line 95
allocates: the contents of the new object on exit, and whether line 143 was reached
(`false` is the `return {}` of `kphp_error_act`). -/
def generate_instance_core (m : TemplateMap) (f : FunctionData)
    (name_of_function_instance : Str) (new_ptr : Nat) : Except Fault (FunctionData × Bool) := do
  if !f.is_template then throw Fault.assert_failed
  let func_root ← match f.root with
    | some r => pure r
    | none => throw Fault.invalid_access
  let param_list ← (← func_root.params).as Operation.op_func_param_list
  let _func_args_n := param_list.children.length
  let new_function : FunctionData := {}
  let new_func_root := (← func_root.as Operation.op_function).clone
  let new_param_list ← (← new_func_root.params).as Operation.op_func_param_list
  let r ← bind_template_params m new_param_list.children [] new_function.assumptions_inited_args
  let new_function := { new_function with
    assumptions_for_vars := r.assumptions_for_vars
    assumptions_inited_args := r.assumptions_inited_args }
  if !r.completed then
    pure (new_function, false)
  else
    let new_func_root := new_func_root.set_ith 1 (new_param_list.set_children r.params)
    let name_vertex ← new_func_root.name
    let new_func_root := new_func_root.set_ith 0 (name_vertex.set_string name_of_function_instance)
    let new_function := { new_function with
      root := some (new_func_root.set_func_id (some new_ptr))
      is_required := true
      type_ := f.type_
      file_id := f.file_id
      class_id := f.class_id
      varg_flag := f.varg_flag
      tinf_state := f.tinf_state
      const_data := f.const_data
      phpdoc_token := f.phpdoc_token
      min_argn := f.min_argn
      used_in_source := f.used_in_source
      context_class := f.context_class
      access_type := f.access_type
      body_seq := f.body_seq
      is_template := false
      name := name_of_function_instance
      function_in_which_lambda_was_created := f.function_in_which_lambda_was_created }
    let new_function := new_function.update_location_in_body new_ptr
    pure (new_function, true)

/-- The function `FunctionData::generate_instance_of_template_function` on the heap: `func` is read,
`new FunctionData()` (line 95) takes the next free address, and the object that the body
built lives there on exit.  The result is the new state and the returned pointer (`none`
for `return {}`, where the diagnostic of `kphp_error_act` has been reported and the
allocated object is left unreferenced). -/
def generate_instance_of_template_function (m : TemplateMap) (func : Nat)
    (name_of_function_instance : Str) (st : State) : Except Fault (State × FunctionPtr) := do
  let f ← st.deref func
  let new_ptr := st.functions.length
  let r ← generate_instance_core m f name_of_function_instance new_ptr
  if r.2 then
    pure ({ st with functions := st.functions ++ [r.1] }, some new_ptr)
  else
    pure ({ st with functions := st.functions ++ [r.1]
                    errors := st.errors ++ [deduce_error_message] }, none)

/-- The method `FunctionData::get_params`, through `::get_function_params(root)`: the children of the
parameter list of the root. -/
def FunctionData.get_params (f : FunctionData) : Except Fault (List Vertex) := do
  let root ← match f.root with
    | some r => pure r
    | none => throw Fault.invalid_access
  let param_list ← (← root.params).as Operation.op_func_param_list
  pure param_list.children

/-- The function `FunctionData::create_function` (lines 58-71): the new object is allocated
at the end of the heap; the result is the new state and the address of the object.  (The
profiler of lines 59-60 is not modelled.) -/
def FunctionData.create_function (root : Vertex) (type : func_type_t) (st : State) :
    Except Fault (State × Nat) := do
  let function := st.functions.length
  let root := root.set_func_id (some function)
  let name_vertex ← root.name
  let new_function : FunctionData :=
    { name := name_vertex.get_string
      root := some root
      file_id := st.stage_file
      type_ := type }
  pure ({ st with functions := st.functions ++ [new_function] }, function)

/-- The part of a name after the first separator `$$`, if there is one. -/
def drop_through_separator : Str → Option Str
  | [] => none
  | a :: t =>
    match t with
    | [] => none
    | b :: rest => if a = '$' ∧ b = '$' then some rest else drop_through_separator t

/-- Modelled from the spec: `FunctionData::local_name()` (function-data.h is not part of the
sources), the unqualified local name of a method registered as `<class>$$<method>`. -/
def FunctionData.local_name (f : FunctionData) : Str :=
  match drop_through_separator f.name with
  | some local_name => local_name
  | none => f.name

/-! ## Resumable path (function-data.cpp lines 153-175) -/

/-- The loops of lines 156-159 and 163-166: `f` walks the chain of `prev` pointers and the
name of every function met is pushed to the back of `names`; every iteration uses one unit
of `fuel`. -/
def collect_prev_names (st : State) (prev : FunctionData → FunctionPtr) :
    Nat → FunctionPtr → List Str → Except Fault (List Str)
  | _, none, names => .ok names
  | 0, some _, _ => .error Fault.out_of_fuel
  | fuel + 1, some p, names =>
    match st.functions.get? p with
    | none => .error Fault.invalid_access
    | some f => collect_prev_names st prev fuel (prev f) (names ++ [f.name])

/-- The loop of lines 168-173 from index `i` on: ` -> ` goes before every name but the one
at index 0. -/
def join_names_from : Nat → List Str → Str
  | _, [] => []
  | i, n :: ns => (if i ≠ 0 then " -> ".toList else []) ++ n ++ join_names_from (i + 1) ns

/-- The method `FunctionData::get_resumable_path` of the function object `f`. -/
def FunctionData.get_resumable_path (st : State) (fuel : Nat) (f : FunctionData) :
    Except Fault Str := do
  let names ← collect_prev_names st (fun g => g.fork_prev) fuel f.fork_prev []
  let names := names.reverse
  let names := names ++ [f.name]
  let names ← collect_prev_names st (fun g => g.wait_prev) fuel f.wait_prev names
  pure (join_names_from 0 names)

/-! ## Human-readable names (function-data.cpp lines 177-191) -/

/-- The characters that `.` of an ECMAScript `std::regex` does not match. -/
def is_line_terminator (c : Char) : Bool := c == '\n' || c == '\r'

/-- The regular expressions used by `get_human_readable_name` are sequences of literal
characters and capturing groups `(.+)`. -/
inductive RegexItem where
  | chr (c : Char)
  | group_any_plus
  deriving DecidableEq, Repr

/-- Match the greedy group `(.+)` and then the rest of the expression `k`: `pre` is what the
group has consumed so far, the longest extension is tried first (backtracking order of
ECMAScript). The result is the list of captures. -/
def match_group (k : Str → Option (List Str)) : Str → Str → Option (List Str)
  | _, [] => none
  | pre, x :: xs =>
    if is_line_terminator x then none
    else
      match match_group k (pre ++ [x]) xs with
      | some caps => some caps
      | none =>
        match k xs with
        | some caps => some ((pre ++ [x]) :: caps)
        | none => none

/-- The function `std::regex_match` for such an expression: the whole string must match; the
captures are returned in order. -/
def regex_match : List RegexItem → Str → Option (List Str)
  | [], s => if s = [] then some [] else none
  | RegexItem.chr c :: ps, s =>
    match s with
    | [] => none
    | x :: xs => if x = c then regex_match ps xs else none
  | RegexItem.group_any_plus :: ps, s => match_group (regex_match ps) [] s

/-- The expression `(.+)\$\$(.+)\$\$(.+)`. -/
def inherited_name_regex : List RegexItem :=
  [RegexItem.group_any_plus, RegexItem.chr '$', RegexItem.chr '$',
   RegexItem.group_any_plus, RegexItem.chr '$', RegexItem.chr '$',
   RegexItem.group_any_plus]

/-- The function `std::regex_replace` for an expression that is a non-empty literal `pat`:
every match, found left to right without overlap, is replaced by `fmt`. `skip` counts the
characters of the current match that are still to be dropped. -/
def regex_replace_literal (pat fmt : Str) : Nat → Str → Str
  | _, [] => []
  | skip + 1, _ :: rest => regex_replace_literal pat fmt skip rest
  | 0, c :: rest =>
    if pat ≠ [] ∧ pat.isPrefixOf (c :: rest) then
      fmt ++ regex_replace_literal pat fmt (pat.length - 1) rest
    else c :: regex_replace_literal pat fmt 0 rest

def regex_replace (s pat fmt : Str) : Str := regex_replace_literal pat fmt 0 s

/-- Modelled from the spec: `replace_characters` (compiler/utils/string-utils.h is not part
of the sources) replaces every occurrence of one character by another. -/
def replace_characters (s : Str) (c_from c_to : Char) : Str :=
  s.map (fun c => if c = c_from then c_to else c)

/-- Modelled from the spec: `replace_backslashes` (compiler/utils/string-utils.h is not part
of the sources) replaces every backslash of a class name by `$`. -/
def replace_backslashes (s : Str) : Str := replace_characters s '\\' '$'

/-- The static `FunctionData::get_human_readable_name(const std::string &)`. -/
def get_human_readable_name (name : Str) : Str :=
  match regex_match inherited_name_regex name with
  | some [m1, m2, m3] =>
    let base_class := replace_characters m1 '$' '\\'
    let actual_class := replace_characters m3 '$' '\\'
    actual_class ++ " :: ".toList ++ m2 ++ " (".toList ++ "inherited from ".toList
      ++ base_class ++ ")".toList
  | _ =>
    regex_replace (regex_replace name "$$".toList " :: ".toList) "$".toList "\\".toList

/-- The member `FunctionData::get_human_readable_name() const`. -/
def FunctionData.get_human_readable_name (f : FunctionData) : Str :=
  if f.access_type = AccessType.access_nonmember then f.name
  else Kphp.get_human_readable_name f.name

/-- What it means for a string to match an expression with the given captures. -/
inductive Matches : List RegexItem → Str → List Str → Prop where
  | nil : Matches [] [] []
  | chr {c ps s caps} : Matches ps s caps → Matches (RegexItem.chr c :: ps) (c :: s) caps
  | grp {g ps s caps} : g ≠ [] → (∀ c ∈ g, is_line_terminator c = false) → Matches ps s caps →
      Matches (RegexItem.group_any_plus :: ps) (g ++ s) (g :: caps)

/-! ## Class members and ClassData (class-data.h) -/

structure VarData where
  marked_as_const : Bool := false
  deriving DecidableEq, Repr

/-- Modelled from the spec: the member records of `compiler/data/class-members.h` (not part
of the sources); every member is keyed by its unqualified local name. -/
structure ClassMemberInstanceMethod where
  local_name : Str
  function : FunctionPtr
  access_type : AccessType
  deriving DecidableEq, Repr

/-- Modelled from the spec: an instance field of `class-members.h`; its local name is the
name of the variable vertex it was declared with. -/
structure ClassMemberInstanceField where
  root : Vertex
  def_val : Option Vertex
  access_type : AccessType
  phpdoc_str : Str
  var : VarData
  deriving DecidableEq, Repr

def ClassMemberInstanceField.local_name (f : ClassMemberInstanceField) : Str :=
  f.root.get_string

/-- Modelled from the spec: a static field of `class-members.h`. -/
structure ClassMemberStaticField where
  local_name : Str
  root : Vertex
  access_type : AccessType
  deriving DecidableEq, Repr

/-- Modelled from the spec: a class constant of `class-members.h`. -/
structure ClassMemberConstant where
  local_name : Str
  value : Vertex
  deriving DecidableEq, Repr

/-- Modelled from the spec: `ClassMembersContainer` of `class-members.h`, "a members
container holding instance methods, static/instance fields, and constants, each keyed by
unqualified local name"; members are kept in declaration order. -/
structure ClassMembersContainer where
  instance_methods : List ClassMemberInstanceMethod := []
  instance_fields : List ClassMemberInstanceField := []
  static_fields : List ClassMemberStaticField := []
  constants : List ClassMemberConstant := []
  deriving DecidableEq, Repr

/-- Modelled from the spec: lookup in the class's own table of instance methods. -/
def ClassMembersContainer.get_instance_method (m : ClassMembersContainer) (local_name : Str) :
    Option ClassMemberInstanceMethod :=
  m.instance_methods.find? (fun f => f.local_name = local_name)

/-- Modelled from the spec: lookup in the class's own table of instance fields. -/
def ClassMembersContainer.get_instance_field (m : ClassMembersContainer) (local_name : Str) :
    Option ClassMemberInstanceField :=
  m.instance_fields.find? (fun f => f.local_name = local_name)

/-- Modelled from the spec: lookup in the class's own table of static fields. -/
def ClassMembersContainer.get_static_field (m : ClassMembersContainer) (local_name : Str) :
    Option ClassMemberStaticField :=
  m.static_fields.find? (fun f => f.local_name = local_name)

/-- Modelled from the spec: lookup in the class's own table of constants. -/
def ClassMembersContainer.get_constant (m : ClassMembersContainer) (local_name : Str) :
    Option ClassMemberConstant :=
  m.constants.find? (fun f => f.local_name = local_name)

/-- Modelled from the spec: `add_instance_field(root, def_val, modifiers, phpdoc)` appends a
field declared with the variable vertex `root`. -/
def ClassMembersContainer.add_instance_field (m : ClassMembersContainer) (root : Vertex)
    (def_val : Option Vertex) (access_type : AccessType) (phpdoc_str : Str) :
    ClassMembersContainer :=
  { m with instance_fields := m.instance_fields ++ [⟨root, def_val, access_type, phpdoc_str, {}⟩] }

/-- Modelled from the spec: `add_instance_method(function, access_type)` appends a method,
keyed by the local name of the function. -/
def ClassMembersContainer.add_instance_method (m : ClassMembersContainer) (local_name : Str)
    (function : Nat) (access_type : AccessType) : ClassMembersContainer :=
  { m with instance_methods := m.instance_methods ++ [⟨local_name, some function, access_type⟩] }

/-- Modelled from the spec: `has_any_instance_var()`. -/
def ClassMembersContainer.has_any_instance_var (m : ClassMembersContainer) : Bool :=
  !m.instance_fields.isEmpty

/-- The write `field->var->marked_as_const = true` through the pointer that
`get_instance_field(local_name)` returned: it reaches the first field of that name. -/
def mark_first_as_const (local_name : Str) :
    List ClassMemberInstanceField → Option (List ClassMemberInstanceField)
  | [] => none
  | f :: fs =>
    if f.local_name = local_name then
      some ({ f with var := { f.var with marked_as_const := true } } :: fs)
    else (mark_first_as_const local_name fs).map (fun r => f :: r)

inductive ClassType where
  | klass
  | interface
  | trait
  deriving DecidableEq, Repr

structure ClassData where
  id : Int := 0
  class_type : ClassType := ClassType.klass
  name : Str := []
  parent_class : ClassPtr := none
  implements : List Nat := []
  derived_classes : List Nat := []
  traits_uses : List Nat := []
  construct_function : FunctionPtr := none
  is_tl_class : Bool := false
  members : ClassMembersContainer := {}
  deriving DecidableEq, Repr

/-- The heap of `ClassData` objects; a `ClassPtr` is an index into it. -/
abbrev ClassHeap := List ClassData

/-- The method `ClassData::is_polymorphic_class` (class-data.h lines 85-87). -/
def ClassData.is_polymorphic_class (c : ClassData) : Bool :=
  !c.derived_classes.isEmpty || !c.implements.isEmpty || c.parent_class.isSome

/-- The method `ClassData::find_by_local_name<MemberT>`: the loop
`for (klass = get_self(); klass; klass = klass->parent_class)`, entered with `klass`.
`find_local` is `ClassMembersContainer::find_by_local_name<MemberT>`; every iteration uses
one unit of `fuel`.  (The `AutoLocker` of each iteration is not modelled.) -/
def ClassData.find_by_local_name {M : Type} (find_local : ClassMembersContainer → Str → Option M)
    (classes : ClassHeap) (name : Str) : Nat → ClassPtr → Except Fault (Option M)
  | _, none => .ok none
  | 0, some _ => .error Fault.out_of_fuel
  | fuel + 1, some k =>
    match classes.get? k with
    | none => .error Fault.invalid_access
    | some klass =>
      match find_local klass.members name with
      | some member => .ok (some member)
      | none => ClassData.find_by_local_name find_local classes name fuel klass.parent_class

/-- The method `ClassData::get_instance_method` of the class at address `this`. -/
def ClassData.get_instance_method (classes : ClassHeap) (fuel : Nat) (this : Nat)
    (local_name : Str) : Except Fault (Option ClassMemberInstanceMethod) :=
  ClassData.find_by_local_name ClassMembersContainer.get_instance_method classes local_name
    fuel (some this)

def ClassData.get_instance_field (classes : ClassHeap) (fuel : Nat) (this : Nat)
    (local_name : Str) : Except Fault (Option ClassMemberInstanceField) :=
  ClassData.find_by_local_name ClassMembersContainer.get_instance_field classes local_name
    fuel (some this)

def ClassData.get_static_field (classes : ClassHeap) (fuel : Nat) (this : Nat)
    (local_name : Str) : Except Fault (Option ClassMemberStaticField) :=
  ClassData.find_by_local_name ClassMembersContainer.get_static_field classes local_name
    fuel (some this)

def ClassData.get_constant (classes : ClassHeap) (fuel : Nat) (this : Nat)
    (local_name : Str) : Except Fault (Option ClassMemberConstant) :=
  ClassData.find_by_local_name ClassMembersContainer.get_constant classes local_name
    fuel (some this)

/-- Modelled from the spec: `ClassData::gen_vertex_this(location)` (class-data.cpp is not
part of the sources) builds the variable vertex of the self-parameter `$this`. -/
def ClassData.gen_vertex_this (location : Location) : Vertex :=
  .mk { type := Operation.op_var, str_val := "this".toList, location := location,
        extra_type := OperationExtra.op_ex_var_this } []

/-! ## LambdaGenerator (lambda-generator.cpp) -/

/-- A lambda class: `ClassData` and the flag `is_static` of `LambdaClassData`. -/
structure LambdaClassData extends ClassData where
  is_static : Bool := false
  deriving DecidableEq, Repr

/-- Modelled from the spec: `LambdaClassData::get_parent_this_name()`
(lambda-class-data.h is not part of the sources), the reserved name of the field that holds
the enclosing instance; lambda-generator.cpp line 198 spells it `parent$this`. -/
def LambdaClassData.get_parent_this_name : Str := "parent$this".toList

structure LambdaGenerator where
  created_location : Location := {}
  lambda_class_name : Vertex := Vertex.create Operation.op_func_name []
  generated_lambda : Option LambdaClassData := none
  uses : List Vertex := []
  deriving DecidableEq, Repr

/-- The loop of `add_uses` (lines 35-43): one private instance field per element of
`uses`, each marked constant through `get_instance_field`. -/
def add_uses_fields : List Vertex → ClassMembersContainer → Except Fault ClassMembersContainer
  | [], members => .ok members
  | param_as_use :: rest, members => do
    let variable_in_use := Vertex.create Operation.op_var []
    let variable_in_use := variable_in_use.set_string (← param_as_use.var).get_string
    let variable_in_use := variable_in_use.set_location param_as_use.location
    let members := members.add_instance_field variable_in_use none AccessType.access_private []
    match mark_first_as_const variable_in_use.get_string members.instance_fields with
    | none => throw Fault.invalid_access
    | some fields => add_uses_fields rest { members with instance_fields := fields }

/-- The capture that `add_uses` prepends for a non-static lambda (lines 25-30). -/
def implicit_parent_this_param (created_location : Location) : Vertex :=
  let implicit_captured_var_parent_this := Vertex.create Operation.op_var []
  let implicit_captured_var_parent_this :=
    implicit_captured_var_parent_this.set_string LambdaClassData.get_parent_this_name
  let implicit_captured_var_parent_this :=
    implicit_captured_var_parent_this.set_location created_location
  let func_param := Vertex.create Operation.op_func_param [implicit_captured_var_parent_this]
  func_param.set_location created_location

/-- The method `LambdaGenerator::add_uses`. -/
def LambdaGenerator.add_uses (g : LambdaGenerator) (uses : List Vertex) :
    Except Fault LambdaGenerator := do
  let generated_lambda ← match g.generated_lambda with
    | some l => pure l
    | none => throw Fault.assert_failed
  let uses :=
    if !generated_lambda.is_static then implicit_parent_this_param g.created_location :: uses
    else uses
  let members ← add_uses_fields uses generated_lambda.members
  pure { g with generated_lambda := some { generated_lambda with members := members }
                uses := uses }

/-- Modelled from the spec: the constructor that `create_constructor_with_args` generates
(the function is not part of the sources), "a generated constructor whose parameter list
equals the capture list" it is handed. -/
def constructor_function (location : Location) (params : List Vertex) : FunctionData :=
  let func_name := (Vertex.create Operation.op_func_name []).set_location location
  let param_list := (Vertex.create Operation.op_func_param_list params).set_location location
  let body := (Vertex.create Operation.op_seq []).set_location location
  let root := (Vertex.create Operation.op_function [func_name, param_list, body]).set_location location
  { root := some root }

/-- Modelled from the spec: `LambdaClassData::create_constructor_with_args(location, params)`
(not part of the sources) generates the constructor and stores it in `construct_function`.
The new `FunctionData` is allocated at the end of the heap. -/
def create_constructor_with_args (location : Location) (params : List Vertex)
    (lambda : LambdaClassData) (st : State) : State × LambdaClassData :=
  ({ st with functions := st.functions ++ [constructor_function location params] },
   { lambda with construct_function := some st.functions.length })

/-- The vector `conv_uses` that `add_constructor_from_uses` hands to the constructor builder
(line 64). -/
def LambdaGenerator.conv_uses (g : LambdaGenerator) : List Vertex := g.uses

/-- The method `LambdaGenerator::add_constructor_from_uses`. -/
def LambdaGenerator.add_constructor_from_uses (g : LambdaGenerator) (st : State) :
    Except Fault (State × LambdaGenerator) := do
  let conv_uses := g.conv_uses
  let generated_lambda ← match g.generated_lambda with
    | some l => pure l
    | none => throw Fault.invalid_access
  let (st, generated_lambda) :=
    create_constructor_with_args g.created_location conv_uses generated_lambda st
  let ctor_ptr ← match generated_lambda.construct_function with
    | some p => pure p
    | none => throw Fault.invalid_access
  let ctor ← st.deref ctor_ptr
  let st := { st with
    functions := st.functions.set ctor_ptr { ctor with is_template := !g.uses.isEmpty } }
  pure (st, { g with generated_lambda := some generated_lambda })

mutual
/-- The method `LambdaGenerator::add_this_to_captured_variables`; the result is the vertex that the
reference `root` holds afterwards. -/
def add_this_to_captured_variables (generated_lambda : LambdaClassData) : Vertex → Vertex
  | .mk d cs =>
    if d.type ≠ Operation.op_var then
      .mk d (add_this_to_captured_variables_list generated_lambda cs)
    else if (generated_lambda.members.get_instance_field d.str_val).isSome then
      let inst_prop := Vertex.create Operation.op_instance_prop [ClassData.gen_vertex_this {}]
      let inst_prop := inst_prop.set_location d.location
      inst_prop.set_string d.str_val
    else if !generated_lambda.is_static && d.str_val == "this".toList then
      let new_root := Vertex.create Operation.op_instance_prop [.mk d cs]
      let new_root := new_root.set_string LambdaClassData.get_parent_this_name
      new_root.set_location d.location
    else .mk d cs
/-- The loop `for (auto &v : *root)`. -/
def add_this_to_captured_variables_list (generated_lambda : LambdaClassData) :
    List Vertex → List Vertex
  | [] => []
  | v :: vs =>
    add_this_to_captured_variables generated_lambda v ::
      add_this_to_captured_variables_list generated_lambda vs
end

def Vertex.get_func_id (v : Vertex) : FunctionPtr := v.data.func_id

def Vertex.type_declaration (v : Vertex) : Str := v.data.type_declaration

def Vertex.is_callable (v : Vertex) : Bool := v.data.is_callable

def Vertex.set_is_callable (b : Bool) : Vertex → Vertex
  | .mk d cs => .mk { d with is_callable := b } cs

/-- The method `ClassData::patch_func_add_this` (class-data.h lines 76-82):
`function fname(args)` becomes `function fname($this, args)`. -/
def ClassData.patch_func_add_this (params_next : List Vertex) (location : Location) :
    List Vertex :=
  let vertex_this := ClassData.gen_vertex_this location
  let param_this := Vertex.create Operation.op_func_param [vertex_this]
  param_this :: params_next

/-- The function `::get_function_params(function)`: the children of the parameter list. -/
def get_function_params (function : Vertex) : Except Fault (List Vertex) := do
  let param_list ← (← function.params).as Operation.op_func_param_list
  pure param_list.children

/-- The method `LambdaGenerator::create_name`. -/
def LambdaGenerator.create_name (g : LambdaGenerator) (name : Str) : Vertex :=
  let res_name := Vertex.create Operation.op_func_name []
  let res_name := res_name.set_string name
  res_name.set_location g.created_location

/-- The `std::transform` of line 163: every parameter is cast to `meta_op_func_param`.
Modelled from the spec: of the operations of this embedding only `op_func_param` is a
`meta_op_func_param` (compiler/vertex.h is not part of the sources). -/
def cast_to_func_params : List Vertex → Except Fault (List Vertex)
  | [] => .ok []
  | p :: ps => do
    let param ← p.as Operation.op_func_param
    let rest ← cast_to_func_params ps
    pure (param :: rest)

/-- The type declaration `callable`. -/
def callable_declaration : Str := "callable".toList

/-- The loop of lines 166-176 over `func_parameters[i]`, `i >= 1`: `id` is the value of the
counter on entry.  (`static_cast<int>(id)` is the counter itself: it stays below the number
of parameters.) -/
def mark_generic_params : List Vertex → Nat → Except Fault (List Vertex)
  | [], _ => .ok []
  | p :: ps, id => do
    let param ← p.as Operation.op_func_param
    if param.type_declaration = callable_declaration then
      let param := param.set_template_type_id (id : Int)
      let param := param.set_is_callable true
      let rest ← mark_generic_params ps (id + 1)
      pure (param :: rest)
    else if param.type_declaration.isEmpty then
      let param := param.set_template_type_id (id : Int)
      let rest ← mark_generic_params ps (id + 1)
      pure (param :: rest)
    else
      let rest ← mark_generic_params ps id
      pure (param :: rest)

/-- The condition of line 157:
`function->get_func_id() && (function->get_func_id()->function_in_which_lambda_was_created
|| function->get_func_id()->is_lambda())`. -/
def has_this_param_already (function : Vertex) (st : State) : Except Fault Bool :=
  match function.get_func_id with
  | none => pure false
  | some func_id => do
    let f ← st.deref func_id
    pure (f.function_in_which_lambda_was_created.isSome || f.is_lambda)

/-- The method `LambdaGenerator::create_invoke_params`.  The parameter vertices of the
result are the vertices of `function` itself, so the writes of the loop reach the
parameters of `function` as well; the result is the new parameter list. -/
def LambdaGenerator.create_invoke_params (g : LambdaGenerator) (function : Vertex)
    (st : State) : Except Fault Vertex := do
  let _generated_lambda ← match g.generated_lambda with
    | some l => pure l
    | none => throw Fault.invalid_access
  let func_parameters := ClassData.patch_func_add_this [] g.created_location
  let params_range ← get_function_params function
  let params_range ←
    if (← has_this_param_already function st) then
      match params_range with
      | [] => throw Fault.assert_failed
      | _ :: rest => pure rest
    else pure params_range
  let func_parameters := func_parameters ++ (← cast_to_func_params params_range)
  let func_parameters ← match func_parameters with
    | [] => pure []
    | param_this :: rest => do
      let rest ← mark_generic_params rest 0
      pure (param_this :: rest)
  let params := Vertex.create Operation.op_func_param_list func_parameters
  let function_params ← function.params
  pure (params.set_location { params.location with line := function_params.location.line })

/-- The method `LambdaGenerator::create_invoke_cmd`.  (The generator is taken to hold its
lambda class whenever the body is rewritten.) -/
def LambdaGenerator.create_invoke_cmd (g : LambdaGenerator) (function : Vertex) (st : State) :
    Except Fault Vertex := do
  let new_cmd := (← function.cmd).clone
  let not_done_early ← match function.get_func_id with
    | none => pure true
    | some func_id => do
      let f ← st.deref func_id
      pure (!f.function_in_which_lambda_was_created.isSome)
  let new_cmd ←
    if not_done_early then
      match g.generated_lambda with
      | some l => pure (add_this_to_captured_variables l new_cmd)
      | none => throw Fault.invalid_access
    else pure new_cmd
  new_cmd.as Operation.op_seq

/-- The method `LambdaGenerator::register_invoke_method`; the result is the new state, the
generator and the address of the registered function. -/
def LambdaGenerator.register_invoke_method (g : LambdaGenerator) (fn : Vertex) (st : State) :
    Except Fault (State × LambdaGenerator × Nat) := do
  let generated_lambda ← match g.generated_lambda with
    | some l => pure l
    | none => throw Fault.invalid_access
  let name_vertex ← fn.name
  let fun_name := name_vertex.get_string
  let fn := fn.set_ith 0
    (name_vertex.set_string (replace_backslashes generated_lambda.name ++ "$$".toList ++ fun_name))
  let (st, invoke_function) ← FunctionData.create_function fn func_type_t.func_local st
  let f ← st.deref invoke_function
  let f := f.update_location_in_body invoke_function
  let members :=
    generated_lambda.members.add_instance_method f.local_name invoke_function
      AccessType.access_public
  let generated_lambda := { generated_lambda with members := members }
  let params ← f.get_params
  let f := { f with
    is_template := generated_lambda.members.has_any_instance_var || decide (params.length > 1)
    is_inline := true }
  let st := { st with
    functions := st.functions.set invoke_function f
    G := { st.G with registered_functions := st.G.registered_functions ++ [invoke_function] } }
  pure (st, { g with generated_lambda := some generated_lambda }, invoke_function)

/-- The method `LambdaGenerator::add_invoke_method`. -/
def LambdaGenerator.add_invoke_method (g : LambdaGenerator) (function : Vertex) (st : State) :
    Except Fault (State × LambdaGenerator) := do
  let name := g.create_name "__invoke".toList
  let params ← g.create_invoke_params function st
  let cmd ← g.create_invoke_cmd function st
  let invoke_function := Vertex.create Operation.op_function [name, params, cmd]
  let invoke_function := invoke_function.set_location g.created_location
  let (st, g, invoke_fun) ← g.register_invoke_method invoke_function st
  let has_variadic_param ← match function.get_func_id with
    | none => pure false
    | some func_id => do
      let f ← st.deref func_id
      pure f.has_variadic_param
  let f ← st.deref invoke_fun
  let st := { st with
    functions := st.functions.set invoke_fun { f with has_variadic_param := has_variadic_param } }
  pure (st, g)

def Vertex.set_extra_type (e : OperationExtra) : Vertex → Vertex
  | .mk d cs => .mk { d with extra_type := e } cs

/-- The variables of a list of parameters: `param.as<op_func_param>()->var().clone()` for
each of them. -/
def vars_of_params : List Vertex → Except Fault (List Vertex)
  | [] => .ok []
  | p :: ps => do
    let param ← p.as Operation.op_func_param
    let var := (← param.var).clone
    let rest ← vars_of_params ps
    pure (var :: rest)

/-- Modelled from the spec: `FunctionData::get_params_as_vector_of_vars(shift)` (declared in
function-data.h, its definition is not part of the sources): the variables of the
parameters of the function from index `shift` on, in order. -/
def FunctionData.get_params_as_vector_of_vars (f : FunctionData) (shift : Nat) :
    Except Fault (List Vertex) := do
  let func_params ← f.get_params
  vars_of_params (func_params.drop shift)

/-- The method template `LambdaGenerator::get_var_of_captured_array_arg<op>` (lines
206-213). -/
def LambdaGenerator.get_var_of_captured_array_arg (g : LambdaGenerator) (op : Operation) :
    Vertex :=
  let var_of_captured_array_arg := Vertex.create op []
  let var_of_captured_array_arg :=
    var_of_captured_array_arg.set_string "captured_array_arg".toList
  var_of_captured_array_arg.set_location g.created_location

/-- The method `LambdaGenerator::add_uses_for_captured_class_from_array` (lines 215-220);
without a template argument `get_var_of_captured_array_arg` creates an `op_var`. -/
def LambdaGenerator.add_uses_for_captured_class_from_array (g : LambdaGenerator) :
    LambdaGenerator :=
  let captured_class_from_array := g.get_var_of_captured_array_arg Operation.op_var
  let func_param := Vertex.create Operation.op_func_param [captured_class_from_array]
  let func_param := func_param.set_location g.created_location
  { g with uses := g.uses ++ [func_param] }

/-- The method `LambdaGenerator::create_params_for_invoke_which_call_method` (lines
222-228). -/
def LambdaGenerator.create_params_for_invoke_which_call_method (g : LambdaGenerator)
    (called_method : FunctionData) : Except Fault (List Vertex) := do
  let captured_class_from_array := g.get_var_of_captured_array_arg Operation.op_var
  let lambda_params ← called_method.get_params_as_vector_of_vars 1
  pure (captured_class_from_array :: lambda_params)

/-- The sequence `return <call>` that `create_invoke_fun_returning_call` builds (lines
253-256): the call, the `op_return` and the `op_seq` get the location of the closure. -/
def LambdaGenerator.returning_call_body (g : LambdaGenerator) (call_function : Vertex) :
    Vertex :=
  let call_function := call_function.set_location g.created_location
  let return_call := Vertex.create Operation.op_return [call_function]
  let return_call := return_call.set_location g.created_location
  let lambda_body := Vertex.create Operation.op_seq [return_call]
  lambda_body.set_location g.created_location

/-- The method `LambdaGenerator::create_invoke_fun_returning_call` (lines 252-263). -/
def LambdaGenerator.create_invoke_fun_returning_call (g : LambdaGenerator)
    (base_fun : FunctionPtr) (call_function : Vertex) (invoke_params : Vertex) (st : State) :
    Except Fault (State × LambdaGenerator) :=
  let lambda_body := g.returning_call_body call_function
  let fn := Vertex.create Operation.op_function [g.lambda_class_name, invoke_params, lambda_body]
  let fn := fn.set_func_id base_fun
  g.add_invoke_method fn st

/-- The method `LambdaGenerator::add_invoke_method_which_call_method` (lines 71-87).  The
parameter vertices handed on are those of the called method; what `create_invoke_params`
and the owner stamping write through them reaches the called method in the C++ and is not
modelled: the heap cell of the called method is left as it was. -/
def LambdaGenerator.add_invoke_method_which_call_method (g : LambdaGenerator)
    (called_method : FunctionPtr) (st : State) : Except Fault (State × LambdaGenerator) := do
  let generated_lambda ← match g.generated_lambda with
    | some l => pure l
    | none => throw Fault.invalid_access
  let members := generated_lambda.members.add_instance_field
    (g.get_var_of_captured_array_arg Operation.op_var) none AccessType.access_private []
  let g := { g with generated_lambda := some { generated_lambda with members := members } }
  let g := g.add_uses_for_captured_class_from_array
  let called ← match called_method with
    | some p => st.deref p
    | none => throw Fault.invalid_access
  let lambda_params ← g.create_params_for_invoke_which_call_method called
  let call_function := Vertex.create Operation.op_func_call lambda_params
  let call_function := call_function.set_extra_type OperationExtra.op_ex_func_call_arrow
  let call_function := call_function.set_string called.local_name
  let call_function := call_function.set_func_id called_method
  let params_of_called_method ← called.get_params
  match params_of_called_method with
  | [] => throw Fault.assert_failed
  | _ :: params_without_arg_of_captured_class =>
    g.create_invoke_fun_returning_call called_method call_function
      (Vertex.create Operation.op_func_param_list params_without_arg_of_captured_class) st

/-- The method `LambdaGenerator::add_invoke_method_which_call_function` (lines 89-96).
The parameter list handed on is that of the called function; as for the call-method
builder, the writes through it into the called function are not modelled. -/
def LambdaGenerator.add_invoke_method_which_call_function (g : LambdaGenerator)
    (called_function : FunctionPtr) (st : State) : Except Fault (State × LambdaGenerator) := do
  let called ← match called_function with
    | some p => st.deref p
    | none => throw Fault.invalid_access
  let lambda_params ← called.get_params_as_vector_of_vars 0
  let call_function := Vertex.create Operation.op_func_call lambda_params
  let call_function := call_function.set_string called.name
  let call_function := call_function.set_func_id called_function
  let root ← match called.root with
    | some r => pure r
    | none => throw Fault.invalid_access
  g.create_invoke_fun_returning_call called_function call_function (← root.params) st

/-- The method `FunctionData::is_lambda_with_uses` (function-data.cpp lines 193-195);
`classes` is the heap that `class_id` points into. -/
def FunctionData.is_lambda_with_uses (classes : ClassHeap) (f : FunctionData) :
    Except Fault Bool :=
  if f.is_lambda then
    match f.class_id with
    | none => .ok false
    | some c =>
      match classes.get? c with
      | some klass => .ok klass.members.has_any_instance_var
      | none => .error Fault.invalid_access
  else .ok false

/-- Modelled from the spec: `CompilerCore::require_function(function, os)` (compiler-core is
not part of the sources), the "require operation that schedules a function for further
processing": the function is flagged `is_required` and written to the stream `os`, which is
the list `required_functions` here. -/
def CompilerCore.require_function (function : FunctionPtr) (st : State) : Except Fault State :=
  match function with
  | none => .error Fault.invalid_access
  | some p =>
    match st.functions.get? p with
    | none => .error Fault.invalid_access
    | some f =>
      .ok { st with
        functions := st.functions.set p { f with is_required := true }
        G := { st.G with required_functions := st.G.required_functions ++ [p] } }

/-- Modelled from the spec: `CompilerCore::register_and_require_function(function, os, true)`
(not part of the sources): the function is entered into the table of functions and then
required. -/
def CompilerCore.register_and_require_function (function : FunctionPtr) (st : State) :
    Except Fault State :=
  match function with
  | none => .error Fault.invalid_access
  | some p =>
    CompilerCore.require_function (some p)
      { st with G := { st.G with registered_functions := st.G.registered_functions ++ [p] } }

/-- Modelled from the spec: `ClassData::gen_holder_function(name)` of the class at address
`this` (class-data.cpp is not part of the sources), "a generated synthetic holder function
used to keep an unused class reachable": a new function object of the type
`func_class_holder` that belongs to the class and carries the name it is handed. -/
def ClassData.gen_holder_function (this : Nat) (name : Str) (st : State) : State × Nat :=
  ({ st with functions := st.functions ++
      [{ name := name, type_ := func_type_t.func_class_holder, class_id := some this }] },
   st.functions.length)

/-- The loop of `generate` (lines 118-120) over the instance methods of the lambda class:
`m.function->function_in_which_lambda_was_created = parent_function`. -/
def set_creation_parent (parent_function : FunctionPtr) :
    List ClassMemberInstanceMethod → State → Except Fault State
  | [], st => .ok st
  | m :: ms, st =>
    match m.function with
    | none => .error Fault.invalid_access
    | some p =>
      match st.functions.get? p with
      | none => .error Fault.invalid_access
      | some f =>
        let f := { f with function_in_which_lambda_was_created := parent_function }
        set_creation_parent parent_function ms { st with functions := st.functions.set p f }

/-- The method `LambdaGenerator::generate` (lines 116-125).  The lambda class leaves the
generator: it is stored at the end of the class heap `classes`, and its address is the
result. -/
def LambdaGenerator.generate (g : LambdaGenerator) (parent_function : FunctionPtr)
    (classes : ClassHeap) (st : State) : Except Fault (State × ClassHeap × Nat) := do
  let generated_lambda ← match g.generated_lambda with
    | some l => pure l
    | none => throw Fault.assert_failed
  let st ← set_creation_parent parent_function generated_lambda.members.instance_methods st
  let lambda_class := classes.length
  let classes := classes ++ [generated_lambda.toClassData]
  let st := { st with G := { st.G with
    registered_classes := st.G.registered_classes ++ [lambda_class]
    total_lambdas := st.G.total_lambdas + 1 } }
  pure (st, classes, lambda_class)

/-- The assertion of line 102, `invoke_method && invoke_method->function &&
!invoke_method->function->is_required`; the result is the function of the method. -/
def assert_invoke_method (invoke_method : Option ClassMemberInstanceMethod) (st : State) :
    Except Fault Nat :=
  match invoke_method with
  | none => .error Fault.assert_failed
  | some m =>
    match m.function with
    | none => .error Fault.assert_failed
    | some p =>
      match st.functions.get? p with
      | none => .error Fault.invalid_access
      | some f => if f.is_required then .error Fault.assert_failed else .ok p

/-- The assertion of line 106, `constructor && !constructor->is_required`; the result is
the constructor with its function object. -/
def assert_constructor (constructor : FunctionPtr) (st : State) :
    Except Fault (Nat × FunctionData) :=
  match constructor with
  | none => .error Fault.assert_failed
  | some p =>
    match st.functions.get? p with
    | none => .error Fault.invalid_access
    | some f => if f.is_required then .error Fault.assert_failed else .ok (p, f)

/-- The method `LambdaGenerator::generate_and_require` (lines 98-114); the stream `os` is
the list `required_functions`. -/
def LambdaGenerator.generate_and_require (g : LambdaGenerator) (parent_function : FunctionPtr)
    (classes : ClassHeap) (st : State) : Except Fault (State × ClassHeap × Nat) := do
  let (st, classes, lambda_class) ← g.generate parent_function classes st
  let lambda ← match classes.get? lambda_class with
    | some l => pure l
    | none => throw Fault.invalid_access
  let invoke_method := lambda.members.get_instance_method "__invoke".toList
  let invoke_function ← assert_invoke_method invoke_method st
  let st ← CompilerCore.require_function (some invoke_function) st
  let (constructor, constructor_data) ← assert_constructor lambda.construct_function st
  let st ←
    if !(← constructor_data.is_lambda_with_uses classes) then
      CompilerCore.require_function (some constructor) st
    else pure st
  let (st, holder) := ClassData.gen_holder_function lambda_class lambda.name st
  let st ← CompilerCore.register_and_require_function (some holder) st
  pure (st, classes, lambda_class)

/-! ## Compiler settings (compiler-settings.cpp) -/

/-- The errors of the settings code: a thrown `std::runtime_error` with its message, or a
fault. -/
inductive SettingsError where
  | runtime_error (what : Str)
  | fault (f : Fault)
  deriving DecidableEq, Repr

/-- The fields of `KphpRawOption` and the `value_` of `KphpOption<T>`. -/
structure KphpOption (α : Type) where
  env_var : Str := []
  raw_option_arg : Str := []
  cmd_option_full_name : Str := []
  choices : List Str := []
  value : α

/-- The method `KphpRawOption::throw_param_exception` (lines 47-49): the exception it
throws. -/
def KphpOption.throw_param_exception {α : Type} (o : KphpOption α) (reason : Str) :
    SettingsError :=
  SettingsError.runtime_error
    ("Can't parse ".toList ++ o.cmd_option_full_name ++ " option: ".toList ++ reason)

/-- Modelled from the spec: `vk::none_of_equal(value, candidates...)` (common/algorithms is not
part of the sources): no candidate equals the value. -/
def none_of_equal (value : Str) (candidates : List Str) : Bool :=
  candidates.all (fun c => value != c)

/-- The specialization `KphpOption<bool>::parse_arg_value` (lines 90-96).  The function is
declared `noexcept`: the exception of line 93 does not reach a caller, the run ends with
it. -/
def KphpOption.parse_arg_value_bool (o : KphpOption Bool) :
    Except SettingsError (KphpOption Bool) :=
  if none_of_equal o.raw_option_arg ["1".toList, "0".toList, "".toList] then
    .error (o.throw_param_exception "'0' or '1' are expected".toList)
  else
    .ok { o with value := o.raw_option_arg == "1".toList }

/-- The settings that `CompilerSettings::init` reads or writes in lines 158-187. -/
structure CompilerSettings where
  kphp_src_path : KphpOption Str := { value := [] }
  mode : KphpOption Str := { value := [] }
  main_files : KphpOption (List Str) := { value := [] }
  tl_schema_file : KphpOption Str := { value := [] }
  static_lib_name : KphpOption Str := { value := [] }
  static_lib_out_dir : KphpOption Str := { value := [] }
  includes : KphpOption (List Str) := { value := [] }

/-- What `init` takes from outside the program: the file system behind `get_full_path`
(compiler/utils/string-utils.h is not part of the sources), and lines 189-272 of `init`,
which derive the remaining settings from the environment, the hardware and the runtime
sha256 file. -/
structure SettingsEnvironment where
  get_full_path : Str → Str
  init_tail : CompilerSettings → Except SettingsError CompilerSettings

/-- The function `as_dir` (lines 104-118). -/
def as_dir (env : SettingsEnvironment) (path : Str) : Str :=
  if path.isEmpty then path
  else
    let full_path := env.get_full_path path
    let path := if !full_path.isEmpty then full_path else path
    let path := if path.getLast? ≠ some '/' then path ++ "/".toList else path
    let path := if path.head? ≠ some '/' then "./".toList ++ path else path
    path

/-- The method `CompilerSettings::option_as_dir`. -/
def option_as_dir (env : SettingsEnvironment) (path_option : KphpOption Str) : KphpOption Str :=
  { path_option with value := as_dir env path_option.value }

/-- The method `CompilerSettings::is_static_lib_mode`. -/
def CompilerSettings.is_static_lib_mode (s : CompilerSettings) : Bool :=
  s.mode.value == "lib".toList

/-- The call `std::string::rfind(c)`: the last position of `c`, `none` for `npos`. -/
def rfind : Str → Char → Option Nat
  | [], _ => none
  | x :: xs, c =>
    match rfind xs c with
    | some i => some (i + 1)
    | none => if x = c then some 0 else none

/-- Replace the last element of a vector: the write through `main_files.value_.back()`. -/
def set_back (xs : List Str) (x : Str) : List Str :=
  xs.dropLast ++ [x]

/-- The static-lib branch of `CompilerSettings::init` (lines 162-184). -/
def CompilerSettings.init_static_lib (env : SettingsEnvironment) (s : CompilerSettings) :
    Except SettingsError CompilerSettings :=
  if s.main_files.value.length > 1 then
    .error (SettingsError.runtime_error
      "Multiple main directories are forbidden for static lib mode".toList)
  else if !s.tl_schema_file.value.isEmpty then
    .error (SettingsError.runtime_error
      ("Option ".toList ++ s.tl_schema_file.cmd_option_full_name
        ++ " is forbidden for static lib mode".toList))
  else
    match s.main_files.value.getLast? with
    | none => .error (SettingsError.fault Fault.invalid_access)
    | some main_file =>
      let lib_dir := env.get_full_path main_file
      match rfind lib_dir '/' with
      | none => .error (SettingsError.runtime_error "Bad lib directory".toList)
      | some last_slash =>
        let s := { s with static_lib_name := { s.static_lib_name with
          value := lib_dir.drop (last_slash + 1) } }
        if s.static_lib_name.value.isEmpty then
          .error (SettingsError.runtime_error "Empty static lib name".toList)
        else
          let lib_dir := as_dir env lib_dir
          let s := { s with includes := { s.includes with
            value := s.includes.value ++ [lib_dir ++ "php/".toList] } }
          let s :=
            if s.static_lib_out_dir.value.isEmpty then
              { s with static_lib_out_dir := { s.static_lib_out_dir with
                value := lib_dir ++ "lib/".toList } }
            else s
          let s := { s with static_lib_out_dir := option_as_dir env s.static_lib_out_dir }
          .ok { s with main_files := { s.main_files with
            value := set_back s.main_files.value (lib_dir ++ "/php/index.php".toList) } }

/-- The method `CompilerSettings::init`: lines 159-187, then the rest of the function. -/
def CompilerSettings.init (env : SettingsEnvironment) (s : CompilerSettings) :
    Except SettingsError CompilerSettings := do
  let s := { s with kphp_src_path := option_as_dir env s.kphp_src_path }
  let s ←
    if s.is_static_lib_mode then s.init_static_lib env
    else if !s.static_lib_out_dir.value.isEmpty then
      .error (SettingsError.runtime_error
        ("Option ".toList ++ s.static_lib_out_dir.cmd_option_full_name
          ++ " is allowed only for static lib mode".toList))
    else .ok s
  env.init_tail s

/-! ## Auxiliary definitions used to state the theorems -/

/-- A function whose root is an `op_function` vertex with the children `name`, `params`,
`cmd`, whose `params` is an `op_func_param_list`, every child of which is an `op_func_param`
with its `var()`.  These are the vertices the casts of
`generate_instance_of_template_function` expect. -/
def FunctionData.is_well_formed (f : FunctionData) : Bool :=
  match f.root with
  | some (.mk d [_, param_list, _]) =>
    d.type == Operation.op_function && param_list.type == Operation.op_func_param_list &&
      param_list.children.all
        (fun p => p.type == Operation.op_func_param && !p.children.isEmpty)
  | _ => false

/-- The parameters of a function, the empty list when the root has no parameter list. -/
def FunctionData.param_vertices (f : FunctionData) : List Vertex :=
  match f.get_params with
  | .ok ps => ps
  | .error _ => []

/-- The function object `f` as it reads when it lives at address `p`: the owner stamps of
its tree (`func_id` of the root, `location.function` of every node) name `p`. -/
def FunctionData.rebase (p : Nat) (f : FunctionData) : FunctionData :=
  { f with root := f.root.map (fun r => update_location p (r.set_func_id (some p))) }

/-- The object that lines 115-134 have filled in for the template `f` with root
`.mk d [nm, pl, cmd]`, before `update_location_in_body`: `r` is what the loop over the
parameters left, `new_ptr` the address of the object. -/
def specialized_function (f : FunctionData) (d : VertexData) (nm pl cmd : Vertex)
    (r : BindResult) (name : Str) (new_ptr : Nat) : FunctionData :=
  { root := some (.mk { d with func_id := some new_ptr }
      [nm.set_string name, pl.set_children r.params, cmd])
    assumptions_for_vars := r.assumptions_for_vars
    assumptions_inited_args := r.assumptions_inited_args
    is_required := true
    type_ := f.type_
    file_id := f.file_id
    class_id := f.class_id
    varg_flag := f.varg_flag
    tinf_state := f.tinf_state
    const_data := f.const_data
    phpdoc_token := f.phpdoc_token
    min_argn := f.min_argn
    used_in_source := f.used_in_source
    context_class := f.context_class
    access_type := f.access_type
    body_seq := f.body_seq
    is_template := false
    name := name
    function_in_which_lambda_was_created := f.function_in_which_lambda_was_created }

/-- The object left behind when the loop over the parameters stopped with `return {}`. -/
def abandoned_function (r : BindResult) : FunctionData :=
  { assumptions_for_vars := r.assumptions_for_vars
    assumptions_inited_args := r.assumptions_inited_args }

/-- The name of a parameter: the string of `param->var()`. -/
def param_name (p : Vertex) : Str :=
  match p.children with
  | v :: _ => v.get_string
  | [] => []

/-- The assumption `(kind, parameter name, class)` that the mapping holds for the parameter
`p`: the entry of the mapping for the slot id of `p`, if the slot id is a key. -/
def bound_assumption (m : TemplateMap) (p : Vertex) : Option Assumption :=
  match m.find p.template_type_id with
  | some e => some ⟨e.1, param_name p, e.2⟩
  | none => none

mutual
/-- The owning functions (`location.function`) of the nodes of a tree, the root first. -/
def Vertex.owners : Vertex → List FunctionPtr
  | .mk d cs => d.location.function :: Vertex.owners_list cs
def Vertex.owners_list : List Vertex → List FunctionPtr
  | [] => []
  | c :: cs => Vertex.owners c ++ Vertex.owners_list cs
end

mutual
/-- The tree with the owning function of every node blanked: what a tree is apart from the
owner stamps. -/
def Vertex.erase_owner : Vertex → Vertex
  | .mk d cs => .mk { d with location := { d.location with function := none } }
      (Vertex.erase_owner_list cs)
def Vertex.erase_owner_list : List Vertex → List Vertex
  | [] => []
  | c :: cs => Vertex.erase_owner c :: Vertex.erase_owner_list cs
end

/-- A parameter that the loop of `create_invoke_params` makes a generic slot: its type
declaration is empty or `callable`. -/
def is_generic_declaration (p : Vertex) : Bool :=
  p.type_declaration = callable_declaration || p.type_declaration.isEmpty

/-- A parameter apart from its slot id and its `is_callable` flag. -/
def Vertex.without_slot (p : Vertex) : Vertex :=
  (p.set_template_type_id (-1)).set_is_callable false

mutual
/-- Every variable node of the tree is a leaf, as the `op_var` vertices of the compiler
are. -/
def Vertex.vars_are_leaves : Vertex → Bool
  | .mk d cs => (d.type != Operation.op_var || cs.isEmpty) && Vertex.vars_are_leaves_list cs
def Vertex.vars_are_leaves_list : List Vertex → Bool
  | [] => true
  | c :: cs => Vertex.vars_are_leaves c && Vertex.vars_are_leaves_list cs
end

mutual
/-- The names of the variable nodes of a tree, the root first. -/
def Vertex.var_names : Vertex → List Str
  | .mk d cs =>
    (if d.type = Operation.op_var then [d.str_val] else []) ++ Vertex.var_names_list cs
def Vertex.var_names_list : List Vertex → List Str
  | [] => []
  | c :: cs => Vertex.var_names c ++ Vertex.var_names_list cs
end

mutual
/-- Body rewriting as the specification words it: a variable node whose name is a captured
field becomes an instance-property access of that name on the self-parameter `$this`; a
variable node named `this` in a non-static closure becomes an access to the reserved
parent-this field; every other node is kept, with its children (rewritten) in the same
order. -/
def rewrite_body_by_spec (l : LambdaClassData) : Vertex → Vertex
  | .mk d cs =>
    if d.type = Operation.op_var ∧ (l.members.get_instance_field d.str_val).isSome = true then
      .mk { type := Operation.op_instance_prop, str_val := d.str_val, location := d.location }
        [ClassData.gen_vertex_this {}]
    else if d.type = Operation.op_var ∧ l.is_static = false ∧ d.str_val = "this".toList then
      .mk { type := Operation.op_instance_prop, str_val := LambdaClassData.get_parent_this_name,
            location := d.location } [.mk d cs]
    else .mk d (rewrite_body_by_spec_list l cs)
def rewrite_body_by_spec_list (l : LambdaClassData) : List Vertex → List Vertex
  | [] => []
  | c :: cs => rewrite_body_by_spec l c :: rewrite_body_by_spec_list l cs
end

/-- The chain of predecessors that starts at `p`: `PrevChain st prev p fs` says that the
functions at `p`, `prev` of it, `prev` of that, ... are `fs`, the last one having no
predecessor.  A function has such a list exactly when the chain is finite. -/
inductive PrevChain (st : State) (prev : FunctionData → FunctionPtr) :
    FunctionPtr → List FunctionData → Prop where
  | nil : PrevChain st prev none []
  | cons {p : Nat} {f : FunctionData} {fs : List FunctionData} :
      st.functions.get? p = some f → PrevChain st prev (prev f) fs →
      PrevChain st prev (some p) (f :: fs)

/-- The reasons with which lines 161-187 of `CompilerSettings::init` throw. -/
def init_failure_reasons (s : CompilerSettings) : List Str :=
  ["Multiple main directories are forbidden for static lib mode".toList,
   "Option ".toList ++ s.tl_schema_file.cmd_option_full_name
     ++ " is forbidden for static lib mode".toList,
   "Bad lib directory".toList,
   "Empty static lib name".toList,
   "Option ".toList ++ s.static_lib_out_dir.cmd_option_full_name
     ++ " is allowed only for static lib mode".toList]

/-- The call that `add_invoke_method_which_call_method` synthesizes for the method
`called` at address `p`, whose parameters after the first have the variables `vars`: an
arrow call of the method by its local name, on the variable `captured_array_arg` followed
by `vars`. -/
def forwarding_method_call (g : LambdaGenerator) (p : Nat) (called : FunctionData)
    (vars : List Vertex) : Vertex :=
  .mk { type := Operation.op_func_call, extra_type := OperationExtra.op_ex_func_call_arrow,
        str_val := called.local_name, func_id := some p }
    (g.get_var_of_captured_array_arg Operation.op_var :: vars)

/-- The call that `add_invoke_method_which_call_function` synthesizes for the function
`called` at address `p`, whose parameters have the variables `vars`. -/
def forwarding_function_call (p : Nat) (called : FunctionData) (vars : List Vertex) : Vertex :=
  .mk { type := Operation.op_func_call, str_val := called.name, func_id := some p } vars

/-- The capture of the receiving object that `add_uses_for_captured_class_from_array`
appends. -/
def captured_receiver_param (g : LambdaGenerator) : Vertex :=
  .mk { type := Operation.op_func_param, location := g.created_location }
    [g.get_var_of_captured_array_arg Operation.op_var]

/-- The instance field of the receiving object: private, without default value, not marked
constant, declared with the variable `captured_array_arg`. -/
def captured_receiver_field (g : LambdaGenerator) : ClassMemberInstanceField :=
  { root := g.get_var_of_captured_array_arg Operation.op_var
    def_val := none
    access_type := AccessType.access_private
    phpdoc_str := []
    var := {} }

/-- The lambda class `l` with the field of the receiving object added. -/
def with_captured_receiver (g : LambdaGenerator) (l : LambdaClassData) : LambdaClassData :=
  { l with members := { l.members with
      instance_fields := l.members.instance_fields ++ [captured_receiver_field g] } }

/-- The property access `$this->captured_array_arg` that body rewriting puts in the place
of the variable `captured_array_arg`. -/
def captured_receiver_access (g : LambdaGenerator) : Vertex :=
  .mk { type := Operation.op_instance_prop, str_val := "captured_array_arg".toList,
        location := g.created_location }
    [ClassData.gen_vertex_this {}]

/-- The root of the dispatch method that `add_invoke_method` registers at address `this`
in the lambda class `l`, with the parameters `rest` after the self-parameter and the body
`cmd`; every node is stamped with the owner `this`. -/
def dispatch_root (g : LambdaGenerator) (l : LambdaClassData) (this : Nat) (line : Int)
    (rest : List Vertex) (cmd : Vertex) : Vertex :=
  update_location this
    (.mk { type := Operation.op_function, location := g.created_location, func_id := some this }
      [(g.create_name "__invoke".toList).set_string
         (replace_backslashes l.name ++ "$$".toList ++ "__invoke".toList),
       .mk { type := Operation.op_func_param_list, location := { line := line } }
         (Vertex.create Operation.op_func_param [ClassData.gen_vertex_this g.created_location]
           :: rest),
       cmd])

/-! ## Example objects -/

/-- The template `function f($x, $y)` whose first parameter is the template slot 0 and whose
second parameter is not a slot. -/
def example_template : FunctionData :=
  { name := "f".toList
    is_template := true
    root := some (.mk { type := Operation.op_function }
      [.mk { type := Operation.op_func_name, str_val := "f".toList } [],
       .mk { type := Operation.op_func_param_list }
         [.mk { type := Operation.op_func_param, template_type_id := 0 }
            [.mk { type := Operation.op_var, str_val := "x".toList } []],
          .mk { type := Operation.op_func_param }
            [.mk { type := Operation.op_var, str_val := "y".toList } []]],
       .mk { type := Operation.op_seq }
         [.mk { type := Operation.op_return } [.mk { type := Operation.op_var, str_val := "x".toList } []]]]) }

/-- A heap that holds `example_template` at address 0. -/
def example_state : State := { functions := [example_template] }

/-- A mapping that binds slot 0 to the class at address 7. -/
def example_mapping : TemplateMap := [(0, (AssumType.assum_instance, some 7))]

/-- A non-empty mapping that has no entry for slot 0. -/
def example_incomplete_mapping : TemplateMap := [(1, (AssumType.assum_instance, some 7))]

/-- The parent chain that starts at `c`: `ParentChain classes c cs` says that the classes
at `c`, `c->parent_class`, `c->parent_class->parent_class`, ... are `cs`, the last one
having no parent.  A class has such a list exactly when its parent chain is finite. -/
inductive ParentChain (classes : ClassHeap) : ClassPtr → List ClassData → Prop where
  | nil : ParentChain classes none []
  | cons {k : Nat} {klass : ClassData} {cs : List ClassData} :
      classes.get? k = some klass → ParentChain classes klass.parent_class cs →
      ParentChain classes (some k) (klass :: cs)

/-- Class `A` (address 0) declares method `m` (function 10) and method `a` (function 12). -/
def example_class_A : ClassData :=
  { name := "A".toList
    members := { instance_methods :=
      [⟨"m".toList, some 10, AccessType.access_public⟩,
       ⟨"a".toList, some 12, AccessType.access_public⟩] } }

/-- Class `B extends A` (address 1) declares its own method `m` (function 11). -/
def example_class_B : ClassData :=
  { name := "B".toList
    parent_class := some 0
    members := { instance_methods := [⟨"m".toList, some 11, AccessType.access_public⟩] } }

def example_classes : ClassHeap := [example_class_A, example_class_B]

/-- The name of the variable of a capture: the string of `param_as_use->var()`. -/
def capture_name (u : Vertex) : Str :=
  match u.children with
  | v :: _ => v.get_string
  | [] => []

/-- The instance field that one iteration of the loop of `add_uses` leaves for the capture
`u`: a private field without default value, declared with a fresh variable vertex that has
the name of the captured variable and the location of the capture, marked constant. -/
def captured_field (u : Vertex) : ClassMemberInstanceField :=
  { root := .mk { type := Operation.op_var, str_val := capture_name u, location := u.location } []
    def_val := none
    access_type := AccessType.access_private
    phpdoc_str := []
    var := { marked_as_const := true } }

/-- The capture `use ($name)`. -/
def example_use (name : Str) : Vertex :=
  .mk { type := Operation.op_func_param } [.mk { type := Operation.op_var, str_val := name } []]

/-- A generator that holds a fresh non-static lambda class. -/
def example_generator : LambdaGenerator :=
  { generated_lambda := some { name := "L$lambda".toList, is_static := false } }

/-- A generator that holds a fresh static lambda class. -/
def example_static_generator : LambdaGenerator :=
  { generated_lambda := some { name := "L$lambda".toList, is_static := true } }

/-- A non-static lambda class with the fields `parent$this` and `a`. -/
def example_lambda : LambdaClassData :=
  { name := "L$lambda".toList
    is_static := false
    members := { instance_fields :=
      [captured_field (implicit_parent_this_param {}), captured_field (example_use "a".toList)] } }

/-- A static lambda class with the field `a`. -/
def example_static_lambda : LambdaClassData :=
  { name := "L$lambda".toList
    is_static := true
    members := { instance_fields := [captured_field (example_use "a".toList)] } }

/-- A declared parameter `$name` with the type declaration `type_declaration`. -/
def example_param (type_declaration name : Str) : Vertex :=
  .mk { type := Operation.op_func_param, type_declaration := type_declaration }
    [.mk { type := Operation.op_var, str_val := name } []]

/-- The closure literal with the given declared parameters and the body `return $a;`,
not yet attached to a function. -/
def example_closure (params : List Vertex) : Vertex :=
  .mk { type := Operation.op_function }
    [.mk { type := Operation.op_func_name } [],
     .mk { type := Operation.op_func_param_list, location := { line := 5 } } params,
     .mk { type := Operation.op_seq }
       [.mk { type := Operation.op_return }
          [.mk { type := Operation.op_var, str_val := "a".toList } []]]]

/-- A generator that holds a fresh static lambda class with a namespaced name. -/
def example_namespaced_generator : LambdaGenerator :=
  { generated_lambda := some { name := "VK\\Feed\\L".toList, is_static := true } }

/-- A function object that is already a lambda (the dispatch method of a converted
closure). -/
def example_lambda_function : FunctionData :=
  { name := "L$$__invoke".toList, is_lambda := true }

/-- A heap that holds `example_lambda_function` at address 0. -/
def example_lambda_state : State := { functions := [example_lambda_function] }

/-- The closure literal of `example_lambda_function`: its first parameter is the `$this`
that an earlier conversion has put in front of the declared parameter `$x`. -/
def example_converted_closure : Vertex :=
  (example_closure
    [Vertex.create Operation.op_func_param [ClassData.gen_vertex_this {}],
     example_param [] "x".toList]).set_func_id (some 0)

/-- The body `{ return f($a, $this, $b); }`. -/
def example_body : Vertex :=
  .mk { type := Operation.op_seq }
    [.mk { type := Operation.op_return }
      [.mk { type := Operation.op_func_call, str_val := "f".toList }
        [.mk { type := Operation.op_var, str_val := "a".toList } [],
         .mk { type := Operation.op_var, str_val := "this".toList } [],
         .mk { type := Operation.op_var, str_val := "b".toList } []]]]

/-- A heap with the functions `a` (address 0), `b` (1), `c` (2), `d` (3): `c` was forked
from `b`, `b` from `a`, and `c` waits for `d`. -/
def example_resumable_state : State :=
  { functions :=
      [{ name := "a".toList },
       { name := "b".toList, fork_prev := some 0 },
       { name := "c".toList, fork_prev := some 1, wait_prev := some 3 },
       { name := "d".toList }] }

/-- The option `verbosity` (short name `v`) with the raw text `yes`. -/
def example_bool_option : KphpOption Bool :=
  { raw_option_arg := "yes".toList
    cmd_option_full_name := "--verbosity [KPHP_VERBOSITY]".toList
    value := false }

/-- An environment in which every path is its own full path and the rest of `init` changes
nothing. -/
def example_environment : SettingsEnvironment :=
  { get_full_path := fun path => path
    init_tail := fun s => .ok s }

/-- Settings of a static library whose only main file is the directory `libs/`. -/
def example_lib_settings : CompilerSettings :=
  { mode := { value := "lib".toList }
    main_files := { value := ["libs/".toList] } }

/-- Settings of a server build that name an output directory for a static library. -/
def example_server_settings : CompilerSettings :=
  { mode := { value := "server".toList }
    static_lib_out_dir :=
      { value := "out".toList, cmd_option_full_name := "--out-lib-dir".toList } }

/-- The method `A::m($obj, $x, $y)` of class `A`, with the body `return $x;`. -/
def example_method : FunctionData :=
  { name := "A$$m".toList
    root := some (.mk { type := Operation.op_function }
      [.mk { type := Operation.op_func_name, str_val := "A$$m".toList } [],
       .mk { type := Operation.op_func_param_list }
         [example_param "A".toList "obj".toList, example_param "int".toList "x".toList,
          example_param "int".toList "y".toList],
       .mk { type := Operation.op_seq }
         [.mk { type := Operation.op_return }
            [.mk { type := Operation.op_var, str_val := "x".toList } []]]]) }

/-- A heap that holds `example_method` at address 0. -/
def example_method_state : State := { functions := [example_method] }

/-- The free function `f($x)` with the body `return $x;`. -/
def example_free_function : FunctionData :=
  { name := "f".toList
    root := some (.mk { type := Operation.op_function }
      [.mk { type := Operation.op_func_name, str_val := "f".toList } [],
       .mk { type := Operation.op_func_param_list } [example_param "int".toList "x".toList],
       .mk { type := Operation.op_seq }
         [.mk { type := Operation.op_return }
            [.mk { type := Operation.op_var, str_val := "x".toList } []]]]) }

/-- A heap that holds `example_free_function` at address 0. -/
def example_free_function_state : State := { functions := [example_free_function] }

/-- The method `L::__invoke($this)` of a lambda class that was created inside the function
at address 0. -/
def example_created_method : FunctionData :=
  { name := "L$$__invoke".toList
    function_in_which_lambda_was_created := some 0
    root := some (.mk { type := Operation.op_function }
      [.mk { type := Operation.op_func_name, str_val := "L$$__invoke".toList } [],
       .mk { type := Operation.op_func_param_list }
         [Vertex.create Operation.op_func_param [ClassData.gen_vertex_this {}]],
       .mk { type := Operation.op_seq } []]) }

/-- The method `L::__invoke($this, $x)` of a lambda class that was created inside the
function at address 0. -/
def example_created_method_with_param : FunctionData :=
  { name := "L$$__invoke".toList
    function_in_which_lambda_was_created := some 0
    root := some (.mk { type := Operation.op_function }
      [.mk { type := Operation.op_func_name, str_val := "L$$__invoke".toList } [],
       .mk { type := Operation.op_func_param_list }
         [Vertex.create Operation.op_func_param [ClassData.gen_vertex_this {}],
          example_param [] "x".toList],
       .mk { type := Operation.op_seq } []]) }

/-- A heap that holds the function `main` at address 0, `example_created_method` at
address 1 and `example_created_method_with_param` at address 2. -/
def example_created_method_state : State :=
  { functions :=
      [{ name := "main".toList }, example_created_method, example_created_method_with_param] }

/-- A lambda class without captured fields: its dispatch method is the function at
address 0, its constructor the function at address 1. -/
def example_finished_lambda : LambdaClassData :=
  { name := "L$lambda".toList
    is_static := true
    construct_function := some 1
    members := { instance_methods :=
      [⟨"__invoke".toList, some 0, AccessType.access_public⟩,
       ⟨"__construct".toList, some 1, AccessType.access_public⟩] } }

/-- The same lambda class with the captured field `a`. -/
def example_finished_lambda_with_uses : LambdaClassData :=
  { example_finished_lambda with
    members := { example_finished_lambda.members with
      instance_fields := [captured_field (example_use "a".toList)] } }

/-- A heap with the dispatch method (address 0) and the constructor (address 1) of a lambda
class that will be stored at address 0 of an empty class heap, and the enclosing function
`main` (address 2). -/
def example_finished_state : State :=
  { functions :=
      [{ name := "L$lambda$$__invoke".toList, is_lambda := true, class_id := some 0 },
       { name := "L$lambda$$__construct".toList, is_lambda := true, class_id := some 0 },
       { name := "main".toList }] }

/-! # Theorems -/

/-! ## Generic specializer: theorems -/

theorem bind_template_params_ok (m : TemplateMap) :
    ∀ (ps : List Vertex) (as : List Assumption) (ini : Int),
      (∀ p ∈ ps, p.type = Operation.op_func_param ∧ p.children ≠ []) →
      ∃ r, bind_template_params m ps as ini = .ok r ∧
        (r.completed = false ↔
          (m ≠ [] ∧ ∃ p ∈ ps, p.template_type_id ≠ -1 ∧ m.find p.template_type_id = none)) ∧
        (r.completed = true → r.params = ps.map (Vertex.set_template_type_id (-1))) ∧
        (m = [] → r.assumptions_for_vars = as ∧ r.assumptions_inited_args = ini) := by
  intro ps
  induction ps with
  | nil =>
    intro as ini _
    exact ⟨⟨true, [], as, ini⟩, rfl, by simp, by simp, by simp⟩
  | cons p ps ih =>
    intro as ini hwf
    have hp := hwf p (List.mem_cons_self _ _)
    have hrest : ∀ q ∈ ps, q.type = Operation.op_func_param ∧ q.children ≠ [] :=
      fun q hq => hwf q (List.mem_cons_of_mem _ hq)
    have has : p.as Operation.op_func_param = .ok p := by simp [Vertex.as, hp.1]
    cases hfind : m.find p.template_type_id with
    | none =>
      by_cases hc : (m.isEmpty || p.template_type_id == -1) = true
      · obtain ⟨r, hr, h1, h2, h3⟩ := ih as ini hrest
        refine ⟨{ r with params := p.set_template_type_id (-1) :: r.params }, ?_, ?_, ?_, ?_⟩
        · simp only [bind_template_params, has, bind, Except.bind, hfind, hc, if_true, hr]
          rfl
        · simp only [h1, List.mem_cons, exists_eq_or_imp]
          have hhead : ¬ (m ≠ [] ∧ p.template_type_id ≠ -1) := by
            rintro ⟨hm, hid⟩
            simp only [Bool.or_eq_true, List.isEmpty_iff, beq_iff_eq] at hc
            rcases hc with hc | hc
            · exact hm hc
            · exact hid hc
          constructor
          · rintro ⟨hm, q, hq, hq1, hq2⟩
            exact ⟨hm, Or.inr ⟨q, hq, hq1, hq2⟩⟩
          · rintro ⟨hm, h | ⟨q, hq, hq1, hq2⟩⟩
            · exact absurd ⟨hm, h.1⟩ hhead
            · exact ⟨hm, q, hq, hq1, hq2⟩
        · intro hcomp
          simp [h2 hcomp]
        · exact h3
      · refine ⟨⟨false, p :: ps, as, ini⟩, ?_, ?_, ?_, ?_⟩
        · simp only [bind_template_params, has, bind, Except.bind, hfind, hc]
          rfl
        · simp only [Bool.or_eq_true, List.isEmpty_iff, beq_iff_eq, not_or] at hc
          simp only [true_iff]
          exact ⟨hc.1, p, List.mem_cons_self _ _, hc.2, hfind⟩
        · simp
        · simp
    | some e =>
      obtain ⟨v, vs, hv⟩ := List.exists_cons_of_ne_nil hp.2
      have hvar : p.var = .ok v := by simp [Vertex.var, Vertex.ith, hv]
      obtain ⟨r, hr, h1, h2, h3⟩ := ih (as ++ [⟨e.1, v.get_string, e.2⟩]) 2 hrest
      refine ⟨{ r with params := p.set_template_type_id (-1) :: r.params }, ?_, ?_, ?_, ?_⟩
      · simp only [bind_template_params, has, bind, Except.bind, hfind, hvar, hr]
        rfl
      · simp only [h1, List.mem_cons, exists_eq_or_imp]
        constructor
        · rintro ⟨hm, q, hq, hq1, hq2⟩
          exact ⟨hm, Or.inr ⟨q, hq, hq1, hq2⟩⟩
        · rintro ⟨hm, h | ⟨q, hq, hq1, hq2⟩⟩
          · rw [hfind] at h; exact absurd h.2 (by simp)
          · exact ⟨hm, q, hq, hq1, hq2⟩
      · intro hcomp
        simp [h2 hcomp]
      · intro hm
        subst hm
        simp [TemplateMap.find] at hfind

theorem is_well_formed_iff (f : FunctionData) (h : f.is_well_formed = true) :
    ∃ d nm pl cmd, f.root = some (.mk d [nm, pl, cmd]) ∧ d.type = Operation.op_function ∧
      pl.type = Operation.op_func_param_list ∧
      ∀ p ∈ pl.children, p.type = Operation.op_func_param ∧ p.children ≠ [] := by
  unfold FunctionData.is_well_formed at h
  split at h
  · rename_i d nm pl cmd hroot
    simp only [Bool.and_eq_true, beq_iff_eq, List.all_eq_true, Bool.not_eq_true',
      List.isEmpty_eq_false] at h
    refine ⟨d, nm, pl, cmd, hroot, h.1.1, h.1.2, fun p hp => ⟨(h.2 p hp).1, ?_⟩⟩
    have := (h.2 p hp).2
    intro hnil
    simp [hnil] at this
  · simp at h

/-- The new object that `generate_instance_of_template_function` builds from the template
`f` with root `.mk d [nm, pl, cmd]`, once the loop has left the parameters `params` and the
assumption fields `as`, `ini`. -/
theorem generate_instance_core_run (m : TemplateMap) (f : FunctionData) (name : Str)
    (new_ptr : Nat) (d : VertexData) (nm pl cmd : Vertex)
    (hT : f.is_template = true) (hroot : f.root = some (.mk d [nm, pl, cmd]))
    (hd : d.type = Operation.op_function) (hpl : pl.type = Operation.op_func_param_list)
    (r : BindResult) (hr : bind_template_params m pl.children [] 0 = .ok r) :
    generate_instance_core m f name new_ptr = .ok
      (if r.completed then
        ((specialized_function f d nm pl cmd r name new_ptr).update_location_in_body new_ptr, true)
      else (abandoned_function r, false)) := by
  have hty : (Vertex.mk d [nm, pl, cmd]).type = Operation.op_function := hd
  cases pl with
  | mk pd pcs =>
  simp only [Vertex.children] at hr
  unfold generate_instance_core
  simp only [hT, hroot, Vertex.params, Vertex.name, Vertex.ith, Vertex.children, Vertex.as, hpl,
    hty, Vertex.clone, bind, Except.bind, pure, Except.pure, List.get?, if_true, hr]
  cases hc : r.completed <;> simp [Vertex.set_ith, Vertex.set_children, Vertex.children,
    Vertex.set_func_id, List.set, specialized_function, abandoned_function]

mutual
theorem update_location_twice (p q : Nat) :
    ∀ v : Vertex, update_location q (update_location p v) = update_location q v
  | .mk d cs => by
    simp only [update_location, update_location_list_twice p q cs]
theorem update_location_list_twice (p q : Nat) :
    ∀ vs : List Vertex,
      update_location_list q (update_location_list p vs) = update_location_list q vs
  | [] => rfl
  | v :: vs => by
    simp only [update_location_list, update_location_twice p q v,
      update_location_list_twice p q vs]
end

theorem update_location_list_eq_map (p : Nat) (vs : List Vertex) :
    update_location_list p vs = vs.map (update_location p) := by
  induction vs with
  | nil => rfl
  | cons v vs ih => simp [update_location_list, ih]

theorem update_location_type (p : Nat) (v : Vertex) : (update_location p v).type = v.type := by
  cases v with
  | mk d cs => simp [update_location, Vertex.type, Vertex.data]

theorem update_location_template_type_id (p : Nat) (v : Vertex) :
    (update_location p v).template_type_id = v.template_type_id := by
  cases v with
  | mk d cs => simp [update_location, Vertex.template_type_id, Vertex.data]

theorem set_template_type_id_template_type_id (i : Int) (v : Vertex) :
    (v.set_template_type_id i).template_type_id = i := by
  cases v with
  | mk d cs => simp [Vertex.set_template_type_id, Vertex.template_type_id, Vertex.data]

theorem get_params_of_root (f : FunctionData) (d : VertexData) (nm pl cmd : Vertex)
    (hroot : f.root = some (.mk d [nm, pl, cmd])) (hpl : pl.type = Operation.op_func_param_list) :
    f.get_params = .ok pl.children := by
  simp [FunctionData.get_params, hroot, Vertex.params, Vertex.ith, Vertex.children, Vertex.as,
    hpl, bind, Except.bind, pure, Except.pure]

theorem param_vertices_of_root (f : FunctionData) (d : VertexData) (nm pl cmd : Vertex)
    (hroot : f.root = some (.mk d [nm, pl, cmd])) (hpl : pl.type = Operation.op_func_param_list) :
    f.param_vertices = pl.children := by
  simp [FunctionData.param_vertices, get_params_of_root f d nm pl cmd hroot hpl]

/-- The state and pointer that `generate_instance_of_template_function` returns for a
well-formed template. -/
theorem generate_instance_run (m : TemplateMap) (func : Nat) (name : Str) (st : State)
    (F : FunctionData) (hF : st.functions.get? func = some F) (hT : F.is_template = true)
    (hwf : F.is_well_formed = true) :
    ∃ d nm pl cmd r, F.root = some (.mk d [nm, pl, cmd]) ∧ d.type = Operation.op_function ∧
      pl.type = Operation.op_func_param_list ∧
      (∀ p ∈ pl.children, p.type = Operation.op_func_param ∧ p.children ≠ []) ∧
      bind_template_params m pl.children [] 0 = .ok r ∧
      generate_instance_core m F name st.functions.length
        = .ok (if r.completed then
          ((specialized_function F d nm pl cmd r name st.functions.length).update_location_in_body
            st.functions.length, true)
        else (abandoned_function r, false)) ∧
      generate_instance_of_template_function m func name st =
        (generate_instance_core m F name st.functions.length).map (fun x =>
          if x.2 then
            ({ st with functions := st.functions ++ [x.1] }, some st.functions.length)
          else
            ({ st with functions := st.functions ++ [x.1]
                       errors := st.errors ++ [deduce_error_message] }, none)) := by
  obtain ⟨d, nm, pl, cmd, hroot, hd, hpl, hps⟩ := is_well_formed_iff F hwf
  obtain ⟨r, hr, -⟩ := bind_template_params_ok m pl.children [] 0 hps
  refine ⟨d, nm, pl, cmd, r, hroot, hd, hpl, hps, hr,
    generate_instance_core_run m F name _ d nm pl cmd hT hroot hd hpl r hr, ?_⟩
  unfold generate_instance_of_template_function
  simp only [State.deref, hF, bind, Except.bind, Except.map]
  cases generate_instance_core m F name st.functions.length with
  | error e => rfl
  | ok x => cases hx : x.2 <;> simp [hx, pure, Except.pure]

theorem get_params_update_location_in_body (n : Nat) (g : FunctionData) (d : VertexData)
    (nm pl cmd : Vertex) (hroot : g.root = some (.mk d [nm, pl, cmd]))
    (hpl : pl.type = Operation.op_func_param_list) :
    (g.update_location_in_body n).get_params = .ok (pl.children.map (update_location n)) := by
  cases pl with
  | mk pd pcs =>
    have hpd : pd.type = Operation.op_func_param_list := hpl
    simp [FunctionData.update_location_in_body, hroot, FunctionData.get_params, update_location,
      update_location_list, Vertex.params, Vertex.ith, Vertex.children, Vertex.as, Vertex.type,
      Vertex.data, hpd, bind, Except.bind, pure, Except.pure, update_location_list_eq_map]

theorem set_children_type (cs : List Vertex) (v : Vertex) : (v.set_children cs).type = v.type := by
  cases v with
  | mk d _ => rfl

theorem set_children_children (cs : List Vertex) (v : Vertex) :
    (v.set_children cs).children = cs := by
  cases v with
  | mk d _ => rfl

theorem get?_append_new (l : List FunctionData) (x : FunctionData) :
    (l ++ [x]).get? l.length = some x := by
  simp

theorem get?_append_old (l : List FunctionData) (x : FunctionData) (a : Nat) (y : FunctionData)
    (h : l.get? a = some y) : (l ++ [x]).get? a = some y := by
  have hlt : a < l.length := by
    by_contra hge
    simp only [not_lt] at hge
    simp [List.get?_eq_getElem?, List.getElem?_eq_none hge] at h
  simp only [List.get?_eq_getElem?] at h ⊢
  rw [List.getElem?_append_left hlt]
  exact h

/-- C1. With a complete mapping the specializer returns a non-null function whose
parameters all have `template_type_id == -1` and which is not a template. -/
theorem generate_instance_complete_mapping (st : State) (func : Nat) (F : FunctionData)
    (m : TemplateMap) (name : Str)
    (hF : st.functions.get? func = some F) (hT : F.is_template = true)
    (hwf : F.is_well_formed = true)
    (hcomplete : ∀ p ∈ F.param_vertices, p.template_type_id ≠ -1 →
      (m.find p.template_type_id).isSome = true) :
    ∃ st1 g G gps, generate_instance_of_template_function m func name st = .ok (st1, some g) ∧
      st1.functions.get? g = some G ∧ G.get_params = .ok gps ∧
      gps.length = F.param_vertices.length ∧
      (∀ p ∈ gps, p.template_type_id = -1) ∧ G.is_template = false := by
  obtain ⟨d, nm, pl, cmd, r, hroot, hd, hpl, hps, hr, hcore, hrun⟩ :=
    generate_instance_run m func name st F hF hT hwf
  obtain ⟨r2, hr2, hfail, hparams, -⟩ := bind_template_params_ok m pl.children [] 0 hps
  rw [hr] at hr2
  cases hr2
  rw [param_vertices_of_root F d nm pl cmd hroot hpl] at hcomplete ⊢
  have hcomp : r.completed = true := by
    cases hc : r.completed with
    | true => rfl
    | false =>
      obtain ⟨-, p, hp, hp1, hp2⟩ := hfail.1 hc
      have := hcomplete p hp hp1
      simp [hp2] at this
  rw [hcore] at hrun
  simp only [hcomp, if_true, Except.map] at hrun
  have hgp := get_params_update_location_in_body st.functions.length
    (specialized_function F d nm pl cmd r name st.functions.length)
    { d with func_id := some st.functions.length } (nm.set_string name)
    (pl.set_children r.params) cmd rfl
    (by rw [set_children_type]; exact hpl)
  rw [set_children_children, hparams hcomp] at hgp
  refine ⟨_, _, _, _, hrun, get?_append_new _ _, hgp, ?_, ?_, ?_⟩
  · simp
  · intro p hp
    simp only [List.map_map, List.mem_map, Function.comp] at hp
    obtain ⟨q, -, rfl⟩ := hp
    rw [update_location_template_type_id, set_template_type_id_template_type_id]
  · simp [FunctionData.update_location_in_body, specialized_function]

/-- C2. For a well-formed template the specializer returns, and it returns the null
function exactly when the mapping is non-empty and some parameter has a slot id other than
`-1` that is not a key of the mapping; a non-null result points to the new object. The
registry is not touched, and the failing call reports the deduction diagnostic. -/
theorem generate_instance_null_iff (st : State) (func : Nat) (F : FunctionData)
    (m : TemplateMap) (name : Str)
    (hF : st.functions.get? func = some F) (hT : F.is_template = true)
    (hwf : F.is_well_formed = true) :
    ∃ st1 r, generate_instance_of_template_function m func name st = .ok (st1, r) ∧
      (r = none ↔ (m ≠ [] ∧ ∃ p ∈ F.param_vertices,
        p.template_type_id ≠ -1 ∧ m.find p.template_type_id = none)) ∧
      (∀ g, r = some g → ∃ G, st1.functions.get? g = some G ∧ st.functions.get? g = none) ∧
      st1.G = st.G ∧
      (r = none → st1.errors = st.errors ++ [deduce_error_message]) ∧
      (r ≠ none → st1.errors = st.errors) := by
  obtain ⟨d, nm, pl, cmd, r, hroot, hd, hpl, hps, hr, hcore, hrun⟩ :=
    generate_instance_run m func name st F hF hT hwf
  obtain ⟨r2, hr2, hfail, -, -⟩ := bind_template_params_ok m pl.children [] 0 hps
  rw [hr] at hr2
  cases hr2
  rw [param_vertices_of_root F d nm pl cmd hroot hpl]
  rw [hcore] at hrun
  cases hc : r.completed with
  | true =>
    simp only [hc, if_true, Except.map] at hrun
    refine ⟨_, _, hrun, ?_, ?_, rfl, by simp, by simp⟩
    · constructor
      · intro h; cases h
      · intro h
        have := hfail.2 h
        rw [hc] at this
        cases this
    · intro g hg
      cases hg
      exact ⟨_, get?_append_new _ _, by simp⟩
  | false =>
    simp only [hc, Bool.false_eq_true, if_false, Except.map] at hrun
    refine ⟨_, _, hrun, ?_, ?_, rfl, by simp, by simp⟩
    · exact ⟨fun _ => hfail.1 hc, fun _ => rfl⟩
    · intro g hg
      cases hg

theorem generate_instance_complete_mapping_witness :
    ∃ st1 g G gps,
      generate_instance_of_template_function example_mapping 0 "f$inst".toList example_state
        = .ok (st1, some g) ∧
      st1.functions.get? g = some G ∧ G.get_params = .ok gps ∧
      gps.length = example_template.param_vertices.length ∧
      (∀ p ∈ gps, p.template_type_id = -1) ∧ G.is_template = false :=
  generate_instance_complete_mapping example_state 0 example_template example_mapping
    "f$inst".toList rfl rfl rfl (by decide)

theorem generate_instance_null_iff_witness :
    ∃ st1 r,
      generate_instance_of_template_function example_incomplete_mapping 0 "f$inst".toList
        example_state = .ok (st1, r) ∧
      (r = none ↔ (example_incomplete_mapping ≠ [] ∧ ∃ p ∈ example_template.param_vertices,
        p.template_type_id ≠ -1 ∧ example_incomplete_mapping.find p.template_type_id = none)) ∧
      (∀ g, r = some g →
        ∃ G, st1.functions.get? g = some G ∧ example_state.functions.get? g = none) ∧
      st1.G = example_state.G ∧
      (r = none → st1.errors = example_state.errors ++ [deduce_error_message]) ∧
      (r ≠ none → st1.errors = example_state.errors) :=
  generate_instance_null_iff example_state 0 example_template example_incomplete_mapping
    "f$inst".toList rfl rfl rfl

/-- C3, counterexample. With the empty mapping the parameter of the returned function that
corresponds to the slot-0 parameter of the template has slot id `-1`, not `0`. -/
theorem generate_instance_empty_mapping_resets_slot :
    ∃ st1 g G gps,
      generate_instance_of_template_function [] 0 "f$inst".toList example_state
        = .ok (st1, some g) ∧
      st1.functions.get? g = some G ∧ G.get_params = .ok gps ∧
      gps.map Vertex.template_type_id = [-1, -1] ∧
      example_template.param_vertices.map Vertex.template_type_id = [0, -1] ∧
      gps.map Vertex.template_type_id
        ≠ example_template.param_vertices.map Vertex.template_type_id :=
  ⟨_, _, _, _, rfl, rfl, rfl, rfl, rfl, by decide⟩

/-- C3, amended. With the empty mapping the specializer reports no error and records no
assumption (`assumptions_inited_args` stays 0), and every parameter of the returned function
has `template_type_id == -1`; the parameters of the template itself keep their slot ids. -/
theorem generate_instance_empty_mapping (st : State) (func : Nat) (F : FunctionData)
    (name : Str)
    (hF : st.functions.get? func = some F) (hT : F.is_template = true)
    (hwf : F.is_well_formed = true) :
    ∃ st1 g G gps, generate_instance_of_template_function [] func name st = .ok (st1, some g) ∧
      st1.errors = st.errors ∧
      st1.functions.get? g = some G ∧ G.get_params = .ok gps ∧
      gps.length = F.param_vertices.length ∧
      (∀ p ∈ gps, p.template_type_id = -1) ∧
      G.assumptions_for_vars = [] ∧ G.assumptions_inited_args = 0 ∧
      st1.functions.get? func = some F := by
  obtain ⟨d, nm, pl, cmd, r, hroot, hd, hpl, hps, hr, hcore, hrun⟩ :=
    generate_instance_run [] func name st F hF hT hwf
  obtain ⟨r2, hr2, hfail, hparams, hassum⟩ := bind_template_params_ok [] pl.children [] 0 hps
  rw [hr] at hr2
  cases hr2
  rw [param_vertices_of_root F d nm pl cmd hroot hpl]
  have hcomp : r.completed = true := by
    cases hc : r.completed with
    | true => rfl
    | false => exact absurd rfl (hfail.1 hc).1
  rw [hcore] at hrun
  simp only [hcomp, if_true, Except.map] at hrun
  have hgp := get_params_update_location_in_body st.functions.length
    (specialized_function F d nm pl cmd r name st.functions.length)
    { d with func_id := some st.functions.length } (nm.set_string name)
    (pl.set_children r.params) cmd rfl
    (by rw [set_children_type]; exact hpl)
  rw [set_children_children, hparams hcomp] at hgp
  refine ⟨_, _, _, _, hrun, rfl, get?_append_new _ _, hgp, ?_, ?_, ?_, ?_,
    get?_append_old _ _ _ _ hF⟩
  · simp
  · intro p hp
    simp only [List.map_map, List.mem_map, Function.comp] at hp
    obtain ⟨q, -, rfl⟩ := hp
    rw [update_location_template_type_id, set_template_type_id_template_type_id]
  · simp [FunctionData.update_location_in_body, specialized_function, (hassum rfl).1]
  · simp [FunctionData.update_location_in_body, specialized_function, (hassum rfl).2]

theorem generate_instance_empty_mapping_witness :
    ∃ st1 g G gps,
      generate_instance_of_template_function [] 0 "f$inst".toList example_state
        = .ok (st1, some g) ∧
      st1.errors = example_state.errors ∧
      st1.functions.get? g = some G ∧ G.get_params = .ok gps ∧
      gps.length = example_template.param_vertices.length ∧
      (∀ p ∈ gps, p.template_type_id = -1) ∧
      G.assumptions_for_vars = [] ∧ G.assumptions_inited_args = 0 ∧
      st1.functions.get? 0 = some example_template :=
  generate_instance_empty_mapping example_state 0 example_template "f$inst".toList rfl rfl rfl

theorem specialized_function_rebase (f : FunctionData) (d : VertexData) (nm pl cmd : Vertex)
    (r : BindResult) (name : Str) (p q : Nat) :
    ((specialized_function f d nm pl cmd r name p).update_location_in_body p).rebase q
      = (specialized_function f d nm pl cmd r name q).update_location_in_body q := by
  simp [specialized_function, FunctionData.update_location_in_body, FunctionData.rebase,
    update_location, Vertex.set_func_id, update_location_list_twice]

/-- C4. A call of the specializer that returns (with a function or with the null function)
leaves every object that was on the heap as it was, the template included: its parameters
and their slot ids, `is_template`, `name`, the root name and the owner of every node of its
tree are those of `F`. A later call with any mapping and name therefore builds the same
object as it would have built before, up to the address the new object is stamped with. -/
theorem generate_instance_leaves_template (st : State) (func : Nat) (F : FunctionData)
    (m : TemplateMap) (name : Str)
    (hF : st.functions.get? func = some F) (hT : F.is_template = true)
    (hwf : F.is_well_formed = true) :
    ∃ st1 r, generate_instance_of_template_function m func name st = .ok (st1, r) ∧
      st1.functions.get? func = some F ∧
      (∀ a f, st.functions.get? a = some f → st1.functions.get? a = some f) ∧
      ∀ (m2 : TemplateMap) (name2 : Str), ∃ s2 r2 s3 r3 new,
        generate_instance_of_template_function m2 func name2 st = .ok (s2, r2) ∧
        generate_instance_of_template_function m2 func name2 st1 = .ok (s3, r3) ∧
        r2.isSome = r3.isSome ∧
        s2.functions = st.functions ++ [new] ∧
        s3.functions = st1.functions ++ [new.rebase st1.functions.length] := by
  obtain ⟨d, nm, pl, cmd, r, hroot, hd, hpl, hps, hr, hcore, hrun⟩ :=
    generate_instance_run m func name st F hF hT hwf
  rw [hcore] at hrun
  have hst1 : ∃ st1 r1 new1, generate_instance_of_template_function m func name st
      = .ok (st1, r1) ∧ st1.functions = st.functions ++ [new1] := by
    cases hc : r.completed with
    | true =>
      simp only [hc, if_true, Except.map] at hrun
      exact ⟨_, _, _, hrun, rfl⟩
    | false =>
      simp only [hc, Bool.false_eq_true, if_false, Except.map] at hrun
      exact ⟨_, _, _, hrun, rfl⟩
  obtain ⟨st1, r1, new1, hgen, hfun⟩ := hst1
  have hold : ∀ a f, st.functions.get? a = some f → st1.functions.get? a = some f := by
    intro a f ha
    rw [hfun]
    exact get?_append_old _ _ _ _ ha
  refine ⟨st1, r1, hgen, hold _ _ hF, hold, ?_⟩
  intro m2 name2
  obtain ⟨d2, nm2, pl2, cmd2, r2, hroot2, -, -, -, hr2, hcore2, hrun2⟩ :=
    generate_instance_run m2 func name2 st F hF hT hwf
  obtain ⟨d3, nm3, pl3, cmd3, r3, hroot3, -, -, -, hr3, hcore3, hrun3⟩ :=
    generate_instance_run m2 func name2 st1 F (hold _ _ hF) hT hwf
  rw [hroot2] at hroot3
  simp only [Option.some.injEq, Vertex.mk.injEq, List.cons.injEq, and_true] at hroot3
  obtain ⟨rfl, rfl, rfl, rfl⟩ := hroot3
  rw [hr2] at hr3
  cases hr3
  rw [hcore2] at hrun2
  rw [hcore3] at hrun3
  cases hc : r2.completed with
  | true =>
    simp only [hc, if_true, Except.map] at hrun2 hrun3
    refine ⟨_, _, _, _, _, hrun2, hrun3, rfl, rfl, ?_⟩
    rw [specialized_function_rebase]
  | false =>
    simp only [hc, Bool.false_eq_true, if_false, Except.map] at hrun2 hrun3
    exact ⟨_, _, _, _, _, hrun2, hrun3, rfl, rfl, rfl⟩

theorem generate_instance_leaves_template_witness :
    ∃ st1 r,
      generate_instance_of_template_function example_incomplete_mapping 0 "f$a".toList
        example_state = .ok (st1, r) ∧
      st1.functions.get? 0 = some example_template ∧
      (∀ a f, example_state.functions.get? a = some f → st1.functions.get? a = some f) ∧
      ∀ (m2 : TemplateMap) (name2 : Str), ∃ s2 r2 s3 r3 new,
        generate_instance_of_template_function m2 0 name2 example_state = .ok (s2, r2) ∧
        generate_instance_of_template_function m2 0 name2 st1 = .ok (s3, r3) ∧
        r2.isSome = r3.isSome ∧
        s2.functions = example_state.functions ++ [new] ∧
        s3.functions = st1.functions ++ [new.rebase st1.functions.length] :=
  generate_instance_leaves_template example_state 0 example_template example_incomplete_mapping
    "f$a".toList rfl rfl rfl


theorem bind_template_params_assumptions (m : TemplateMap) :
    ∀ (ps : List Vertex) (as : List Assumption) (ini : Int) (r : BindResult),
      bind_template_params m ps as ini = .ok r → r.completed = true →
      r.assumptions_for_vars = as ++ ps.filterMap (bound_assumption m) ∧
      r.assumptions_inited_args =
        (if ps.any (fun p => (m.find p.template_type_id).isSome) then 2 else ini) := by
  intro ps
  induction ps with
  | nil =>
    intro as ini r h _
    simp only [bind_template_params, Except.ok.injEq] at h
    subst h
    simp
  | cons p ps ih =>
    intro as ini r h hc
    simp only [bind_template_params, bind, Except.bind] at h
    cases has : p.as Operation.op_func_param with
    | error e => simp [has] at h
    | ok param =>
      have hpp : param = p := by
        unfold Vertex.as at has
        split at has
        · exact (Except.ok.inj has).symm
        · cases has
      subst hpp
      simp only [has] at h
      cases hfind : m.find param.template_type_id with
      | none =>
        simp only [hfind] at h
        by_cases hcond : (m.isEmpty || param.template_type_id == -1) = true
        · simp only [hcond, if_true] at h
          cases hrec : bind_template_params m ps as ini with
          | error e => simp [hrec] at h
          | ok r1 =>
            simp only [hrec, pure, Except.pure, Except.ok.injEq] at h
            subst h
            obtain ⟨h1, h2⟩ := ih as ini r1 hrec hc
            simp [h1, h2, bound_assumption, hfind]
        · simp only [hcond, Bool.false_eq_true, if_false, pure, Except.pure,
            Except.ok.injEq] at h
          subst h
          cases hc
      | some e =>
        simp only [hfind] at h
        cases hvar : param.var with
        | error e1 => simp [hvar] at h
        | ok v =>
          simp only [hvar] at h
          cases hrec : bind_template_params m ps (as ++ [⟨e.1, v.get_string, e.2⟩]) 2 with
          | error e1 => simp [hrec] at h
          | ok r1 =>
            simp only [hrec, pure, Except.pure, Except.ok.injEq] at h
            subst h
            obtain ⟨h1, h2⟩ := ih _ _ r1 hrec hc
            have hname : param_name param = v.get_string := by
              cases param with
              | mk d cs =>
                cases cs with
                | nil => simp [Vertex.var, Vertex.ith, Vertex.children] at hvar
                | cons c cs =>
                  simp only [Vertex.var, Vertex.ith, Vertex.children, List.get?,
                    Except.ok.injEq] at hvar
                  subst hvar
                  rfl
            constructor
            · simp [h1, bound_assumption, hfind, hname]
            · simp only [h2, List.any_cons, hfind, Option.isSome_some, Bool.true_or, if_true]
              split <;> rfl

/-- What a successful call of the specializer on a well-formed template leaves: the new
object is the one described by `specialized_function`, stamped and stored at the first free
address. -/
theorem generate_instance_success (m : TemplateMap) (func : Nat) (name : Str) (st st1 : State)
    (F : FunctionData) (g : Nat)
    (hF : st.functions.get? func = some F) (hT : F.is_template = true)
    (hwf : F.is_well_formed = true)
    (h : generate_instance_of_template_function m func name st = .ok (st1, some g)) :
    ∃ d nm pl cmd r, F.root = some (.mk d [nm, pl, cmd]) ∧
      pl.type = Operation.op_func_param_list ∧
      bind_template_params m pl.children [] 0 = .ok r ∧ r.completed = true ∧
      g = st.functions.length ∧
      st1 = { st with functions := st.functions ++
        [(specialized_function F d nm pl cmd r name st.functions.length).update_location_in_body
          st.functions.length] } ∧
      st1.functions.get? g = some
        ((specialized_function F d nm pl cmd r name st.functions.length).update_location_in_body
          st.functions.length) := by
  obtain ⟨d, nm, pl, cmd, r, hroot, hd, hpl, hps, hr, hcore, hrun⟩ :=
    generate_instance_run m func name st F hF hT hwf
  rw [hcore, h] at hrun
  cases hc : r.completed with
  | false =>
    simp only [hc, Bool.false_eq_true, if_false, Except.map, Except.ok.injEq,
      Prod.mk.injEq] at hrun
    exact absurd hrun.2 (by simp)
  | true =>
    simp only [hc, if_true, Except.map, Except.ok.injEq, Prod.mk.injEq,
      Option.some.injEq] at hrun
    obtain ⟨h1, h2⟩ := hrun
    subst h1 h2
    exact ⟨d, nm, pl, cmd, r, hroot, hpl, hr, hc, rfl, rfl, get?_append_new _ _⟩

theorem generate_instance_complete_run (st : State) (func : Nat) (F : FunctionData)
    (m : TemplateMap) (name : Str)
    (hF : st.functions.get? func = some F) (hT : F.is_template = true)
    (hwf : F.is_well_formed = true)
    (hcomplete : ∀ p ∈ F.param_vertices, p.template_type_id ≠ -1 →
      (m.find p.template_type_id).isSome = true) :
    ∃ st1 g, generate_instance_of_template_function m func name st = .ok (st1, some g) := by
  obtain ⟨d, nm, pl, cmd, r, hroot, hd, hpl, hps, hr, hcore, hrun⟩ :=
    generate_instance_run m func name st F hF hT hwf
  obtain ⟨r2, hr2, hfail, -, -⟩ := bind_template_params_ok m pl.children [] 0 hps
  rw [hr] at hr2
  cases hr2
  rw [param_vertices_of_root F d nm pl cmd hroot hpl] at hcomplete
  have hcomp : r.completed = true := by
    cases hc : r.completed with
    | true => rfl
    | false =>
      obtain ⟨-, p, hp, hp1, hp2⟩ := hfail.1 hc
      have := hcomplete p hp hp1
      simp [hp2] at this
  rw [hcore] at hrun
  simp only [hcomp, if_true, Except.map] at hrun
  exact ⟨_, _, hrun⟩

/-- C14, counterexample. With the complete mapping of slot 0 and the template's own name as
the specialized name, the returned function has the name of the template. -/
theorem generate_instance_same_name :
    (∀ p ∈ example_template.param_vertices, p.template_type_id ≠ -1 →
      (example_mapping.find p.template_type_id).isSome = true) ∧
    ∃ st1 g G,
      generate_instance_of_template_function example_mapping 0 example_template.name
        example_state = .ok (st1, some g) ∧
      st1.functions.get? g = some G ∧ G.name = example_template.name :=
  ⟨by decide, _, _, _, rfl, rfl, rfl⟩

/-- C14, amended. For a template and a complete mapping, the returned function has the
specialized name that the caller supplies; its name differs from the name of the template
exactly when the supplied name does. -/
theorem generate_instance_name (st : State) (func : Nat) (F : FunctionData)
    (m : TemplateMap) (name : Str)
    (hF : st.functions.get? func = some F) (hT : F.is_template = true)
    (hwf : F.is_well_formed = true)
    (hcomplete : ∀ p ∈ F.param_vertices, p.template_type_id ≠ -1 →
      (m.find p.template_type_id).isSome = true) :
    ∃ st1 g G, generate_instance_of_template_function m func name st = .ok (st1, some g) ∧
      st1.functions.get? g = some G ∧ G.name = name ∧ (G.name ≠ F.name ↔ name ≠ F.name) := by
  obtain ⟨st1, g, h⟩ := generate_instance_complete_run st func F m name hF hT hwf hcomplete
  obtain ⟨d, nm, pl, cmd, r, -, -, -, -, -, -, hG⟩ :=
    generate_instance_success m func name st st1 F g hF hT hwf h
  have hname : ((specialized_function F d nm pl cmd r name st.functions.length).update_location_in_body
      st.functions.length).name = name := by
    simp [FunctionData.update_location_in_body, specialized_function]
  exact ⟨st1, g, _, h, hG, hname, by rw [hname]⟩

theorem generate_instance_name_witness :
    ∃ st1 g G,
      generate_instance_of_template_function example_mapping 0 "f$inst".toList example_state
        = .ok (st1, some g) ∧
      st1.functions.get? g = some G ∧ G.name = "f$inst".toList ∧
      (G.name ≠ example_template.name ↔ "f$inst".toList ≠ example_template.name) :=
  generate_instance_name example_state 0 example_template example_mapping "f$inst".toList
    rfl rfl rfl (by decide)

/-- C16. When the specializer succeeds, `assumptions_for_vars` of the new function is the
list, in parameter order, of `(kind, parameter name, class)` for the parameters whose slot
id is a key of the mapping, and `assumptions_inited_args` is 2 if there is such a parameter
and 0 otherwise. -/
theorem generate_instance_assumptions (st st1 : State) (func g : Nat) (F G : FunctionData)
    (m : TemplateMap) (name : Str)
    (hF : st.functions.get? func = some F) (hT : F.is_template = true)
    (hwf : F.is_well_formed = true)
    (h : generate_instance_of_template_function m func name st = .ok (st1, some g))
    (hG : st1.functions.get? g = some G) :
    G.assumptions_for_vars = F.param_vertices.filterMap (bound_assumption m) ∧
    G.assumptions_inited_args =
      (if F.param_vertices.any (fun p => (m.find p.template_type_id).isSome) then 2 else 0) := by
  obtain ⟨d, nm, pl, cmd, r, hroot, hpl, hr, hcomp, -, -, hG1⟩ :=
    generate_instance_success m func name st st1 F g hF hT hwf h
  rw [hG] at hG1
  cases hG1
  rw [param_vertices_of_root F d nm pl cmd hroot hpl]
  obtain ⟨h1, h2⟩ := bind_template_params_assumptions m pl.children [] 0 r hr hcomp
  constructor
  · simpa [FunctionData.update_location_in_body, specialized_function] using h1
  · simpa [FunctionData.update_location_in_body, specialized_function] using h2

theorem generate_instance_assumptions_witness :
    ∃ st1 g G,
      generate_instance_of_template_function example_mapping 0 "f$inst".toList example_state
        = .ok (st1, some g) ∧ st1.functions.get? g = some G ∧
      G.assumptions_for_vars = [⟨AssumType.assum_instance, "x".toList, some 7⟩] ∧
      G.assumptions_inited_args = 2 :=
  ⟨_, _, _, rfl, rfl,
    generate_instance_assumptions example_state _ 0 _ example_template _ example_mapping
      "f$inst".toList rfl rfl rfl rfl rfl⟩

/-- C17. When the specializer succeeds with the specialized name `s`, the new function has
the name `s`, also in its root name node, is required and is not a template, and its
owning file, owning class, variadic flag, inference state, constant pool, doc-comment token,
minimum argument count, used-in-source flag, enclosing-lambda-creation link, access type
and body-completeness marker (and its type and context class) are those of the template. -/
theorem generate_instance_metadata (st st1 : State) (func g : Nat) (F G : FunctionData)
    (m : TemplateMap) (s : Str)
    (hF : st.functions.get? func = some F) (hT : F.is_template = true)
    (hwf : F.is_well_formed = true)
    (h : generate_instance_of_template_function m func s st = .ok (st1, some g))
    (hG : st1.functions.get? g = some G) :
    G.name = s ∧
    (∃ root name_vertex, G.root = some root ∧ root.name = .ok name_vertex ∧
      name_vertex.get_string = s) ∧
    G.is_required = true ∧ G.is_template = false ∧
    G.file_id = F.file_id ∧ G.class_id = F.class_id ∧ G.varg_flag = F.varg_flag ∧
    G.tinf_state = F.tinf_state ∧ G.const_data = F.const_data ∧
    G.phpdoc_token = F.phpdoc_token ∧ G.min_argn = F.min_argn ∧
    G.used_in_source = F.used_in_source ∧
    G.function_in_which_lambda_was_created = F.function_in_which_lambda_was_created ∧
    G.access_type = F.access_type ∧ G.body_seq = F.body_seq ∧
    G.type_ = F.type_ ∧ G.context_class = F.context_class := by
  obtain ⟨d, nm, pl, cmd, r, hroot, hpl, hr, hcomp, -, -, hG1⟩ :=
    generate_instance_success m func s st st1 F g hF hT hwf h
  rw [hG] at hG1
  cases hG1
  refine ⟨rfl, ?_, rfl, rfl, rfl, rfl, rfl, rfl, rfl, rfl, rfl, rfl, rfl, rfl, rfl, rfl, rfl⟩
  cases nm with
  | mk nd ncs =>
    refine ⟨_, _, rfl, rfl, rfl⟩

theorem generate_instance_metadata_witness :
    ∃ st1 g G,
      generate_instance_of_template_function example_mapping 0 "f$inst".toList example_state
        = .ok (st1, some g) ∧ st1.functions.get? g = some G ∧
      G.name = "f$inst".toList ∧
      (∃ root name_vertex, G.root = some root ∧ root.name = .ok name_vertex ∧
        name_vertex.get_string = "f$inst".toList) ∧
      G.is_required = true ∧ G.is_template = false := by
  have h := generate_instance_metadata example_state _ 0 _ example_template _ example_mapping
    "f$inst".toList rfl rfl rfl rfl rfl
  exact ⟨_, _, _, rfl, rfl, h.1, h.2.1, h.2.2.1, h.2.2.2.1⟩

mutual
theorem update_location_owners (p : Nat) :
    ∀ v : Vertex, (∀ o ∈ (update_location p v).owners, o = some p) ∧
      (update_location p v).owners.length = v.owners.length ∧
      (update_location p v).erase_owner = v.erase_owner
  | .mk d cs => by
    obtain ⟨h1, h2, h3⟩ := update_location_list_owners p cs
    refine ⟨?_, ?_, ?_⟩
    · intro o ho
      simp only [update_location, Vertex.owners, List.mem_cons] at ho
      rcases ho with ho | ho
      · exact ho
      · exact h1 o ho
    · simp only [update_location, Vertex.owners, List.length_cons, h2]
    · simp only [update_location, Vertex.erase_owner, h3]
theorem update_location_list_owners (p : Nat) :
    ∀ vs : List Vertex, (∀ o ∈ Vertex.owners_list (update_location_list p vs), o = some p) ∧
      (Vertex.owners_list (update_location_list p vs)).length = (Vertex.owners_list vs).length ∧
      Vertex.erase_owner_list (update_location_list p vs) = Vertex.erase_owner_list vs
  | [] => ⟨fun _ ho => by simp [update_location_list, Vertex.owners_list] at ho, rfl, rfl⟩
  | v :: vs => by
    obtain ⟨h1, h2, h3⟩ := update_location_owners p v
    obtain ⟨g1, g2, g3⟩ := update_location_list_owners p vs
    refine ⟨?_, ?_, ?_⟩
    · intro o ho
      simp only [update_location_list, Vertex.owners_list, List.mem_append] at ho
      rcases ho with ho | ho
      · exact h1 o ho
      · exact g1 o ho
    · simp only [update_location_list, Vertex.owners_list, List.length_append, h2, g2]
    · simp only [update_location_list, Vertex.erase_owner_list, h3, g3]
end

/-- C18. The walk of `update_location_in_body` is total. With a null root it changes
nothing. Otherwise only the root of the function changes, and in the new tree every node,
the root included, is owned by the function, the tree has as many nodes as before and is
the old tree apart from the owner stamps. Consequently every node of the tree of a function
that the specializer returns is owned by the new function and none by the template. -/
theorem update_location_in_body_owns_tree (st st1 : State) (func g : Nat) (F G : FunctionData)
    (m : TemplateMap) (name : Str)
    (hF : st.functions.get? func = some F) (hT : F.is_template = true)
    (hwf : F.is_well_formed = true)
    (h : generate_instance_of_template_function m func name st = .ok (st1, some g))
    (hG : st1.functions.get? g = some G) :
    (∀ (this : Nat) (f : FunctionData),
      (f.root = none → f.update_location_in_body this = f) ∧
      (∀ root, f.root = some root →
        ∃ root1, f.update_location_in_body this = { f with root := some root1 } ∧
          (∀ o ∈ root1.owners, o = some this) ∧
          root1.owners.length = root.owners.length ∧
          root1.erase_owner = root.erase_owner)) ∧
    (∃ root, G.root = some root ∧ ∀ o ∈ root.owners, o = some g ∧ o ≠ some func) := by
  constructor
  · intro this f
    constructor
    · intro hnone
      simp [FunctionData.update_location_in_body, hnone]
    · intro root hroot
      obtain ⟨h1, h2, h3⟩ := update_location_owners this root
      exact ⟨update_location this root, by simp [FunctionData.update_location_in_body, hroot],
        h1, h2, h3⟩
  · obtain ⟨d, nm, pl, cmd, r, hroot, hpl, hr, hcomp, hg, -, hG1⟩ :=
      generate_instance_success m func name st st1 F g hF hT hwf h
    rw [hG] at hG1
    cases hG1
    have hlt : func < st.functions.length := by
      by_contra hge
      simp only [not_lt] at hge
      simp [List.get?_eq_getElem?, List.getElem?_eq_none hge] at hF
    refine ⟨_, rfl, ?_⟩
    intro o ho
    have ho1 := (update_location_owners st.functions.length _).1 o ho
    subst hg
    refine ⟨ho1, ?_⟩
    rw [ho1]
    intro heq
    have := Option.some.inj heq
    omega

theorem update_location_in_body_owns_tree_witness :
    (∀ (this : Nat) (f : FunctionData),
      (f.root = none → f.update_location_in_body this = f) ∧
      (∀ root, f.root = some root →
        ∃ root1, f.update_location_in_body this = { f with root := some root1 } ∧
          (∀ o ∈ root1.owners, o = some this) ∧
          root1.owners.length = root.owners.length ∧
          root1.erase_owner = root.erase_owner)) ∧
    ∃ st1 G, generate_instance_of_template_function example_mapping 0 "f$inst".toList
        example_state = .ok (st1, some 1) ∧ st1.functions.get? 1 = some G ∧
      ∃ root, G.root = some root ∧ root.owners.length = 10 ∧
        ∀ o ∈ root.owners, o = some 1 ∧ o ≠ some 0 := by
  have h := update_location_in_body_owns_tree example_state _ 0 1 example_template _
    example_mapping "f$inst".toList rfl rfl rfl rfl rfl
  obtain ⟨root, hroot, hown⟩ := h.2
  refine ⟨h.1, _, _, rfl, rfl, root, hroot, ?_, hown⟩
  have : root = _ := Option.some.inj (hroot.symm.trans rfl)
  rw [this]
  rfl

/-! ## Human-readable names: theorems -/

theorem match_group_sound (k : Str → Option (List Str)) :
    ∀ (s pre : Str) (caps : List Str), match_group k pre s = some caps →
      ∃ g rest caps1, g ≠ [] ∧ (∀ c ∈ g, is_line_terminator c = false) ∧ s = g ++ rest ∧
        k rest = some caps1 ∧ caps = (pre ++ g) :: caps1 := by
  intro s
  induction s with
  | nil => intro pre caps h; simp [match_group] at h
  | cons x xs ih =>
    intro pre caps h
    unfold match_group at h
    by_cases hx : is_line_terminator x = true
    · simp [hx] at h
    · simp only [hx, Bool.false_eq_true, if_false] at h
      cases hrec : match_group k (pre ++ [x]) xs with
      | some caps2 =>
        rw [hrec] at h
        simp only [Option.some.injEq] at h
        subst h
        obtain ⟨g, rest, caps1, hg, hno, hs, hk, hc⟩ := ih _ _ hrec
        refine ⟨x :: g, rest, caps1, by simp, ?_, by simp [hs], hk, by simp [hc]⟩
        intro c hc
        rcases List.mem_cons.1 hc with h1 | h1
        · subst h1; simpa using hx
        · exact hno c h1
      | none =>
        rw [hrec] at h
        cases hk : k xs with
        | none => simp [hk] at h
        | some caps1 =>
          simp only [hk, Option.some.injEq] at h
          refine ⟨[x], xs, caps1, by simp, ?_, by simp, hk, h.symm⟩
          intro c hc
          simp only [List.mem_singleton] at hc
          subst hc; simpa using hx

theorem match_group_complete (k : Str → Option (List Str)) :
    ∀ (g rest pre : Str), g ≠ [] → (∀ c ∈ g, is_line_terminator c = false) →
      (k rest).isSome = true → (match_group k pre (g ++ rest)).isSome = true := by
  intro g
  induction g with
  | nil => intro rest pre h; exact absurd rfl h
  | cons x g ih =>
    intro rest pre _ hno hk
    have hx : is_line_terminator x = false := hno x (List.mem_cons_self _ _)
    simp only [List.cons_append]
    unfold match_group
    simp only [hx, Bool.false_eq_true, if_false]
    cases hrec : match_group k (pre ++ [x]) (g ++ rest) with
    | some caps2 => simp
    | none =>
      by_cases hg : g = []
      · subst hg
        simp only [List.nil_append] at *
        cases hk2 : k rest with
        | none => simp [hk2] at hk
        | some c => simp
      · have := ih rest (pre ++ [x]) hg (fun c hc => hno c (List.mem_cons_of_mem _ hc)) hk
        simp [hrec] at this

theorem regex_match_sound :
    ∀ (ps : List RegexItem) (s : Str) (caps : List Str),
      regex_match ps s = some caps → Matches ps s caps := by
  intro ps
  induction ps with
  | nil =>
    intro s caps h
    unfold regex_match at h
    by_cases hs : s = []
    · subst hs; simp at h; subst h; exact Matches.nil
    · simp [hs] at h
  | cons p ps ih =>
    intro s caps h
    cases p with
    | chr c =>
      cases s with
      | nil => simp [regex_match] at h
      | cons x xs =>
        simp only [regex_match] at h
        by_cases hx : x = c
        · subst hx
          simp only [if_true] at h
          exact Matches.chr (ih _ _ h)
        · simp [hx] at h
    | group_any_plus =>
      simp only [regex_match] at h
      obtain ⟨g, rest, caps1, hg, hno, hs, hk, hc⟩ := match_group_sound _ _ _ _ h
      subst hs hc
      simpa using Matches.grp hg hno (ih _ _ hk)

theorem regex_match_complete :
    ∀ (ps : List RegexItem) (s : Str) (caps : List Str),
      Matches ps s caps → (regex_match ps s).isSome = true := by
  intro ps s caps h
  induction h with
  | nil => simp [regex_match]
  | chr _ ih => simpa [regex_match] using ih
  | grp hg hno _ ih =>
    simp only [regex_match]
    exact match_group_complete _ _ _ _ hg hno ih

theorem matches_inherited_name_regex_inv (s : Str) (caps : List Str)
    (h : Matches inherited_name_regex s caps) :
    ∃ g1 g2 g3 : Str, g1 ≠ [] ∧ g2 ≠ [] ∧ g3 ≠ [] ∧
      s = g1 ++ '$' :: '$' :: (g2 ++ '$' :: '$' :: g3) ∧ caps = [g1, g2, g3] := by
  unfold inherited_name_regex at h
  cases h with
  | grp hg1 _ h =>
  cases h with
  | chr h =>
  cases h with
  | chr h =>
  cases h with
  | grp hg2 _ h =>
  cases h with
  | chr h =>
  cases h with
  | chr h =>
  cases h with
  | grp hg3 _ h =>
  cases h with
  | nil =>
  exact ⟨_, _, _, hg1, hg2, hg3, by simp, rfl⟩

theorem dollar_split_unique :
    ∀ (a b r1 r2 : Str), (∀ c ∈ a, c ≠ '$') → (∀ c ∈ b, c ≠ '$') →
      a ++ '$' :: r1 = b ++ '$' :: r2 → a = b ∧ r1 = r2 := by
  intro a
  induction a with
  | nil =>
    intro b r1 r2 _ hb h
    cases b with
    | nil => simpa using h
    | cons y b =>
      simp only [List.nil_append, List.cons_append, List.cons.injEq] at h
      exact absurd h.1.symm (hb y (List.mem_cons_self _ _))
  | cons x a ih =>
    intro b r1 r2 ha hb h
    cases b with
    | nil =>
      simp only [List.nil_append, List.cons_append, List.cons.injEq] at h
      exact absurd h.1 (ha x (List.mem_cons_self _ _))
    | cons y b =>
      simp only [List.cons_append, List.cons.injEq] at h
      obtain ⟨h1, h2⟩ := ih b r1 r2 (fun c hc => ha c (List.mem_cons_of_mem _ hc))
        (fun c hc => hb c (List.mem_cons_of_mem _ hc)) h.2
      exact ⟨by rw [h.1, h1], h2⟩

theorem replace_characters_of_not_mem (s : Str) (c_from c_to : Char) (h : ∀ c ∈ s, c ≠ c_from) :
    replace_characters s c_from c_to = s := by
  unfold replace_characters
  induction s with
  | nil => rfl
  | cons x xs ih =>
    have hx : x ≠ c_from := h x (List.mem_cons_self _ _)
    simp only [List.map_cons, hx, if_false]
    rw [ih (fun c hc => h c (List.mem_cons_of_mem _ hc))]

theorem regex_match_inherited_name (A foo B : Str)
    (hA : A ≠ []) (hfoo : foo ≠ []) (hB : B ≠ [])
    (hA1 : ∀ c ∈ A, c ≠ '$' ∧ is_line_terminator c = false)
    (hfoo1 : ∀ c ∈ foo, c ≠ '$' ∧ is_line_terminator c = false)
    (hB1 : ∀ c ∈ B, c ≠ '$' ∧ is_line_terminator c = false) :
    regex_match inherited_name_regex (A ++ "$$".toList ++ foo ++ "$$".toList ++ B)
      = some [A, foo, B] := by
  have hname : A ++ "$$".toList ++ foo ++ "$$".toList ++ B
      = A ++ '$' :: '$' :: (foo ++ '$' :: '$' :: B) := by simp
  rw [hname]
  have hm : Matches inherited_name_regex (A ++ '$' :: '$' :: (foo ++ '$' :: '$' :: B))
      [A, foo, B] := by
    unfold inherited_name_regex
    refine Matches.grp hA (fun c hc => (hA1 c hc).2) (Matches.chr (Matches.chr ?_))
    refine Matches.grp hfoo (fun c hc => (hfoo1 c hc).2) (Matches.chr (Matches.chr ?_))
    simpa using Matches.grp hB (fun c hc => (hB1 c hc).2) Matches.nil
  have hsome := regex_match_complete _ _ _ hm
  cases hr : regex_match inherited_name_regex (A ++ '$' :: '$' :: (foo ++ '$' :: '$' :: B)) with
  | none => simp [hr] at hsome
  | some caps =>
    obtain ⟨g1, g2, g3, -, -, -, hs, hc⟩ :=
      matches_inherited_name_regex_inv _ _ (regex_match_sound _ _ _ hr)
    have hcA : A.count '$' = 0 := List.count_eq_zero.2 (fun h => (hA1 _ h).1 rfl)
    have hcf : foo.count '$' = 0 := List.count_eq_zero.2 (fun h => (hfoo1 _ h).1 rfl)
    have hcB : B.count '$' = 0 := List.count_eq_zero.2 (fun h => (hB1 _ h).1 rfl)
    have hcount := congrArg (List.count '$') hs
    simp only [List.count_append, List.count_cons_self, hcA, hcf, hcB] at hcount
    have h1 : g1.count '$' = 0 := by omega
    have h2 : g2.count '$' = 0 := by omega
    have h3 : g3.count '$' = 0 := by omega
    have n1 : ∀ c ∈ g1, c ≠ '$' := fun c hc e => List.count_eq_zero.1 h1 (e ▸ hc)
    have n2 : ∀ c ∈ g2, c ≠ '$' := fun c hc e => List.count_eq_zero.1 h2 (e ▸ hc)
    obtain ⟨e1, r1⟩ := dollar_split_unique A g1 _ _ (fun c hc => (hA1 c hc).1) n1 hs
    simp only [List.cons.injEq, true_and] at r1
    obtain ⟨e2, r2⟩ := dollar_split_unique foo g2 _ _ (fun c hc => (hfoo1 c hc).1) n2 r1
    simp only [List.cons.injEq, true_and] at r2
    rw [hc, e1, e2, r2]

theorem regex_match_none_of_no_separator (name : Str) (h : ¬ ("$$".toList <:+: name)) :
    regex_match inherited_name_regex name = none := by
  cases hr : regex_match inherited_name_regex name with
  | none => rfl
  | some caps =>
    obtain ⟨g1, g2, g3, -, -, -, hs, -⟩ :=
      matches_inherited_name_regex_inv _ _ (regex_match_sound _ _ _ hr)
    exact absurd ⟨g1, g2 ++ '$' :: '$' :: g3, by simp [hs]⟩ h

theorem regex_replace_separator_id (fmt : Str) :
    ∀ s : Str, ¬ ("$$".toList <:+: s) → regex_replace_literal "$$".toList fmt 0 s = s := by
  intro s
  induction s with
  | nil => intro _; rfl
  | cons c rest ih =>
    intro h
    have hp : ¬ ("$$".toList.isPrefixOf (c :: rest) = true) := by
      intro hp
      obtain ⟨t, ht⟩ := List.isPrefixOf_iff_prefix.1 hp
      exact h ⟨[], t, by simpa using ht⟩
    have hrest : ¬ ("$$".toList <:+: rest) := by
      rintro ⟨a, b, hab⟩
      exact h ⟨c :: a, b, by simp [← hab]⟩
    have hp2 : "$$".toList.isPrefixOf (c :: rest) = false := by
      cases hb : "$$".toList.isPrefixOf (c :: rest) with
      | false => rfl
      | true => exact absurd hb hp
    unfold regex_replace_literal
    rw [hp2, ih hrest]
    simp

theorem regex_replace_dollar (s : Str) :
    regex_replace_literal ['$'] ['\\'] 0 s = replace_characters s '$' '\\' := by
  unfold replace_characters
  induction s with
  | nil => rfl
  | cons c rest ih =>
    unfold regex_replace_literal
    by_cases hc : c = '$'
    · subst hc
      simp [List.isPrefixOf, ih]
    · have hc2 : ¬ ('$' = c) := fun e => hc e.symm
      simp [List.isPrefixOf, hc, hc2, ih]

/-- C5. For non-empty strings `A`, `foo`, `B` without `$` and without line terminator,
`get_human_readable_name (A$$foo$$B)` is `B :: foo (inherited from A)`. -/
theorem get_human_readable_name_inherited (A foo B : Str)
    (hA : A ≠ []) (hfoo : foo ≠ []) (hB : B ≠ [])
    (hA1 : ∀ c ∈ A, c ≠ '$' ∧ is_line_terminator c = false)
    (hfoo1 : ∀ c ∈ foo, c ≠ '$' ∧ is_line_terminator c = false)
    (hB1 : ∀ c ∈ B, c ≠ '$' ∧ is_line_terminator c = false) :
    get_human_readable_name (A ++ "$$".toList ++ foo ++ "$$".toList ++ B)
      = B ++ " :: ".toList ++ foo ++ " (inherited from ".toList ++ A ++ ")".toList := by
  unfold get_human_readable_name
  rw [regex_match_inherited_name A foo B hA hfoo hB hA1 hfoo1 hB1]
  simp only
  rw [replace_characters_of_not_mem A _ _ (fun c hc => (hA1 c hc).1),
    replace_characters_of_not_mem B _ _ (fun c hc => (hB1 c hc).1)]
  simp

theorem get_human_readable_name_inherited_witness :
    get_human_readable_name "A$$foo$$B".toList = "B :: foo (inherited from A)".toList :=
  get_human_readable_name_inherited "A".toList "foo".toList "B".toList
    (by decide) (by decide) (by decide) (by decide) (by decide) (by decide)

/-- C6, counterexample. `A$b` does not contain `$$`, and it is not returned unchanged. -/
theorem get_human_readable_name_single_dollar_changed :
    ¬ ("$$".toList <:+: "A$b".toList) ∧
      get_human_readable_name "A$b".toList = "A\\b".toList ∧
      get_human_readable_name "A$b".toList ≠ "A$b".toList := by
  decide

/-- C6, amended. A name without the separator `$$` is returned with every `$` replaced by a
backslash; it is returned unchanged when it contains no `$` at all. -/
theorem get_human_readable_name_no_separator (name : Str) (h : ¬ ("$$".toList <:+: name)) :
    get_human_readable_name name = replace_characters name '$' '\\' ∧
      ((∀ c ∈ name, c ≠ '$') → get_human_readable_name name = name) := by
  have key : get_human_readable_name name = replace_characters name '$' '\\' := by
    unfold get_human_readable_name
    rw [regex_match_none_of_no_separator name h]
    simp only [regex_replace]
    rw [regex_replace_separator_id _ name h]
    exact regex_replace_dollar name
  exact ⟨key, fun hn => by rw [key, replace_characters_of_not_mem name _ _ hn]⟩

theorem get_human_readable_name_no_separator_witness :
    get_human_readable_name "VK$Feed$A".toList = "VK\\Feed\\A".toList ∧
      get_human_readable_name "foo".toList = "foo".toList :=
  ⟨(get_human_readable_name_no_separator "VK$Feed$A".toList (by decide)).1,
   (get_human_readable_name_no_separator "foo".toList (by decide)).2 (by decide)⟩

/-! ## Member resolution: theorems -/

theorem find_by_local_name_chain {M : Type}
    (find_local : ClassMembersContainer → Str → Option M) (classes : ClassHeap) (name : Str)
    (c : ClassPtr) (cs : List ClassData) (hchain : ParentChain classes c cs) :
    ∀ fuel, cs.length ≤ fuel →
      ClassData.find_by_local_name find_local classes name fuel c
        = .ok (cs.findSome? (fun k => find_local k.members name)) := by
  induction hchain with
  | nil =>
    intro fuel _
    cases fuel <;> rfl
  | cons hk _ ih =>
    intro fuel hfuel
    cases fuel with
    | zero => simp at hfuel
    | succ fuel =>
      simp only [List.length_cons, Nat.add_le_add_iff_right] at hfuel
      simp only [ClassData.find_by_local_name, hk, List.findSome?]
      cases hfind : find_local _ name with
      | some member => rfl
      | none => exact ih fuel hfuel

theorem findSome?_eq_some_iff_first {α β : Type} (f : α → Option β) (l : List α) (b : β) :
    l.findSome? f = some b ↔
      ∃ i a, l.get? i = some a ∧ f a = some b ∧
        ∀ j a1, j < i → l.get? j = some a1 → f a1 = none := by
  induction l with
  | nil => simp
  | cons x xs ih =>
    simp only [List.findSome?]
    cases hx : f x with
    | some b1 =>
      simp only [Option.some.injEq]
      constructor
      · rintro rfl
        exact ⟨0, x, rfl, hx, fun j a1 hj _ => absurd hj (Nat.not_lt_zero j)⟩
      · rintro ⟨i, a, hi, ha, hbefore⟩
        cases i with
        | zero =>
          simp only [List.get?, Option.some.injEq] at hi
          subst hi
          rw [hx] at ha
          exact Option.some.inj ha
        | succ i =>
          have := hbefore 0 x (Nat.succ_pos i) rfl
          rw [hx] at this
          cases this
    | none =>
      simp only [ih]
      constructor
      · rintro ⟨i, a, hi, ha, hbefore⟩
        refine ⟨i + 1, a, hi, ha, ?_⟩
        intro j a1 hj hj1
        cases j with
        | zero =>
          simp only [List.get?, Option.some.injEq] at hj1
          subst hj1
          exact hx
        | succ j => exact hbefore j a1 (Nat.lt_of_succ_lt_succ hj) hj1
      · rintro ⟨i, a, hi, ha, hbefore⟩
        cases i with
        | zero =>
          simp only [List.get?, Option.some.injEq] at hi
          subst hi
          rw [hx] at ha
          cases ha
        | succ i =>
          exact ⟨i, a, hi, ha, fun j a1 hj hj1 => hbefore (j + 1) a1 (Nat.succ_lt_succ hj) hj1⟩

/-- C7. For a class with a finite parent chain `cs` (the class first), `find_by_local_name`
returns, with enough fuel for one iteration per class of the chain: the member is the
one found in the first class of the chain whose own table contains the name, and the result
is null exactly when no class of the chain contains the name. (`find_local` is the lookup
in the own table of the member kind: `get_instance_method`, `get_instance_field`,
`get_static_field` or `get_constant`.) -/
theorem find_by_local_name_first_in_chain {M : Type}
    (find_local : ClassMembersContainer → Str → Option M) (classes : ClassHeap) (name : Str)
    (c : Nat) (cs : List ClassData) (hchain : ParentChain classes (some c) cs)
    (fuel : Nat) (hfuel : cs.length ≤ fuel) :
    ∃ res, ClassData.find_by_local_name find_local classes name fuel (some c) = .ok res ∧
      (∀ member, res = some member ↔
        ∃ i klass, cs.get? i = some klass ∧ find_local klass.members name = some member ∧
          ∀ j k, j < i → cs.get? j = some k → find_local k.members name = none) ∧
      (res = none ↔ ∀ klass ∈ cs, find_local klass.members name = none) := by
  refine ⟨_, find_by_local_name_chain find_local classes name (some c) cs hchain fuel hfuel,
    fun member => findSome?_eq_some_iff_first _ _ _, ?_⟩
  simp [List.findSome?_eq_none_iff]

theorem example_chain_B : ParentChain example_classes (some 1) [example_class_B, example_class_A] :=
  ParentChain.cons rfl (ParentChain.cons rfl ParentChain.nil)

theorem find_by_local_name_first_in_chain_witness :
    ∃ res, ClassData.get_instance_method example_classes 2 1 "m".toList = .ok res ∧
      (∀ member, res = some member ↔
        ∃ i klass, [example_class_B, example_class_A].get? i = some klass ∧
          klass.members.get_instance_method "m".toList = some member ∧
          ∀ j k, j < i → [example_class_B, example_class_A].get? j = some k →
            k.members.get_instance_method "m".toList = none) ∧
      (res = none ↔ ∀ klass ∈ [example_class_B, example_class_A],
        klass.members.get_instance_method "m".toList = none) ∧
      res = some ⟨"m".toList, some 11, AccessType.access_public⟩ := by
  obtain ⟨res, h1, h2, h3⟩ :=
    find_by_local_name_first_in_chain ClassMembersContainer.get_instance_method example_classes
      "m".toList 1 [example_class_B, example_class_A] example_chain_B 2 (by decide)
  refine ⟨res, h1, h2, h3, ?_⟩
  have h4 : ClassData.get_instance_method example_classes 2 1 "m".toList
      = .ok (some ⟨"m".toList, some 11, AccessType.access_public⟩) := rfl
  exact (Except.ok.inj (h1.symm.trans h4))

/-! ## Polymorphic classes: theorems -/

/-- C15. A class is polymorphic exactly when it has a parent class, or implements at least
one interface, or has at least one derived class. The value is a function of the three
fields as they are at the call: two class objects that agree on them give the same answer,
whatever else they hold, and nothing is cached. -/
theorem is_polymorphic_class_iff (c : ClassData) :
    (c.is_polymorphic_class = true ↔
      (c.parent_class ≠ none ∨ c.implements ≠ [] ∨ c.derived_classes ≠ [])) ∧
    (∀ c2 : ClassData, c2.parent_class = c.parent_class → c2.implements = c.implements →
      c2.derived_classes = c.derived_classes →
      c2.is_polymorphic_class = c.is_polymorphic_class) := by
  constructor
  · unfold ClassData.is_polymorphic_class
    cases hp : c.parent_class <;> cases hi : c.implements <;> cases hd : c.derived_classes <;>
      simp
  · intro c2 h1 h2 h3
    simp [ClassData.is_polymorphic_class, h1, h2, h3]

theorem is_polymorphic_class_iff_witness :
    (example_class_B.is_polymorphic_class = true ↔
      (example_class_B.parent_class ≠ none ∨ example_class_B.implements ≠ [] ∨
        example_class_B.derived_classes ≠ [])) ∧
    ({ example_class_B with name := "C".toList } : ClassData).is_polymorphic_class
      = example_class_B.is_polymorphic_class ∧
    example_class_B.is_polymorphic_class = true :=
  ⟨(is_polymorphic_class_iff example_class_B).1,
   (is_polymorphic_class_iff example_class_B).2 _ rfl rfl rfl, rfl⟩

/-! ## Closure conversion: theorems -/

/-- The field that `add_instance_field` has appended for the capture `u`, before it is
marked constant. -/
theorem add_uses_fields_cons (u : Vertex) (us : List Vertex) (members : ClassMembersContainer)
    (h : u.children ≠ []) :
    add_uses_fields (u :: us) members =
      match mark_first_as_const (capture_name u)
          (members.instance_fields ++
            [{ captured_field u with var := { marked_as_const := false } }]) with
      | none => .error Fault.invalid_access
      | some fields => add_uses_fields us { members with instance_fields := fields } := by
  cases u with
  | mk d cs =>
    cases cs with
    | nil => exact absurd rfl h
    | cons v vs =>
      cases v with
      | mk vd vcs => rfl

theorem mark_first_as_const_new (u : Vertex) :
    ∀ fs : List ClassMemberInstanceField, (∀ f ∈ fs, f.local_name ≠ capture_name u) →
      mark_first_as_const (capture_name u)
          (fs ++ [{ captured_field u with var := { marked_as_const := false } }])
        = some (fs ++ [captured_field u]) := by
  intro fs
  induction fs with
  | nil =>
    intro _
    simp [mark_first_as_const, captured_field, ClassMemberInstanceField.local_name,
      Vertex.get_string, Vertex.data]
  | cons f fs ih =>
    intro h
    have hf : f.local_name ≠ capture_name u := h f (List.mem_cons_self _ _)
    simp [mark_first_as_const, hf, ih (fun g hg => h g (List.mem_cons_of_mem _ hg))]

theorem mark_first_as_const_isSome (u : Vertex) :
    ∀ fs : List ClassMemberInstanceField, ∃ fs1,
      mark_first_as_const (capture_name u)
          (fs ++ [{ captured_field u with var := { marked_as_const := false } }]) = some fs1 ∧
      fs1.length = fs.length + 1 := by
  intro fs
  induction fs with
  | nil =>
    exact ⟨[captured_field u], by
      simp [mark_first_as_const, captured_field, ClassMemberInstanceField.local_name,
        Vertex.get_string, Vertex.data], rfl⟩
  | cons f fs ih =>
    obtain ⟨fs1, h1, h2⟩ := ih
    by_cases hf : f.local_name = capture_name u
    · exact ⟨{ f with var := { f.var with marked_as_const := true } } ::
          (fs ++ [{ captured_field u with var := { marked_as_const := false } }]),
        by simp [mark_first_as_const, hf], by simp⟩
    · exact ⟨f :: fs1, by simp [mark_first_as_const, hf, h1], by simp [h2]⟩

/-- The loop of `add_uses` when no name is met twice: every capture leaves its own field. -/
theorem add_uses_fields_distinct :
    ∀ (us : List Vertex) (members : ClassMembersContainer),
      (∀ u ∈ us, u.children ≠ []) → (us.map capture_name).Nodup →
      (∀ f ∈ members.instance_fields, f.local_name ∉ us.map capture_name) →
      add_uses_fields us members = .ok
        { members with instance_fields := members.instance_fields ++ us.map captured_field } := by
  intro us
  induction us with
  | nil => intro members _ _ _; simp [add_uses_fields]
  | cons u us ih =>
    intro members hvar hnodup hfresh
    simp only [List.map_cons, List.nodup_cons] at hnodup
    rw [add_uses_fields_cons u us members (hvar u (List.mem_cons_self _ _)),
      mark_first_as_const_new u members.instance_fields
        (fun f hf e => hfresh f hf (by simp [e]))]
    simp only
    rw [ih _ (fun w hw => hvar w (List.mem_cons_of_mem _ hw)) hnodup.2]
    · simp
    · intro f hf
      simp only [List.mem_append, List.mem_singleton] at hf
      rcases hf with hf | hf
      · intro hmem
        exact hfresh f hf (List.mem_cons_of_mem _ hmem)
      · subst hf
        exact hnodup.1

/-- The loop of `add_uses` returns whenever every capture has its variable. -/
theorem add_uses_fields_ok :
    ∀ (us : List Vertex) (members : ClassMembersContainer),
      (∀ u ∈ us, u.children ≠ []) →
      ∃ members1, add_uses_fields us members = .ok members1 ∧
        members1.instance_fields.length = members.instance_fields.length + us.length := by
  intro us
  induction us with
  | nil => intro members _; exact ⟨members, rfl, rfl⟩
  | cons u us ih =>
    intro members hvar
    obtain ⟨fs1, hfs1, hlen⟩ := mark_first_as_const_isSome u members.instance_fields
    obtain ⟨m1, hm1, hlen1⟩ := ih { members with instance_fields := fs1 }
      (fun w hw => hvar w (List.mem_cons_of_mem _ hw))
    refine ⟨m1, ?_, ?_⟩
    · rw [add_uses_fields_cons u us members (hvar u (List.mem_cons_self _ _)), hfs1]
      exact hm1
    · rw [hlen1]
      simp only [hlen, List.length_cons]
      omega

/-- The fields that `add_uses` leaves on a fresh lambda class, for captures with pairwise
distinct names none of which, for a non-static closure, collides with the name of the
enclosing-instance field: for a non-static closure the enclosing-instance field first, then
(for every closure) one field per captured variable in capture order, every one private and
marked constant. -/
theorem add_uses_fields_of_captures (g : LambdaGenerator) (l : LambdaClassData)
    (uses : List Vertex)
    (hl : g.generated_lambda = some l) (hfresh : l.members.instance_fields = [])
    (hvar : ∀ u ∈ uses, u.children ≠ [])
    (hnodup : (uses.map capture_name).Nodup)
    (hreserved : l.is_static = false →
      LambdaClassData.get_parent_this_name ∉ uses.map capture_name) :
    ∃ g1 l1, g.add_uses uses = .ok g1 ∧ g1.generated_lambda = some l1 ∧
      l1.members.instance_fields =
        (if l.is_static then [] else [captured_field (implicit_parent_this_param g.created_location)])
          ++ uses.map captured_field ∧
      l1.members.instance_fields.map (fun f => f.local_name) =
        (if l.is_static then [] else [LambdaClassData.get_parent_this_name])
          ++ uses.map capture_name ∧
      l1.members.instance_fields.length = uses.length + (if l.is_static then 0 else 1) ∧
      ∀ f ∈ l1.members.instance_fields,
        f.access_type = AccessType.access_private ∧ f.var.marked_as_const = true := by
  have hname : ∀ u : Vertex, (captured_field u).local_name = capture_name u := fun u => rfl
  have hmap : ∀ us : List Vertex,
      (us.map captured_field).map (fun f => f.local_name) = us.map capture_name := by
    intro us
    simp [List.map_map, Function.comp, hname]
  have hall : ∀ us : List Vertex, ∀ f ∈ us.map captured_field,
      f.access_type = AccessType.access_private ∧ f.var.marked_as_const = true := by
    intro us f hf
    obtain ⟨u, -, rfl⟩ := List.mem_map.1 hf
    exact ⟨rfl, rfl⟩
  cases hs : l.is_static with
  | true =>
    have hrun := add_uses_fields_distinct uses l.members hvar hnodup (by simp [hfresh])
    refine ⟨{ g with
        generated_lambda := some { l with members := { l.members with
          instance_fields := l.members.instance_fields ++ uses.map captured_field } }
        uses := uses },
      { l with members := { l.members with
          instance_fields := l.members.instance_fields ++ uses.map captured_field } },
      ?_, rfl, ?_, ?_, ?_, ?_⟩
    · simp only [LambdaGenerator.add_uses, hl, hs, bind, Except.bind, pure, Except.pure,
        Bool.not_true, Bool.false_eq_true, if_false, hrun]
    · simp [hfresh]
    · simp [hfresh, hmap]
    · simp [hfresh]
    · intro f hf
      simp only [hfresh, List.nil_append] at hf
      exact hall uses f hf
  | false =>
    have hvar2 : ∀ u ∈ implicit_parent_this_param g.created_location :: uses, u.children ≠ [] := by
      intro u hu
      rcases List.mem_cons.1 hu with h | h
      · subst h; simp [implicit_parent_this_param, Vertex.create, Vertex.set_location,
          Vertex.children]
      · exact hvar u h
    have hnodup2 : ((implicit_parent_this_param g.created_location :: uses).map
        capture_name).Nodup := by
      simp only [List.map_cons, List.nodup_cons]
      exact ⟨hreserved hs, hnodup⟩
    have hrun := add_uses_fields_distinct _ l.members hvar2 hnodup2 (by simp [hfresh])
    refine ⟨{ g with
        generated_lambda := some { l with members := { l.members with
          instance_fields := l.members.instance_fields ++
            (implicit_parent_this_param g.created_location :: uses).map captured_field } }
        uses := implicit_parent_this_param g.created_location :: uses },
      { l with members := { l.members with
          instance_fields := l.members.instance_fields ++
            (implicit_parent_this_param g.created_location :: uses).map captured_field } },
      ?_, rfl, ?_, ?_, ?_, ?_⟩
    · simp only [LambdaGenerator.add_uses, hl, hs, bind, Except.bind, pure, Except.pure,
        Bool.not_false, if_true, hrun]
    · simp [hfresh]
    · simp only [hfresh, List.nil_append, hmap]
      rfl
    · simp [hfresh]
    · intro f hf
      simp only [hfresh, List.nil_append] at hf
      exact hall _ f hf

/-- The name of the enclosing-instance field is no name of a PHP variable: it has a `$`
in it. -/
theorem parent_this_name_not_captured (uses : List Vertex)
    (hphp : ∀ u ∈ uses, '$' ∉ capture_name u) :
    LambdaClassData.get_parent_this_name ∉ uses.map capture_name := by
  intro hmem
  obtain ⟨u, hu, hname⟩ := List.mem_map.1 hmem
  have h := hphp u hu
  rw [hname] at h
  exact h (by decide)

/-- C8: for a capture list of `n` variables with pairwise distinct names (names of PHP
variables, which have no `$` in them), `add_uses` on a fresh lambda class of a non-static
closure leaves exactly `n + 1` instance fields, the enclosing-instance field first, then
one field per captured variable in capture order; for a static closure it leaves exactly
the `n` fields of the captured variables and no enclosing-instance field.  Every field is
private and marked constant. -/
theorem add_uses_fields_spec (g : LambdaGenerator) (l : LambdaClassData)
    (uses : List Vertex)
    (hl : g.generated_lambda = some l) (hfresh : l.members.instance_fields = [])
    (hvar : ∀ u ∈ uses, u.children ≠ [])
    (hnodup : (uses.map capture_name).Nodup)
    (hphp : ∀ u ∈ uses, '$' ∉ capture_name u) :
    ∃ g1 l1, g.add_uses uses = .ok g1 ∧ g1.generated_lambda = some l1 ∧
      (l.is_static = false →
        l1.members.instance_fields =
          captured_field (implicit_parent_this_param g.created_location)
            :: uses.map captured_field ∧
        l1.members.instance_fields.map (fun f => f.local_name) =
          LambdaClassData.get_parent_this_name :: uses.map capture_name ∧
        l1.members.instance_fields.length = uses.length + 1) ∧
      (l.is_static = true →
        l1.members.instance_fields = uses.map captured_field ∧
        l1.members.instance_fields.map (fun f => f.local_name) = uses.map capture_name ∧
        l1.members.instance_fields.length = uses.length ∧
        ∀ f ∈ l1.members.instance_fields,
          f.local_name ≠ LambdaClassData.get_parent_this_name) ∧
      ∀ f ∈ l1.members.instance_fields,
        f.access_type = AccessType.access_private ∧ f.var.marked_as_const = true := by
  have hreserved := parent_this_name_not_captured uses hphp
  obtain ⟨g1, l1, hrun, hg1, hfields, hnames, hlen, hall⟩ :=
    add_uses_fields_of_captures g l uses hl hfresh hvar hnodup (fun _ => hreserved)
  refine ⟨g1, l1, hrun, hg1, ?_, ?_, hall⟩
  · intro hs
    simp only [hs, Bool.false_eq_true, if_false, List.singleton_append] at hfields hnames hlen
    exact ⟨hfields, hnames, hlen⟩
  · intro hs
    simp only [hs, if_true, List.nil_append, Nat.add_zero] at hfields hnames hlen
    refine ⟨hfields, hnames, hlen, ?_⟩
    intro f hf heq
    have hmem : f.local_name ∈ l1.members.instance_fields.map (fun f => f.local_name) :=
      List.mem_map.2 ⟨f, hf, rfl⟩
    rw [hnames, heq] at hmem
    exact hreserved hmem

/-- The non-static closure `function () use ($a, $b)` gets the fields `parent$this`, `a`,
`b`; the static one the fields `a`, `b`. -/
theorem add_uses_fields_spec_witness :
    (∃ g1 l1, example_generator.add_uses [example_use "a".toList, example_use "b".toList]
        = .ok g1 ∧ g1.generated_lambda = some l1 ∧
      l1.members.instance_fields.map (fun f => f.local_name) =
        ["parent$this".toList, "a".toList, "b".toList] ∧
      l1.members.instance_fields.length = 2 + 1 ∧
      ∀ f ∈ l1.members.instance_fields,
        f.access_type = AccessType.access_private ∧ f.var.marked_as_const = true)
    ∧ (∃ g1 l1, example_static_generator.add_uses
          [example_use "a".toList, example_use "b".toList] = .ok g1 ∧
      g1.generated_lambda = some l1 ∧
      l1.members.instance_fields.map (fun f => f.local_name) = ["a".toList, "b".toList] ∧
      l1.members.instance_fields.length = 2 ∧
      ∀ f ∈ l1.members.instance_fields,
        f.access_type = AccessType.access_private ∧ f.var.marked_as_const = true) := by
  constructor
  · obtain ⟨g1, l1, h1, h2, h3, -, h5⟩ :=
      add_uses_fields_spec example_generator _
        [example_use "a".toList, example_use "b".toList] rfl rfl (by decide) (by decide)
        (by decide)
    obtain ⟨-, hn, hlen⟩ := h3 rfl
    exact ⟨g1, l1, h1, h2, hn, hlen, h5⟩
  · obtain ⟨g1, l1, h1, h2, -, h4, h5⟩ :=
      add_uses_fields_spec example_static_generator _
        [example_use "a".toList, example_use "b".toList] rfl rfl (by decide) (by decide)
        (by decide)
    obtain ⟨-, hn, hlen, -⟩ := h4 rfl
    exact ⟨g1, l1, h1, h2, hn, hlen, h5⟩

/-- C9, counterexample. For the non-static closure `function () use ($a)` the list handed
to the constructor builder has two entries, the first being the implicit enclosing-instance
capture, and the constructor is built from both. -/
theorem add_constructor_from_uses_includes_parent_this :
    ∃ g1 st1 g2 l2 ctor_ptr ctor,
      example_generator.add_uses [example_use "a".toList] = .ok g1 ∧
      g1.add_constructor_from_uses {} = .ok (st1, g2) ∧
      g1.conv_uses = [implicit_parent_this_param {}, example_use "a".toList] ∧
      g1.conv_uses ≠ [example_use "a".toList] ∧
      g1.conv_uses.map capture_name = ["parent$this".toList, "a".toList] ∧
      g2.generated_lambda = some l2 ∧ l2.construct_function = some ctor_ptr ∧
      st1.functions.get? ctor_ptr = some ctor ∧
      ctor.get_params = .ok [implicit_parent_this_param {}, example_use "a".toList] :=
  ⟨_, _, _, _, _, _, rfl, rfl, rfl, by decide, rfl, rfl, rfl, rfl, rfl⟩

/-- C9, amended. After `add_uses` followed by `add_constructor_from_uses` the capture list
handed to the constructor builder is, for a non-static closure, the implicit
enclosing-instance capture followed by the declared captures (`n + 1` entries), and for a
static closure the declared captures (`n` entries); the constructor is built from that list
and is a template exactly when the list is not empty. -/
theorem add_constructor_from_uses_capture_list (g : LambdaGenerator) (l : LambdaClassData)
    (uses : List Vertex) (st : State)
    (hl : g.generated_lambda = some l) (hvar : ∀ u ∈ uses, u.children ≠ []) :
    ∃ g1 st1 g2 l2 ctor_ptr ctor,
      g.add_uses uses = .ok g1 ∧
      g1.add_constructor_from_uses st = .ok (st1, g2) ∧
      g1.conv_uses =
        (if l.is_static then [] else [implicit_parent_this_param g.created_location]) ++ uses ∧
      g1.conv_uses.length = uses.length + (if l.is_static then 0 else 1) ∧
      g2.generated_lambda = some l2 ∧ l2.construct_function = some ctor_ptr ∧
      st1.functions.get? ctor_ptr = some ctor ∧
      ctor.get_params = .ok g1.conv_uses ∧
      ctor.is_template = !g1.conv_uses.isEmpty := by
  obtain ⟨uses1, huses1⟩ : ∃ uses1, uses1 =
      (if !l.is_static then implicit_parent_this_param g.created_location :: uses else uses) :=
    ⟨_, rfl⟩
  have hvar2 : ∀ u ∈ uses1, u.children ≠ [] := by
    intro u hu
    rw [huses1] at hu
    cases hs : l.is_static with
    | true =>
      simp only [hs, Bool.not_true, Bool.false_eq_true, if_false] at hu
      exact hvar u hu
    | false =>
      simp only [hs, Bool.not_false, if_true] at hu
      rcases List.mem_cons.1 hu with h | h
      · subst h; simp [implicit_parent_this_param, Vertex.create, Vertex.set_location,
          Vertex.children]
      · exact hvar u h
  obtain ⟨members1, hm1, -⟩ := add_uses_fields_ok uses1 l.members hvar2
  have hadd : g.add_uses uses = .ok { g with
      generated_lambda := some { l with members := members1 }
      uses := uses1 } := by
    simp only [LambdaGenerator.add_uses, hl, bind, Except.bind, pure, Except.pure, ← huses1, hm1]
  have hlist : uses1 =
      (if l.is_static then [] else [implicit_parent_this_param g.created_location]) ++ uses := by
    rw [huses1]
    cases hs : l.is_static <;> simp
  let ctor0 : FunctionData := constructor_function g.created_location uses1
  let ctor : FunctionData := { ctor0 with is_template := !uses1.isEmpty }
  let l2 : LambdaClassData :=
    { l with members := members1, construct_function := some st.functions.length }
  let st1 : State :=
    { st with functions := List.set (st.functions ++ [ctor0]) st.functions.length ctor }
  let g2 : LambdaGenerator := { g with generated_lambda := some l2, uses := uses1 }
  refine ⟨_, st1, g2, l2, st.functions.length, ctor,
    hadd, ?_, ?_, ?_, rfl, rfl, ?_, ?_, ?_⟩
  · simp only [LambdaGenerator.add_constructor_from_uses, create_constructor_with_args,
      State.deref, bind, Except.bind, pure, Except.pure, LambdaGenerator.conv_uses]
    simp only [List.get?_eq_getElem?, List.getElem?_concat_length]
  · exact hlist
  · simp only [LambdaGenerator.conv_uses, hlist]
    cases hs : l.is_static <;> simp
  · simp [st1]
  · simp [ctor, ctor0, constructor_function, FunctionData.get_params, Vertex.params, Vertex.ith,
      Vertex.children, Vertex.as, Vertex.create, Vertex.set_location, Vertex.type, Vertex.data,
      bind, Except.bind, pure, Except.pure, LambdaGenerator.conv_uses]
  · simp [ctor, LambdaGenerator.conv_uses]

theorem add_constructor_from_uses_capture_list_witness :
    ∃ g1 st1 g2 l2 ctor_ptr ctor,
      example_static_generator.add_uses [example_use "a".toList] = .ok g1 ∧
      g1.add_constructor_from_uses example_state = .ok (st1, g2) ∧
      g1.conv_uses = [] ++ [example_use "a".toList] ∧
      g1.conv_uses.length = 1 + 0 ∧
      g2.generated_lambda = some l2 ∧ l2.construct_function = some ctor_ptr ∧
      st1.functions.get? ctor_ptr = some ctor ∧
      ctor.get_params = .ok g1.conv_uses ∧
      ctor.is_template = !g1.conv_uses.isEmpty :=
  add_constructor_from_uses_capture_list example_static_generator _ [example_use "a".toList]
    example_state rfl (by decide)

/-- C10, counterexample. For a non-static lambda class with the captured field `a`, a second
rewriting changes the rewritten `$a` and the rewritten `$this` again. -/
theorem add_this_to_captured_variables_not_idempotent :
    add_this_to_captured_variables example_lambda
        (add_this_to_captured_variables example_lambda
          (.mk { type := Operation.op_var, str_val := "a".toList } []))
      ≠ add_this_to_captured_variables example_lambda
          (.mk { type := Operation.op_var, str_val := "a".toList } []) ∧
    add_this_to_captured_variables example_lambda
        (add_this_to_captured_variables example_lambda
          (.mk { type := Operation.op_var, str_val := "this".toList } []))
      ≠ add_this_to_captured_variables example_lambda
          (.mk { type := Operation.op_var, str_val := "this".toList } []) := by
  decide

mutual
theorem add_this_idempotent_static_vertex (l : LambdaClassData) (hs : l.is_static = true)
    (hthis : l.members.get_instance_field "this".toList = none) :
    ∀ t : Vertex, add_this_to_captured_variables l (add_this_to_captured_variables l t)
      = add_this_to_captured_variables l t
  | .mk d cs => by
    by_cases hd : d.type = Operation.op_var
    · by_cases hf : (l.members.get_instance_field d.str_val).isSome = true
      · have h1 : add_this_to_captured_variables l (.mk d cs) =
            .mk { type := Operation.op_instance_prop, str_val := d.str_val,
                  location := d.location } [ClassData.gen_vertex_this {}] := by
          simp [add_this_to_captured_variables, hd, hf, Vertex.create, Vertex.set_location,
            Vertex.set_string]
        have hthis2 : l.members.get_instance_field ['t', 'h', 'i', 's'] = none := hthis
        rw [h1]
        simp [add_this_to_captured_variables, add_this_to_captured_variables_list,
          ClassData.gen_vertex_this, hthis2, hs]
      · have h1 : add_this_to_captured_variables l (.mk d cs) = .mk d cs := by
          simp [add_this_to_captured_variables, hd, hf, hs]
        rw [h1, h1]
    · have h1 : ∀ cs1, add_this_to_captured_variables l (.mk d cs1) =
          .mk d (add_this_to_captured_variables_list l cs1) := by
        intro cs1
        simp [add_this_to_captured_variables, hd]
      rw [h1, h1, add_this_idempotent_static_list l hs hthis cs]
theorem add_this_idempotent_static_list (l : LambdaClassData) (hs : l.is_static = true)
    (hthis : l.members.get_instance_field "this".toList = none) :
    ∀ ts : List Vertex,
      add_this_to_captured_variables_list l (add_this_to_captured_variables_list l ts)
        = add_this_to_captured_variables_list l ts
  | [] => rfl
  | t :: ts => by
    simp only [add_this_to_captured_variables_list,
      add_this_idempotent_static_vertex l hs hthis t,
      add_this_idempotent_static_list l hs hthis ts]
end

/-- C10, amended. For a static lambda class none of whose captured fields is named `this`,
body rewriting is idempotent: rewriting the rewritten tree changes nothing. -/
theorem add_this_to_captured_variables_idempotent_static (l : LambdaClassData)
    (hs : l.is_static = true) (hthis : l.members.get_instance_field "this".toList = none)
    (t : Vertex) :
    add_this_to_captured_variables l (add_this_to_captured_variables l t)
      = add_this_to_captured_variables l t :=
  add_this_idempotent_static_vertex l hs hthis t

theorem add_this_to_captured_variables_idempotent_static_witness :
    add_this_to_captured_variables example_static_lambda
        (add_this_to_captured_variables example_static_lambda
          (.mk { type := Operation.op_return }
            [.mk { type := Operation.op_var, str_val := "a".toList } []]))
      = add_this_to_captured_variables example_static_lambda
          (.mk { type := Operation.op_return }
            [.mk { type := Operation.op_var, str_val := "a".toList } []]) :=
  add_this_to_captured_variables_idempotent_static example_static_lambda rfl rfl _

/-! ## Dispatch method: theorems -/

theorem as_of_type (op : Operation) (v : Vertex) (h : v.type = op) : v.as op = .ok v := by
  simp [Vertex.as, h]

theorem cast_to_func_params_ok :
    ∀ ps : List Vertex, (∀ p ∈ ps, p.type = Operation.op_func_param) →
      cast_to_func_params ps = .ok ps := by
  intro ps
  induction ps with
  | nil => intro _; rfl
  | cons p ps ih =>
    intro h
    simp only [cast_to_func_params, as_of_type _ p (h p (List.mem_cons_self _ _)),
      ih (fun q hq => h q (List.mem_cons_of_mem _ hq)), bind, Except.bind, pure, Except.pure]

theorem set_slot_facts (p : Vertex) (i : Int) :
    (p.set_template_type_id i).template_type_id = i ∧
    (p.set_template_type_id i).type_declaration = p.type_declaration ∧
    (p.set_template_type_id i).is_callable = p.is_callable ∧
    (p.set_template_type_id i).without_slot = p.without_slot ∧
    ((p.set_template_type_id i).set_is_callable true).template_type_id = i ∧
    ((p.set_template_type_id i).set_is_callable true).type_declaration = p.type_declaration ∧
    ((p.set_template_type_id i).set_is_callable true).is_callable = true ∧
    ((p.set_template_type_id i).set_is_callable true).without_slot = p.without_slot := by
  cases p with
  | mk d cs =>
    simp [Vertex.set_template_type_id, Vertex.set_is_callable, Vertex.template_type_id,
      Vertex.type_declaration, Vertex.is_callable, Vertex.without_slot, Vertex.data]

/-- The loop of lines 166-176 on parameters that are all `op_func_param`. -/
theorem mark_generic_params_spec :
    ∀ (ps : List Vertex) (id : Nat), (∀ p ∈ ps, p.type = Operation.op_func_param) →
      ∃ rest, mark_generic_params ps id = .ok rest ∧
        rest.map Vertex.without_slot = ps.map Vertex.without_slot ∧
        rest.map Vertex.type_declaration = ps.map Vertex.type_declaration ∧
        (rest.filter is_generic_declaration).map Vertex.template_type_id
          = (List.range' id (ps.filter is_generic_declaration).length).map Nat.cast ∧
        (∀ p ∈ rest, p.type_declaration = callable_declaration → p.is_callable = true) ∧
        rest.filter (fun p => !is_generic_declaration p)
          = ps.filter (fun p => !is_generic_declaration p) := by
  intro ps
  induction ps with
  | nil =>
    intro id _
    exact ⟨[], rfl, rfl, rfl, rfl, by simp, rfl⟩
  | cons p ps ih =>
    intro id h
    have hp := as_of_type _ p (h p (List.mem_cons_self _ _))
    have hrest : ∀ q ∈ ps, q.type = Operation.op_func_param :=
      fun q hq => h q (List.mem_cons_of_mem _ hq)
    obtain ⟨f1, f2, f3, f4, f5, f6, f7, f8⟩ := set_slot_facts p (id : Int)
    by_cases hc : p.type_declaration = callable_declaration
    · obtain ⟨rest, hr, h1, h2, h3, h4, h5⟩ := ih (id + 1) hrest
      have hgen : is_generic_declaration p = true := by
        simp only [is_generic_declaration, hc, decide_True, Bool.true_or]
      have hgen2 : is_generic_declaration
          ((p.set_template_type_id (id : Int)).set_is_callable true) = true := by
        simp only [is_generic_declaration, f6, hc, decide_True, Bool.true_or]
      refine ⟨((p.set_template_type_id (id : Int)).set_is_callable true) :: rest,
        ?_, ?_, ?_, ?_, ?_, ?_⟩
      · simp only [mark_generic_params, hp, bind, Except.bind, hc, if_true, hr, pure,
          Except.pure]
      · simp only [List.map_cons, f8, h1]
      · simp only [List.map_cons, f6, h2]
      · simp only [List.filter, hgen, hgen2, List.map_cons, f5, h3, List.length_cons,
          List.range'_succ]
      · intro q hq hq1
        rcases List.mem_cons.1 hq with hq | hq
        · subst hq; exact f7
        · exact h4 q hq hq1
      · simp only [List.filter, hgen, hgen2, Bool.not_true, h5]
    · by_cases he : p.type_declaration.isEmpty = true
      · obtain ⟨rest, hr, h1, h2, h3, h4, h5⟩ := ih (id + 1) hrest
        have hgen : is_generic_declaration p = true := by
          simp only [is_generic_declaration, he, Bool.or_true]
        have hgen2 : is_generic_declaration (p.set_template_type_id (id : Int)) = true := by
          simp only [is_generic_declaration, f2, he, Bool.or_true]
        refine ⟨(p.set_template_type_id (id : Int)) :: rest, ?_, ?_, ?_, ?_, ?_, ?_⟩
        · simp only [mark_generic_params, hp, bind, Except.bind, hc, if_false, he, if_true, hr,
            pure, Except.pure]
        · simp only [List.map_cons, f4, h1]
        · simp only [List.map_cons, f2, h2]
        · simp only [List.filter, hgen, hgen2, List.map_cons, f1, h3, List.length_cons,
            List.range'_succ]
        · intro q hq hq1
          rcases List.mem_cons.1 hq with hq | hq
          · subst hq
            rw [f2] at hq1
            exact absurd hq1 hc
          · exact h4 q hq hq1
        · simp only [List.filter, hgen, hgen2, Bool.not_true, h5]
      · obtain ⟨rest, hr, h1, h2, h3, h4, h5⟩ := ih id hrest
        have he2 : p.type_declaration.isEmpty = false := by
          cases hb : p.type_declaration.isEmpty with
          | true => exact absurd hb he
          | false => rfl
        have hgen : is_generic_declaration p = false := by
          simp only [is_generic_declaration, hc, decide_False, he2, Bool.or_false]
        refine ⟨p :: rest, ?_, ?_, ?_, ?_, ?_, ?_⟩
        · simp only [mark_generic_params, hp, bind, Except.bind, hc, if_false, he2,
            Bool.false_eq_true, hr, pure, Except.pure]
        · simp only [List.map_cons, h1]
        · simp only [List.map_cons, h2]
        · simp only [List.filter, hgen, h3]
        · intro q hq hq1
          rcases List.mem_cons.1 hq with hq | hq
          · subst hq; exact absurd hq1 hc
          · exact h4 q hq hq1
        · simp only [List.filter, hgen, Bool.not_false, h5]

/-- The parameter list that `create_invoke_params` builds for a well-formed closure literal:
`b` says whether the first declared parameter is dropped. -/
theorem create_invoke_params_run (g : LambdaGenerator) (l : LambdaClassData)
    (function : Vertex) (st : State) (pl : Vertex) (b : Bool)
    (hl : g.generated_lambda = some l)
    (hparams : function.params = .ok pl) (hpl : pl.type = Operation.op_func_param_list)
    (hps : ∀ p ∈ pl.children, p.type = Operation.op_func_param)
    (hb : has_this_param_already function st = .ok b)
    (hne : b = true → pl.children ≠ []) :
    ∃ rest, mark_generic_params (if b then pl.children.tail else pl.children) 0 = .ok rest ∧
      g.create_invoke_params function st = .ok
        (.mk { type := Operation.op_func_param_list, location := { line := pl.location.line } }
          (Vertex.create Operation.op_func_param [ClassData.gen_vertex_this g.created_location]
            :: rest)) := by
  have hdecl : ∀ p ∈ (if b then pl.children.tail else pl.children),
      p.type = Operation.op_func_param := by
    intro p hp
    cases b with
    | false => exact hps p (by simpa using hp)
    | true => exact hps p (List.mem_of_mem_tail (by simpa using hp))
  obtain ⟨rest, hrest, -⟩ := mark_generic_params_spec _ 0 hdecl
  refine ⟨rest, hrest, ?_⟩
  have hcast := cast_to_func_params_ok _ hdecl
  unfold LambdaGenerator.create_invoke_params
  simp only [hl, get_function_params, hparams, as_of_type _ pl hpl, hb, bind, Except.bind, pure,
    Except.pure]
  cases b with
  | false =>
    simp only [Bool.false_eq_true, if_false] at hcast hrest ⊢
    simp only [hcast, ClassData.patch_func_add_this, List.cons_append, List.nil_append, hrest]
    rfl
  | true =>
    simp only [if_true] at hcast hrest ⊢
    cases hch : pl.children with
    | nil => exact absurd hch (hne rfl)
    | cons first others =>
      simp only [hch, List.tail_cons] at hcast hrest
      simp only [hcast, ClassData.patch_func_add_this, List.cons_append, List.nil_append, hrest]
      rfl

/-- C12. In the parameter list that `create_invoke_params` builds, the parameters after the
leading self-parameter keep their order and type declarations; those whose type declaration
is empty or `callable` have the slot ids 0, 1, ..., k-1 in parameter order (pairwise
distinct), the `callable` ones are flagged `is_callable`, and every other parameter is the
declared parameter unchanged, its slot id included. -/
theorem create_invoke_params_slot_ids (g : LambdaGenerator) (l : LambdaClassData)
    (function : Vertex) (st : State) (pl : Vertex) (b : Bool)
    (hl : g.generated_lambda = some l)
    (hparams : function.params = .ok pl) (hpl : pl.type = Operation.op_func_param_list)
    (hps : ∀ p ∈ pl.children, p.type = Operation.op_func_param)
    (hb : has_this_param_already function st = .ok b)
    (hne : b = true → pl.children ≠ []) :
    ∃ params self_param rest declared,
      g.create_invoke_params function st = .ok params ∧
      params.children = self_param :: rest ∧
      declared = (if b then pl.children.tail else pl.children) ∧
      rest.map Vertex.type_declaration = declared.map Vertex.type_declaration ∧
      (rest.filter is_generic_declaration).map Vertex.template_type_id
        = (List.range (declared.filter is_generic_declaration).length).map Nat.cast ∧
      ((rest.filter is_generic_declaration).map Vertex.template_type_id).Nodup ∧
      (∀ p ∈ rest, p.type_declaration = callable_declaration → p.is_callable = true) ∧
      rest.filter (fun p => !is_generic_declaration p)
        = declared.filter (fun p => !is_generic_declaration p) := by
  obtain ⟨rest, hrest, hrun⟩ := create_invoke_params_run g l function st pl b hl hparams hpl hps
    hb hne
  have hdecl : ∀ p ∈ (if b then pl.children.tail else pl.children),
      p.type = Operation.op_func_param := by
    intro p hp
    cases b with
    | false => exact hps p (by simpa using hp)
    | true => exact hps p (List.mem_of_mem_tail (by simpa using hp))
  obtain ⟨rest2, hrest2, -, h2, h3, h4, h5⟩ := mark_generic_params_spec _ 0 hdecl
  rw [hrest] at hrest2
  cases hrest2
  rw [← List.range_eq_range'] at h3
  refine ⟨_, _, rest, _, hrun, rfl, rfl, h2, h3, ?_, h4, h5⟩
  rw [h3]
  exact (List.nodup_range _).map (fun a c hac => Int.ofNat.inj hac)

theorem create_invoke_params_slot_ids_witness :
    ∃ params self_param rest declared,
      example_static_generator.create_invoke_params
        (example_closure [example_param [] "x".toList, example_param "int".toList "y".toList,
          example_param callable_declaration "z".toList]) {} = .ok params ∧
      params.children = self_param :: rest ∧
      declared = [example_param [] "x".toList, example_param "int".toList "y".toList,
          example_param callable_declaration "z".toList] ∧
      rest.map Vertex.type_declaration = declared.map Vertex.type_declaration ∧
      (rest.filter is_generic_declaration).map Vertex.template_type_id
        = (List.range (declared.filter is_generic_declaration).length).map Nat.cast ∧
      ((rest.filter is_generic_declaration).map Vertex.template_type_id).Nodup ∧
      (∀ p ∈ rest, p.type_declaration = callable_declaration → p.is_callable = true) ∧
      rest.filter (fun p => !is_generic_declaration p)
        = declared.filter (fun p => !is_generic_declaration p) :=
  create_invoke_params_slot_ids example_static_generator _
    (example_closure [example_param [] "x".toList, example_param "int".toList "y".toList,
      example_param callable_declaration "z".toList]) {} _ false rfl rfl rfl (by decide) rfl
    (fun h => by cases h)

/-- C20. For a closure literal whose function is not yet a lambda and has no
lambda-creation parent (or that has no function yet), the parameter list that
`create_invoke_params` builds is the injected self-parameter followed by the declared
parameters in their order, each the declared one apart from its slot id and `is_callable`
flag: declared count + 1 parameters. When the function is already a lambda or has a
lambda-creation parent, the first declared parameter is dropped before the self-parameter
is put in front, so the list has as many parameters as were declared; with no declared
parameter the assertion of line 158 fails. -/
theorem create_invoke_params_self_param (g : LambdaGenerator) (l : LambdaClassData)
    (function : Vertex) (st : State) (pl : Vertex)
    (hl : g.generated_lambda = some l)
    (hparams : function.params = .ok pl) (hpl : pl.type = Operation.op_func_param_list)
    (hps : ∀ p ∈ pl.children, p.type = Operation.op_func_param) :
    ((function.get_func_id = none ∨ ∃ p f, function.get_func_id = some p ∧
        st.functions.get? p = some f ∧ f.function_in_which_lambda_was_created = none ∧
        f.is_lambda = false) →
      ∃ params rest, g.create_invoke_params function st = .ok params ∧
        params.type = Operation.op_func_param_list ∧
        params.children =
          Vertex.create Operation.op_func_param [ClassData.gen_vertex_this g.created_location]
            :: rest ∧
        rest.map Vertex.without_slot = pl.children.map Vertex.without_slot ∧
        params.children.length = pl.children.length + 1) ∧
    ((∃ p f, function.get_func_id = some p ∧ st.functions.get? p = some f ∧
        (f.function_in_which_lambda_was_created ≠ none ∨ f.is_lambda = true)) →
      (∀ first others, pl.children = first :: others →
        ∃ params rest, g.create_invoke_params function st = .ok params ∧
          params.type = Operation.op_func_param_list ∧
          params.children =
            Vertex.create Operation.op_func_param [ClassData.gen_vertex_this g.created_location]
              :: rest ∧
          rest.map Vertex.without_slot = others.map Vertex.without_slot ∧
          params.children.length = pl.children.length) ∧
      (pl.children = [] →
        g.create_invoke_params function st = .error Fault.assert_failed)) := by
  constructor
  · intro hcase
    have hb : has_this_param_already function st = .ok false := by
      rcases hcase with h | ⟨p, f, h1, h2, h3, h4⟩
      · simp only [has_this_param_already, h]
        rfl
      · simp only [has_this_param_already, h1, State.deref, h2, h3, h4, bind, Except.bind,
          pure, Except.pure]
        rfl
    obtain ⟨rest, hrest, hrun⟩ := create_invoke_params_run g l function st pl false hl hparams
      hpl hps hb (fun h => by cases h)
    obtain ⟨rest2, hrest2, h1, -⟩ := mark_generic_params_spec pl.children 0 hps
    simp only [Bool.false_eq_true, if_false] at hrest
    rw [hrest] at hrest2
    cases hrest2
    refine ⟨_, rest, hrun, rfl, rfl, h1, ?_⟩
    have hlen := congrArg List.length h1
    simp only [List.length_map] at hlen
    simp [Vertex.children, hlen]
  · rintro ⟨p, f, h1, h2, h3⟩
    have hb : has_this_param_already function st = .ok true := by
      simp only [has_this_param_already, h1, State.deref, h2, bind, Except.bind, pure,
        Except.pure]
      rcases h3 with h3 | h3
      · cases hf : f.function_in_which_lambda_was_created with
        | none => exact absurd hf h3
        | some q => simp
      · simp [h3]
    constructor
    · intro first others hch
      obtain ⟨rest, hrest, hrun⟩ := create_invoke_params_run g l function st pl true hl hparams
        hpl hps hb (fun _ => by simp [hch])
      have hothers : ∀ q ∈ others, q.type = Operation.op_func_param :=
        fun q hq => hps q (by rw [hch]; exact List.mem_cons_of_mem _ hq)
      obtain ⟨rest2, hrest2, h1, -⟩ := mark_generic_params_spec others 0 hothers
      simp only [if_true, hch, List.tail_cons] at hrest
      rw [hrest] at hrest2
      cases hrest2
      refine ⟨_, rest, hrun, rfl, rfl, h1, ?_⟩
      have hlen := congrArg List.length h1
      simp only [List.length_map] at hlen
      rw [hch]
      simp [Vertex.children, hlen]
    · intro hnil
      unfold LambdaGenerator.create_invoke_params
      simp only [hl, get_function_params, hparams, as_of_type _ pl hpl, hb, hnil, bind,
        Except.bind, pure, Except.pure, if_true]

theorem has_this_param_already_cases (function : Vertex) (st : State) (b : Bool)
    (hb : has_this_param_already function st = .ok b) :
    function.get_func_id = none ∨
      ∃ p f, function.get_func_id = some p ∧ st.functions.get? p = some f := by
  cases hf : function.get_func_id with
  | none => exact Or.inl rfl
  | some p =>
    right
    cases hg : st.functions.get? p with
    | none =>
      simp only [has_this_param_already, hf, State.deref, hg, bind, Except.bind] at hb
      cases hb
    | some f => exact ⟨p, f, rfl, hg⟩

theorem add_this_to_captured_variables_type (l : LambdaClassData) (v : Vertex)
    (h : v.type ≠ Operation.op_var) :
    (add_this_to_captured_variables l v).type = v.type := by
  cases v with
  | mk d cs =>
    have hd : d.type ≠ Operation.op_var := h
    simp [add_this_to_captured_variables, hd, Vertex.type, Vertex.data]

/-- The body that `create_invoke_cmd` builds for a closure literal whose body is an
`op_seq`. -/
theorem create_invoke_cmd_run (g : LambdaGenerator) (l : LambdaClassData)
    (function : Vertex) (st : State) (cmd : Vertex) (b : Bool)
    (hl : g.generated_lambda = some l)
    (hcmd : function.cmd = .ok cmd) (hseq : cmd.type = Operation.op_seq)
    (hb : has_this_param_already function st = .ok b) :
    ∃ c, g.create_invoke_cmd function st = .ok c ∧ c.type = Operation.op_seq := by
  have hrw : (add_this_to_captured_variables l cmd).type = Operation.op_seq := by
    rw [add_this_to_captured_variables_type l cmd (by rw [hseq]; decide), hseq]
  unfold LambdaGenerator.create_invoke_cmd
  rcases has_this_param_already_cases function st b hb with h | ⟨p, f, h1, h2⟩
  · refine ⟨add_this_to_captured_variables l cmd, ?_, hrw⟩
    simp only [hcmd, h, hl, Vertex.clone, bind, Except.bind, pure, Except.pure, if_true]
    exact as_of_type _ _ hrw
  · cases hf : f.function_in_which_lambda_was_created with
    | none =>
      refine ⟨add_this_to_captured_variables l cmd, ?_, hrw⟩
      simp only [hcmd, h1, State.deref, h2, hf, hl, Vertex.clone, bind, Except.bind, pure,
        Except.pure, Option.isSome_none, Bool.not_false, if_true]
      exact as_of_type _ _ hrw
    | some q =>
      refine ⟨cmd, ?_, hseq⟩
      simp only [hcmd, h1, State.deref, h2, hf, Vertex.clone, bind, Except.bind, pure,
        Except.pure, Option.isSome_some, Bool.not_true, Bool.false_eq_true, if_false]
      exact as_of_type _ _ hseq

/-- What `register_invoke_method` does with a function vertex that has the children `name`,
`params`, `cmd`. -/
theorem register_invoke_method_run (g : LambdaGenerator) (l : LambdaClassData) (st : State)
    (d : VertexData) (nm pl cmd : Vertex)
    (hl : g.generated_lambda = some l) (hpl : pl.type = Operation.op_func_param_list) :
    ∃ F root, g.register_invoke_method (.mk d [nm, pl, cmd]) st = .ok
        ({ st with
            functions := st.functions ++ [F]
            G := { st.G with
              registered_functions := st.G.registered_functions ++ [st.functions.length] } },
         { g with generated_lambda := some { l with
            members := l.members.add_instance_method F.local_name st.functions.length
              AccessType.access_public } },
         st.functions.length) ∧
      F.name = replace_backslashes l.name ++ "$$".toList ++ nm.get_string ∧
      F.root = some root ∧
      root.name = .ok (update_location st.functions.length
        (nm.set_string (replace_backslashes l.name ++ "$$".toList ++ nm.get_string))) ∧
      F.get_params = .ok (pl.children.map (update_location st.functions.length)) ∧
      F.is_template = (l.members.has_any_instance_var || decide (pl.children.length > 1)) ∧
      F.is_inline = true ∧ F.has_variadic_param = false ∧
      root = update_location st.functions.length
        (.mk { d with func_id := some st.functions.length }
          [nm.set_string (replace_backslashes l.name ++ "$$".toList ++ nm.get_string), pl, cmd]) := by
  obtain ⟨s, hs⟩ : ∃ s, s = replace_backslashes l.name ++ "$$".toList ++ nm.get_string :=
    ⟨_, rfl⟩
  let F0 : FunctionData :=
    { name := s
      root := some (.mk { d with func_id := some st.functions.length } [nm.set_string s, pl, cmd])
      file_id := st.stage_file
      type_ := func_type_t.func_local }
  have hname : (nm.set_string s).get_string = s := by
    cases nm with
    | mk nd ncs => rfl
  have hgp := get_params_update_location_in_body st.functions.length F0
    { d with func_id := some st.functions.length } (nm.set_string s) pl cmd rfl hpl
  let F : FunctionData :=
    { F0.update_location_in_body st.functions.length with
      is_template := l.members.has_any_instance_var || decide (pl.children.length > 1)
      is_inline := true }
  have hFgp : F.get_params = .ok (pl.children.map (update_location st.functions.length)) := hgp
  refine ⟨F, update_location st.functions.length
      (.mk { d with func_id := some st.functions.length } [nm.set_string s, pl, cmd]),
    ?_, hs ▸ rfl, rfl, ?_, hFgp, rfl, rfl, rfl, by rw [hs]⟩
  · unfold LambdaGenerator.register_invoke_method
    simp only [hl, Vertex.name, Vertex.ith, Vertex.children, List.get?, bind, Except.bind, pure,
      Except.pure, FunctionData.create_function, Vertex.set_ith, Vertex.set_children,
      Vertex.set_func_id, List.set, State.deref, get?_append_new, ← hs, hname]
    have hgp2 : (FunctionData.update_location_in_body st.functions.length F0).get_params
        = .ok (pl.children.map (update_location st.functions.length)) := hgp
    simp only [F0] at hgp2
    simp only [hgp2, List.length_map]
    have hset : ∀ (x y : FunctionData), (st.functions ++ [x]).set st.functions.length y
        = st.functions ++ [y] := by
      intro x y
      simp
    simp only [hset]
    rfl
  · rw [← hs]
    simp [Vertex.name, Vertex.ith, Vertex.children, update_location, update_location_list]

/-- C11, counterexample. The dispatch method of the closure `function (int $x) { ... }` in a
lambda class without captured fields is flagged as template although none of its
parameters is a generic slot. -/
theorem register_invoke_method_typed_param_is_template :
    ∃ st1 g1 F,
      example_static_generator.add_invoke_method
        (example_closure [example_param "int".toList "x".toList]) {} = .ok (st1, g1) ∧
      st1.functions.get? 0 = some F ∧ st1.G.registered_functions = [0] ∧
      F.is_template = true ∧
      F.param_vertices.map Vertex.template_type_id = [-1, -1] ∧
      F.param_vertices.map Vertex.type_declaration = [[], "int".toList] ∧
      example_static_generator.generated_lambda.map
        (fun l => l.members.has_any_instance_var) = some false :=
  ⟨_, _, _, rfl, rfl, rfl, rfl, rfl, rfl, rfl⟩

/-- C11, amended. The dispatch method that `register_invoke_method` registers is flagged
`is_template` exactly when the lambda class has at least one captured instance field or
the method has more than one parameter, that is at least one parameter besides the
self-parameter, generic or not. -/
theorem register_invoke_method_is_template (g : LambdaGenerator) (l : LambdaClassData)
    (st : State) (d : VertexData) (nm pl cmd : Vertex)
    (hl : g.generated_lambda = some l) (hpl : pl.type = Operation.op_func_param_list) :
    ∃ st1 g1 n F params, g.register_invoke_method (.mk d [nm, pl, cmd]) st = .ok (st1, g1, n) ∧
      st1.functions.get? n = some F ∧ n ∈ st1.G.registered_functions ∧
      F.get_params = .ok params ∧ params.length = pl.children.length ∧
      (F.is_template = true ↔
        (l.members.has_any_instance_var = true ∨ params.length > 1)) := by
  obtain ⟨F, root, hrun, -, -, -, hgp, ht, -, -⟩ :=
    register_invoke_method_run g l st d nm pl cmd hl hpl
  refine ⟨_, _, _, F, _, hrun, get?_append_new _ _, by simp, hgp, by simp, ?_⟩
  rw [ht]
  simp

theorem register_invoke_method_is_template_witness :
    ∃ st1 g1 n F params,
      example_static_generator.register_invoke_method
        (.mk { type := Operation.op_function }
          [example_static_generator.create_name "__invoke".toList,
           .mk { type := Operation.op_func_param_list }
             [Vertex.create Operation.op_func_param [ClassData.gen_vertex_this {}]],
           .mk { type := Operation.op_seq } []]) {} = .ok (st1, g1, n) ∧
      st1.functions.get? n = some F ∧ n ∈ st1.G.registered_functions ∧
      F.get_params = .ok params ∧ params.length = 1 ∧
      (F.is_template = true ↔ (false = true ∨ params.length > 1)) :=
  register_invoke_method_is_template example_static_generator _ {} _ _ _ _ rfl rfl

/-- C13. The dispatch method that `add_invoke_method` creates for a well-formed closure
literal is registered under the name of the lambda class with every backslash replaced by
`$`, followed by `$$__invoke`; the name is stored in the root name node and in
`FunctionData::name`, and the method is added to the class as a public instance method. -/
theorem add_invoke_method_name (g : LambdaGenerator) (l : LambdaClassData) (st : State)
    (fd : VertexData) (fnm pl cmd : Vertex) (b : Bool)
    (hl : g.generated_lambda = some l)
    (hpl : pl.type = Operation.op_func_param_list)
    (hps : ∀ p ∈ pl.children, p.type = Operation.op_func_param)
    (hseq : cmd.type = Operation.op_seq)
    (hb : has_this_param_already (.mk fd [fnm, pl, cmd]) st = .ok b)
    (hne : b = true → pl.children ≠ []) :
    ∃ st1 g1 l1 F root name_vertex,
      g.add_invoke_method (.mk fd [fnm, pl, cmd]) st = .ok (st1, g1) ∧
      g1.generated_lambda = some l1 ∧
      st1.functions.get? st.functions.length = some F ∧
      st1.G.registered_functions = st.G.registered_functions ++ [st.functions.length] ∧
      F.name = replace_characters l.name '\\' '$' ++ "$$__invoke".toList ∧
      F.root = some root ∧ root.name = .ok name_vertex ∧
      name_vertex.get_string = replace_characters l.name '\\' '$' ++ "$$__invoke".toList ∧
      l1.members.instance_methods = l.members.instance_methods ++
        [⟨F.local_name, some st.functions.length, AccessType.access_public⟩] := by
  obtain ⟨rest, -, hparams⟩ := create_invoke_params_run g l (.mk fd [fnm, pl, cmd]) st pl b hl
    rfl hpl hps hb hne
  obtain ⟨c, hc, -⟩ := create_invoke_cmd_run g l (.mk fd [fnm, pl, cmd]) st cmd b hl rfl hseq hb
  obtain ⟨F, root, hreg, hname, hroot, hrootname, -, -, -, -⟩ :=
    register_invoke_method_run g l st
      { type := Operation.op_function, location := g.created_location }
      (g.create_name "__invoke".toList)
      (.mk { type := Operation.op_func_param_list, location := { line := pl.location.line } }
        (Vertex.create Operation.op_func_param [ClassData.gen_vertex_this g.created_location]
          :: rest))
      c hl rfl
  have hnm : (g.create_name "__invoke".toList).get_string = "__invoke".toList := rfl
  have hfull : replace_backslashes l.name ++ "$$".toList ++ "__invoke".toList
      = replace_characters l.name '\\' '$' ++ "$$__invoke".toList := by
    simp [replace_backslashes]
  rw [hnm, hfull] at hname hrootname
  let members1 : ClassMembersContainer :=
    l.members.add_instance_method F.local_name st.functions.length AccessType.access_public
  let l1 : LambdaClassData := { l with members := members1 }
  let G1 : CompilerCore :=
    { st.G with registered_functions := st.G.registered_functions ++ [st.functions.length] }
  let fs1 : Bool → List FunctionData := fun v =>
    List.set (st.functions ++ [F]) st.functions.length { F with has_variadic_param := v }
  have hfinal : ∃ v : Bool, g.add_invoke_method (.mk fd [fnm, pl, cmd]) st = .ok
      ({ st with functions := fs1 v, G := G1 }, { g with generated_lambda := some l1 }) := by
    simp only [Vertex.create] at hreg
    rcases has_this_param_already_cases _ st b hb with h | ⟨p, f, h1, h2⟩
    · refine ⟨false, ?_⟩
      unfold LambdaGenerator.add_invoke_method
      simp only [hparams, hc, bind, Except.bind, pure, Except.pure, Vertex.create,
        Vertex.set_location]
      simp only [hreg, h, State.deref, get?_append_new]
    · refine ⟨f.has_variadic_param, ?_⟩
      unfold LambdaGenerator.add_invoke_method
      simp only [hparams, hc, bind, Except.bind, pure, Except.pure, Vertex.create,
        Vertex.set_location]
      simp only [hreg, h1, State.deref, get?_append_old _ _ _ _ h2, get?_append_new]
  obtain ⟨v, hv⟩ := hfinal
  refine ⟨_, _, l1, { F with has_variadic_param := v }, root, _, hv, rfl, ?_, rfl, hname, hroot,
    hrootname, ?_, rfl⟩
  · simp [fs1]
  · cases hx : update_location st.functions.length
        (Vertex.set_string (replace_characters l.name '\\' '$' ++ "$$__invoke".toList)
          (g.create_name "__invoke".toList)) with
    | mk xd xcs =>
      simp only [LambdaGenerator.create_name, Vertex.create, Vertex.set_string,
        Vertex.set_location, update_location, Vertex.mk.injEq] at hx
      rw [← hx.1]
      rfl

theorem add_invoke_method_name_witness :
    ∃ st1 g1 F,
      example_namespaced_generator.add_invoke_method (example_closure []) {} = .ok (st1, g1) ∧
      st1.functions.get? 0 = some F ∧ st1.G.registered_functions = [0] ∧
      F.name = "VK$Feed$L$$__invoke".toList ∧
      (∃ root name_vertex, F.root = some root ∧ root.name = .ok name_vertex ∧
        name_vertex.get_string = "VK$Feed$L$$__invoke".toList) ∧
      g1.generated_lambda.map (fun l => l.members.instance_methods)
        = some [⟨"__invoke".toList, some 0, AccessType.access_public⟩] := by
  obtain ⟨st1, g1, l1, F, root, nv, h1, h2, h3, h4, h5, h6, h7, h8, h9⟩ :=
    add_invoke_method_name example_namespaced_generator _ {} { type := Operation.op_function }
      (.mk { type := Operation.op_func_name } [])
      (.mk { type := Operation.op_func_param_list, location := { line := 5 } } [])
      (.mk { type := Operation.op_seq }
        [.mk { type := Operation.op_return }
          [.mk { type := Operation.op_var, str_val := "a".toList } []]])
      false rfl rfl (by decide) rfl rfl (fun h => by cases h)
  have hn : F.name = "VK$Feed$L$$__invoke".toList := h5.trans (by decide)
  have hloc : F.local_name = "__invoke".toList := by
    rw [FunctionData.local_name, hn]
    rfl
  refine ⟨st1, g1, F, h1, h3, h4, hn, ⟨root, nv, h6, h7, h8.trans (by decide)⟩, ?_⟩
  rw [h2, Option.map_some', h9, hloc]
  rfl

theorem create_invoke_params_self_param_witness :
    (∃ params rest,
      example_static_generator.create_invoke_params
        (example_closure [example_param [] "x".toList]) {} = .ok params ∧
      params.type = Operation.op_func_param_list ∧
      params.children =
        Vertex.create Operation.op_func_param [ClassData.gen_vertex_this {}] :: rest ∧
      rest.map Vertex.without_slot = [example_param [] "x".toList].map Vertex.without_slot ∧
      params.children.length = 1 + 1) ∧
    (∃ params rest,
      example_static_generator.create_invoke_params example_converted_closure
        example_lambda_state = .ok params ∧
      params.type = Operation.op_func_param_list ∧
      params.children =
        Vertex.create Operation.op_func_param [ClassData.gen_vertex_this {}] :: rest ∧
      rest.map Vertex.without_slot = [example_param [] "x".toList].map Vertex.without_slot ∧
      params.children.length = 2) :=
  ⟨(create_invoke_params_self_param example_static_generator _
      (example_closure [example_param [] "x".toList]) {}
      (.mk { type := Operation.op_func_param_list, location := { line := 5 } }
        [example_param [] "x".toList]) rfl rfl rfl (by decide)).1 (Or.inl rfl),
   ((create_invoke_params_self_param example_static_generator _
      example_converted_closure example_lambda_state
      (.mk { type := Operation.op_func_param_list, location := { line := 5 } }
        [Vertex.create Operation.op_func_param [ClassData.gen_vertex_this {}],
         example_param [] "x".toList]) rfl rfl rfl (by decide)).2
      ⟨0, example_lambda_function, rfl, rfl, Or.inr rfl⟩).1 _ _ rfl⟩

mutual
theorem add_this_matches_spec_vertex (l : LambdaClassData) :
    ∀ t : Vertex, t.vars_are_leaves = true →
      add_this_to_captured_variables l t = rewrite_body_by_spec l t ∧
      ∀ n ∈ (add_this_to_captured_variables l t).var_names,
        n = "this".toList ∨ l.members.get_instance_field n = none
  | .mk d cs => by
    intro hleaves
    simp only [Vertex.vars_are_leaves, Bool.and_eq_true, Bool.or_eq_true, bne_iff_ne, ne_eq,
      List.isEmpty_iff] at hleaves
    obtain ⟨hleaf, hcs⟩ := hleaves
    by_cases hd : d.type = Operation.op_var
    · have hnil : cs = [] := by
        rcases hleaf with h | h
        · exact absurd hd h
        · exact h
      subst hnil
      by_cases hf : (l.members.get_instance_field d.str_val).isSome = true
      · constructor
        · simp [add_this_to_captured_variables, rewrite_body_by_spec, hd, hf, Vertex.create,
            Vertex.set_location, Vertex.set_string]
        · intro n hn
          simp only [add_this_to_captured_variables, hd, hf, Vertex.create, Vertex.set_location,
            Vertex.set_string, ClassData.gen_vertex_this, Vertex.var_names,
            Vertex.var_names_list, ne_eq, not_true_eq_false, if_false, if_true,
            List.append_nil, List.nil_append, List.mem_singleton, reduceCtorEq] at hn
          exact Or.inl hn
      · by_cases hthis : (!l.is_static && d.str_val == "this".toList) = true
        · have hthis2 := hthis
          simp only [Bool.and_eq_true, Bool.not_eq_true', beq_iff_eq] at hthis2
          have c1 : (d.type = Operation.op_var ∧
              (l.members.get_instance_field d.str_val).isSome = true) = False :=
            eq_false (fun h => hf h.2)
          have c2 : (d.type = Operation.op_var ∧ l.is_static = false ∧
              d.str_val = "this".toList) = True := eq_true ⟨hd, hthis2⟩
          constructor
          · simp only [rewrite_body_by_spec, c1, c2, if_false, if_true]
            simp only [add_this_to_captured_variables, hd, hf, hthis, Vertex.create,
              Vertex.set_location, Vertex.set_string, ne_eq, not_true_eq_false, if_false,
              if_true, Bool.false_eq_true]
          · intro n hn
            simp only [add_this_to_captured_variables, hd, hf, hthis, Vertex.create,
              Vertex.set_location, Vertex.set_string, Vertex.var_names, Vertex.var_names_list,
              ne_eq, not_true_eq_false, if_false, if_true, Bool.false_eq_true,
              List.append_nil, List.nil_append, List.mem_singleton, reduceCtorEq] at hn
            exact Or.inl (hn.trans hthis2.2)
        · have hthis3 : ¬ (l.is_static = false ∧ d.str_val = "this".toList) := by
            intro h
            apply hthis
            simp only [Bool.and_eq_true, Bool.not_eq_true', beq_iff_eq]
            exact h
          have hres : add_this_to_captured_variables l (.mk d []) = .mk d [] := by
            simp only [add_this_to_captured_variables, hd, hf, hthis, ne_eq, not_true_eq_false,
              if_false, Bool.false_eq_true]
          have c1 : (d.type = Operation.op_var ∧
              (l.members.get_instance_field d.str_val).isSome = true) = False :=
            eq_false (fun h => hf h.2)
          have c2 : (d.type = Operation.op_var ∧ l.is_static = false ∧
              d.str_val = "this".toList) = False := eq_false (fun h => hthis3 h.2)
          constructor
          · rw [hres]
            simp only [rewrite_body_by_spec, c1, c2, if_false, rewrite_body_by_spec_list]
          · intro n hn
            rw [hres] at hn
            simp only [Vertex.var_names, Vertex.var_names_list, hd, if_true, List.append_nil,
              List.mem_singleton] at hn
            right
            subst hn
            cases hg : l.members.get_instance_field d.str_val with
            | none => rfl
            | some x => simp [hg] at hf
    · obtain ⟨h1, h2⟩ := add_this_matches_spec_list l cs hcs
      have hres : add_this_to_captured_variables l (.mk d cs)
          = .mk d (add_this_to_captured_variables_list l cs) := by
        simp only [add_this_to_captured_variables, ne_eq, hd, not_false_eq_true, if_true]
      constructor
      · rw [hres, h1]
        simp only [rewrite_body_by_spec, hd, false_and, if_false]
      · intro n hn
        rw [hres] at hn
        simp only [Vertex.var_names, hd, if_false, List.nil_append] at hn
        exact h2 n hn
theorem add_this_matches_spec_list (l : LambdaClassData) :
    ∀ ts : List Vertex, Vertex.vars_are_leaves_list ts = true →
      add_this_to_captured_variables_list l ts = rewrite_body_by_spec_list l ts ∧
      ∀ n ∈ Vertex.var_names_list (add_this_to_captured_variables_list l ts),
        n = "this".toList ∨ l.members.get_instance_field n = none
  | [] => fun _ => ⟨rfl, fun n hn => by
      simp [add_this_to_captured_variables_list, Vertex.var_names_list] at hn⟩
  | t :: ts => by
    intro hleaves
    simp only [Vertex.vars_are_leaves_list, Bool.and_eq_true] at hleaves
    obtain ⟨h1, h2⟩ := add_this_matches_spec_vertex l t hleaves.1
    obtain ⟨g1, g2⟩ := add_this_matches_spec_list l ts hleaves.2
    constructor
    · simp only [add_this_to_captured_variables_list, rewrite_body_by_spec_list, h1, g1]
    · intro n hn
      simp only [add_this_to_captured_variables_list, Vertex.var_names_list,
        List.mem_append] at hn
      rcases hn with hn | hn
      · exact h2 n hn
      · exact g2 n hn
end

/-- C19. On a body tree whose variable nodes are leaves, `add_this_to_captured_variables`
does what the specification says: a variable node whose name is a captured instance field
becomes an instance-property access of that name on `$this`, a variable node named `this`
in a non-static closure becomes an access to the reserved parent-this field, every other
node is kept with its children in the same order; and afterwards no variable node other
than one named `this` carries the name of a captured field. -/
theorem add_this_to_captured_variables_spec (l : LambdaClassData) (t : Vertex)
    (hleaves : t.vars_are_leaves = true) :
    add_this_to_captured_variables l t = rewrite_body_by_spec l t ∧
    ∀ n ∈ (add_this_to_captured_variables l t).var_names,
      n = "this".toList ∨ l.members.get_instance_field n = none :=
  add_this_matches_spec_vertex l t hleaves

theorem add_this_to_captured_variables_spec_witness :
    add_this_to_captured_variables example_lambda example_body
      = rewrite_body_by_spec example_lambda example_body ∧
    (∀ n ∈ (add_this_to_captured_variables example_lambda example_body).var_names,
      n = "this".toList ∨ example_lambda.members.get_instance_field n = none) ∧
    (add_this_to_captured_variables example_lambda example_body).var_names
      = ["this".toList, "this".toList, "b".toList] := by
  have h := add_this_to_captured_variables_spec example_lambda example_body (by decide)
  exact ⟨h.1, h.2, by decide⟩

/-! ## Resumable path -/

theorem collect_prev_names_chain (st : State) (prev : FunctionData → FunctionPtr)
    (fs : List FunctionData) :
    ∀ (p : FunctionPtr) (fuel : Nat) (names : List Str), PrevChain st prev p fs →
      fs.length ≤ fuel →
      collect_prev_names st prev fuel p names = .ok (names ++ fs.map (fun f => f.name)) := by
  induction fs with
  | nil =>
    intro p fuel names h _
    cases h
    cases fuel <;> simp [collect_prev_names]
  | cons f fs ih =>
    intro p fuel names h hfuel
    cases h with
    | cons hp hrest =>
      cases fuel with
      | zero => simp at hfuel
      | succ fuel =>
        simp only [collect_prev_names, hp]
        rw [ih _ fuel _ hrest (by simpa using hfuel)]
        simp

theorem join_names_from_succ (i : Nat) (names : List Str) :
    join_names_from (i + 1) names = (names.map (fun n => " -> ".toList ++ n)).flatten := by
  induction names generalizing i with
  | nil => simp [join_names_from]
  | cons n ns ih => simp [join_names_from, ih]

theorem intercalate_cons (sep n : Str) (ns : List Str) :
    sep.intercalate (n :: ns) = n ++ (ns.map (fun m => sep ++ m)).flatten := by
  induction ns generalizing n with
  | nil => simp [List.intercalate]
  | cons m ms ih =>
    have h := ih m
    simp only [List.intercalate, List.intersperse, List.flatten_cons, List.map_cons] at h ⊢
    rw [h, List.append_assoc]

theorem join_names_from_zero (names : List Str) :
    join_names_from 0 names = " -> ".toList.intercalate names := by
  cases names with
  | nil => simp [join_names_from, List.intercalate]
  | cons n ns =>
    rw [intercalate_cons]
    simp only [join_names_from, ne_eq, not_true_eq_false, if_false, List.nil_append, zero_add]
    rw [join_names_from_succ]

/-- C25: `get_resumable_path` joins with ` -> ` the names of the fork chain from the
farthest predecessor to the nearest, then the name of the function itself, then the names of
the wait chain from the nearest predecessor to the farthest (`forks` and `waits` list the
two chains starting at the nearest predecessor); without predecessors the result is the
name of the function alone. -/
theorem get_resumable_path_spec (st : State) (f : FunctionData)
    (forks waits : List FunctionData) (fuel : Nat)
    (hfork : PrevChain st (fun g => g.fork_prev) f.fork_prev forks)
    (hwait : PrevChain st (fun g => g.wait_prev) f.wait_prev waits)
    (hforks : forks.length ≤ fuel) (hwaits : waits.length ≤ fuel) :
    f.get_resumable_path st fuel =
        .ok (" -> ".toList.intercalate
          ((forks.map (fun g => g.name)).reverse ++ [f.name] ++ waits.map (fun g => g.name)))
      ∧ (forks = [] → waits = [] → f.get_resumable_path st fuel = .ok f.name) := by
  have hrun : f.get_resumable_path st fuel =
      .ok (" -> ".toList.intercalate
        ((forks.map (fun g => g.name)).reverse ++ [f.name] ++ waits.map (fun g => g.name))) := by
    unfold FunctionData.get_resumable_path
    rw [collect_prev_names_chain st _ forks _ fuel [] hfork hforks]
    simp only [bind, Except.bind, pure, Except.pure, List.nil_append]
    rw [collect_prev_names_chain st _ waits _ fuel _ hwait hwaits]
    simp only [join_names_from_zero]
  refine ⟨hrun, ?_⟩
  intro h1 h2
  rw [hrun, h1, h2]
  simp [List.intercalate]

/-- In `example_resumable_state` the path of `c` is `a -> b -> c -> d`. -/
theorem get_resumable_path_spec_witness :
    FunctionData.get_resumable_path example_resumable_state 2
      { name := "c".toList, fork_prev := some 1, wait_prev := some 3 }
      = .ok "a -> b -> c -> d".toList :=
  (get_resumable_path_spec example_resumable_state
    { name := "c".toList, fork_prev := some 1, wait_prev := some 3 }
    [{ name := "b".toList, fork_prev := some 0 }, { name := "a".toList }]
    [{ name := "d".toList }] 2
    (PrevChain.cons rfl (PrevChain.cons rfl PrevChain.nil))
    (PrevChain.cons rfl PrevChain.nil) (by decide) (by decide)).1

/-! ## Compiler settings -/

theorem rfind_eq_none_iff (s : Str) (c : Char) : rfind s c = none ↔ c ∉ s := by
  induction s with
  | nil => simp [rfind]
  | cons x xs ih =>
    simp only [rfind, List.mem_cons, not_or]
    cases h : rfind xs c with
    | some i =>
      have : ¬ (c ∉ xs) := fun hn => by simp [ih.2 hn] at h
      simp [this]
    | none =>
      have hx := ih.1 h
      by_cases hc : x = c
      · simp [hc]
      · have hc2 : ¬ c = x := fun e => hc e.symm
        simp [hc, hc2, hx]

theorem rfind_last (s : Str) (c : Char) (h : s.getLast? = some c) :
    ∃ i, rfind s c = some i ∧ s.drop (i + 1) = [] := by
  induction s with
  | nil => simp at h
  | cons x xs ih =>
    cases xs with
    | nil =>
      simp at h
      exact ⟨0, by simp [rfind, h], by simp⟩
    | cons y ys =>
      have h2 : (y :: ys).getLast? = some c := by
        simpa [List.getLast?_cons_cons] using h
      obtain ⟨i, hi, hd⟩ := ih h2
      exact ⟨i + 1, by simp only [rfind] at hi ⊢; simp [hi], by simpa using hd⟩

theorem init_not_static_lib (env : SettingsEnvironment) (s : CompilerSettings)
    (hmode : s.mode.value ≠ "lib".toList) (hout : s.static_lib_out_dir.value ≠ []) :
    s.init env = .error (SettingsError.runtime_error
      ("Option ".toList ++ s.static_lib_out_dir.cmd_option_full_name
        ++ " is allowed only for static lib mode".toList)) := by
  have hm : ¬ (s.mode.value = ['l', 'i', 'b']) := hmode
  simp [CompilerSettings.init, CompilerSettings.is_static_lib_mode, hm, hout, bind, Except.bind]

theorem init_static_lib_mode (env : SettingsEnvironment) (s : CompilerSettings)
    (hmode : s.mode.value = "lib".toList) :
    s.init env =
      (CompilerSettings.init_static_lib env
        { s with kphp_src_path := option_as_dir env s.kphp_src_path }).bind env.init_tail := by
  have hm : s.mode.value = ['l', 'i', 'b'] := hmode
  simp [CompilerSettings.init, CompilerSettings.is_static_lib_mode, hm, bind]

/-- C26: `CompilerSettings::init` fails with a `std::runtime_error` whose message is one of
the reasons of lines 161-187: in static-lib mode (the mode is `lib`) when there is more than
one main file, when the TL schema file is set, when the full path of the library directory
(the last main file) has no `/`, and when nothing follows its last `/`; outside static-lib
mode when the static-lib output directory is set. -/
theorem init_static_lib_failures (env : SettingsEnvironment) (s : CompilerSettings) :
    (s.mode.value = "lib".toList →
      (1 < s.main_files.value.length →
        s.init env = .error (SettingsError.runtime_error
          "Multiple main directories are forbidden for static lib mode".toList))
      ∧ (s.tl_schema_file.value ≠ [] →
        ∃ reason ∈ init_failure_reasons s,
          s.init env = .error (SettingsError.runtime_error reason))
      ∧ (∀ lib_dir, s.main_files.value.getLast? = some lib_dir →
          '/' ∉ env.get_full_path lib_dir →
        ∃ reason ∈ init_failure_reasons s,
          s.init env = .error (SettingsError.runtime_error reason))
      ∧ (∀ lib_dir, s.main_files.value.getLast? = some lib_dir →
          (env.get_full_path lib_dir).getLast? = some '/' →
        ∃ reason ∈ init_failure_reasons s,
          s.init env = .error (SettingsError.runtime_error reason)))
    ∧ (s.mode.value ≠ "lib".toList → s.static_lib_out_dir.value ≠ [] →
        s.init env = .error (SettingsError.runtime_error
          ("Option ".toList ++ s.static_lib_out_dir.cmd_option_full_name
            ++ " is allowed only for static lib mode".toList))) := by
  refine ⟨fun hmode => ?_, init_not_static_lib env s⟩
  rw [init_static_lib_mode env s hmode]
  by_cases hlen : 1 < s.main_files.value.length
  · have hrun : (CompilerSettings.init_static_lib env
        { s with kphp_src_path := option_as_dir env s.kphp_src_path }).bind env.init_tail
        = .error (SettingsError.runtime_error
          "Multiple main directories are forbidden for static lib mode".toList) := by
      simp [CompilerSettings.init_static_lib, hlen, Except.bind]
    rw [hrun]
    refine ⟨fun _ => rfl, fun _ => ?_, fun _ _ _ => ?_, fun _ _ _ => ?_⟩ <;>
      exact ⟨_, by simp [init_failure_reasons], rfl⟩
  · refine ⟨fun h => absurd h hlen, ?_⟩
    by_cases htl : s.tl_schema_file.value = []
    · refine ⟨fun h => absurd htl h, ?_, ?_⟩
      · intro lib_dir hlast hslash
        have hr := (rfind_eq_none_iff _ _).2 hslash
        refine ⟨"Bad lib directory".toList, by simp [init_failure_reasons], ?_⟩
        simp [CompilerSettings.init_static_lib, hlen, htl, hlast, hr, Except.bind]
      · intro lib_dir hlast hslash
        obtain ⟨i, hi, hd⟩ := rfind_last _ _ hslash
        refine ⟨"Empty static lib name".toList, by simp [init_failure_reasons], ?_⟩
        simp [CompilerSettings.init_static_lib, hlen, htl, hlast, hi, hd, Except.bind]
    · have hrun : (CompilerSettings.init_static_lib env
          { s with kphp_src_path := option_as_dir env s.kphp_src_path }).bind env.init_tail
          = .error (SettingsError.runtime_error
            ("Option ".toList ++ s.tl_schema_file.cmd_option_full_name
              ++ " is forbidden for static lib mode".toList)) := by
        simp [CompilerSettings.init_static_lib, hlen, htl, Except.bind]
      rw [hrun]
      refine ⟨fun _ => ?_, fun _ _ _ => ?_, fun _ _ _ => ?_⟩ <;>
        exact ⟨_, by simp [init_failure_reasons], rfl⟩

/-- A static library whose directory `libs/` ends in `/` has an empty name, and a server
build with a static-lib output directory is refused. -/
theorem init_static_lib_failures_witness :
    (∃ reason ∈ init_failure_reasons example_lib_settings,
      example_lib_settings.init example_environment
        = .error (SettingsError.runtime_error reason))
    ∧ example_server_settings.init example_environment
        = .error (SettingsError.runtime_error
          "Option --out-lib-dir is allowed only for static lib mode".toList) :=
  ⟨((init_static_lib_failures example_environment example_lib_settings).1 rfl).2.2.2
      "libs/".toList rfl rfl,
   (init_static_lib_failures example_environment example_server_settings).2
      (by decide) (by decide)⟩

/-- C27: `KphpOption<bool>::parse_arg_value` sets the value to true for the raw text `1`
and to false for `0` and for the empty text; for any other text it fails with the message
`Can't parse <option full name> option: '0' or '1' are expected`. -/
theorem parse_arg_value_bool_spec (o : KphpOption Bool) :
    (o.raw_option_arg = "1".toList →
      o.parse_arg_value_bool = .ok { o with value := true })
    ∧ (o.raw_option_arg = "0".toList ∨ o.raw_option_arg = "".toList →
      o.parse_arg_value_bool = .ok { o with value := false })
    ∧ (o.raw_option_arg ≠ "1".toList → o.raw_option_arg ≠ "0".toList →
        o.raw_option_arg ≠ "".toList →
      o.parse_arg_value_bool = .error (SettingsError.runtime_error
        ("Can't parse ".toList ++ o.cmd_option_full_name
          ++ " option: '0' or '1' are expected".toList))) := by
  refine ⟨fun h => ?_, fun h => ?_, fun h1 h0 he => ?_⟩
  · simp [KphpOption.parse_arg_value_bool, none_of_equal, h]
  · rcases h with h | h <;> simp [KphpOption.parse_arg_value_bool, none_of_equal, h]
  · have h1' : ¬ o.raw_option_arg = ['1'] := h1
    have h0' : ¬ o.raw_option_arg = ['0'] := h0
    have he' : ¬ o.raw_option_arg = [] := he
    simp [KphpOption.parse_arg_value_bool, none_of_equal, h1', h0', he',
      KphpOption.throw_param_exception]

/-- The raw text `yes` of the option `verbosity` is refused, `1` is read as true. -/
theorem parse_arg_value_bool_spec_witness :
    example_bool_option.parse_arg_value_bool = .error (SettingsError.runtime_error
        "Can't parse --verbosity [KPHP_VERBOSITY] option: '0' or '1' are expected".toList)
    ∧ KphpOption.parse_arg_value_bool { example_bool_option with raw_option_arg := "1".toList }
        = .ok { example_bool_option with raw_option_arg := "1".toList, value := true } :=
  ⟨(parse_arg_value_bool_spec example_bool_option).2.2 (by decide) (by decide) (by decide),
   (parse_arg_value_bool_spec { example_bool_option with raw_option_arg := "1".toList }).1 rfl⟩

/-! ## Dispatch body and forwarding builders -/

/-- The body that `create_invoke_cmd` returns when the rewriting is applied. -/
theorem create_invoke_cmd_rewrites (g : LambdaGenerator) (l : LambdaClassData)
    (function : Vertex) (st : State) (cmd : Vertex)
    (hl : g.generated_lambda = some l)
    (hcmd : function.cmd = .ok cmd) (hseq : cmd.type = Operation.op_seq)
    (h : function.get_func_id = none ∨
      ∃ p f, function.get_func_id = some p ∧ st.functions.get? p = some f ∧
        f.function_in_which_lambda_was_created = none) :
    g.create_invoke_cmd function st = .ok (add_this_to_captured_variables l cmd) := by
  have hrw : (add_this_to_captured_variables l cmd).type = Operation.op_seq := by
    rw [add_this_to_captured_variables_type l cmd (by rw [hseq]; decide), hseq]
  unfold LambdaGenerator.create_invoke_cmd
  rcases h with h | ⟨p, f, h1, h2, hf⟩
  · simp only [hcmd, h, hl, Vertex.clone, bind, Except.bind, pure, Except.pure, if_true]
    exact as_of_type _ _ hrw
  · simp only [hcmd, h1, State.deref, h2, hf, hl, Vertex.clone, bind, Except.bind, pure,
      Except.pure, Option.isSome_none, Bool.not_false, if_true]
    exact as_of_type _ _ hrw

/-- The body that `create_invoke_cmd` returns when the rewriting is skipped. -/
theorem create_invoke_cmd_skips (g : LambdaGenerator) (function : Vertex) (st : State)
    (cmd : Vertex) (p : Nat) (f : FunctionData) (q : Nat)
    (hcmd : function.cmd = .ok cmd) (hseq : cmd.type = Operation.op_seq)
    (hid : function.get_func_id = some p) (hf : st.functions.get? p = some f)
    (hparent : f.function_in_which_lambda_was_created = some q) :
    g.create_invoke_cmd function st = .ok cmd := by
  unfold LambdaGenerator.create_invoke_cmd
  simp only [hcmd, hid, State.deref, hf, hparent, Vertex.clone, bind, Except.bind, pure,
    Except.pure, Option.isSome_some, Bool.not_true, Bool.false_eq_true, if_false]
  exact as_of_type _ _ hseq

/-- C21: `create_invoke_cmd` works on a clone of the body `cmd` of the closure (the clone is
structurally equal to `cmd`, which is left as it was).  When the function of the closure
has its lambda-creation parent set, the result is the body without any rewriting;
otherwise (the closure has no function yet, or the function has no lambda-creation parent)
it is the result of `add_this_to_captured_variables` on the clone. -/
theorem create_invoke_cmd_spec (g : LambdaGenerator) (l : LambdaClassData)
    (function : Vertex) (st : State) (cmd : Vertex)
    (hl : g.generated_lambda = some l)
    (hcmd : function.cmd = .ok cmd) (hseq : cmd.type = Operation.op_seq) :
    cmd.clone = cmd
    ∧ (∀ p f q, function.get_func_id = some p → st.functions.get? p = some f →
        f.function_in_which_lambda_was_created = some q →
        g.create_invoke_cmd function st = .ok cmd)
    ∧ (function.get_func_id = none ∨
        (∃ p f, function.get_func_id = some p ∧ st.functions.get? p = some f ∧
          f.function_in_which_lambda_was_created = none) →
        g.create_invoke_cmd function st = .ok (add_this_to_captured_variables l cmd.clone)) :=
  ⟨rfl,
   fun p f q hid hf hparent => create_invoke_cmd_skips g function st cmd p f q hcmd hseq hid hf
     hparent,
   fun h => create_invoke_cmd_rewrites g l function st cmd hl hcmd hseq h⟩

/-- The body `return $a;` of a closure literal without a function is rewritten to
`return $this->a;` in the lambda class that captured `a`. -/
theorem create_invoke_cmd_spec_witness :
    LambdaGenerator.create_invoke_cmd { generated_lambda := some example_static_lambda }
        (example_closure []) example_state
      = .ok (.mk { type := Operation.op_seq }
          [.mk { type := Operation.op_return }
            [.mk { type := Operation.op_instance_prop, str_val := "a".toList }
              [ClassData.gen_vertex_this {}]]]) :=
  (create_invoke_cmd_spec { generated_lambda := some example_static_lambda }
    example_static_lambda (example_closure []) example_state
    (.mk { type := Operation.op_seq }
       [.mk { type := Operation.op_return }
          [.mk { type := Operation.op_var, str_val := "a".toList } []]])
    rfl rfl rfl).2.2 (Or.inl rfl)

/-- What `add_invoke_method` builds from a closure vertex with the children `name`,
`params`, `cmd`: the new function at the end of the heap, with its root. -/
theorem add_invoke_method_root (g : LambdaGenerator) (l : LambdaClassData) (st : State)
    (fd : VertexData) (fnm pl cmd : Vertex) (b : Bool)
    (hl : g.generated_lambda = some l)
    (hpl : pl.type = Operation.op_func_param_list)
    (hps : ∀ p ∈ pl.children, p.type = Operation.op_func_param)
    (hseq : cmd.type = Operation.op_seq)
    (hb : has_this_param_already (.mk fd [fnm, pl, cmd]) st = .ok b)
    (hne : b = true → pl.children ≠ []) :
    ∃ rest c F,
      mark_generic_params (if b then pl.children.tail else pl.children) 0 = .ok rest ∧
      g.create_invoke_cmd (.mk fd [fnm, pl, cmd]) st = .ok c ∧
      g.add_invoke_method (.mk fd [fnm, pl, cmd]) st = .ok
        ({ st with
            functions := st.functions ++ [F]
            G := { st.G with
              registered_functions := st.G.registered_functions ++ [st.functions.length] } },
         { g with generated_lambda := some { l with
            members := l.members.add_instance_method F.local_name st.functions.length
              AccessType.access_public } }) ∧
      F.root = some (update_location st.functions.length
        (.mk { type := Operation.op_function, location := g.created_location,
               func_id := some st.functions.length }
          [(g.create_name "__invoke".toList).set_string
             (replace_backslashes l.name ++ "$$".toList ++ "__invoke".toList),
           .mk { type := Operation.op_func_param_list, location := { line := pl.location.line } }
             (Vertex.create Operation.op_func_param [ClassData.gen_vertex_this g.created_location]
               :: rest),
           c])) := by
  obtain ⟨rest, hrest, hparams⟩ := create_invoke_params_run g l (.mk fd [fnm, pl, cmd]) st pl b
    hl rfl hpl hps hb hne
  obtain ⟨c, hc, -⟩ := create_invoke_cmd_run g l (.mk fd [fnm, pl, cmd]) st cmd b hl rfl hseq hb
  obtain ⟨F, root, hreg, -, hroot, -, -, -, -, -, hrooteq⟩ :=
    register_invoke_method_run g l st
      { type := Operation.op_function, location := g.created_location }
      (g.create_name "__invoke".toList)
      (.mk { type := Operation.op_func_param_list, location := { line := pl.location.line } }
        (Vertex.create Operation.op_func_param [ClassData.gen_vertex_this g.created_location]
          :: rest))
      c hl rfl
  have hnm : (g.create_name "__invoke".toList).get_string = "__invoke".toList := rfl
  rw [hnm] at hrooteq
  have hset : ∀ (x y : FunctionData), (st.functions ++ [x]).set st.functions.length y
      = st.functions ++ [y] := by
    intro x y
    simp
  have hfinal : ∃ v : Bool, g.add_invoke_method (.mk fd [fnm, pl, cmd]) st = .ok
      ({ st with
          functions := st.functions ++ [{ F with has_variadic_param := v }]
          G := { st.G with
            registered_functions := st.G.registered_functions ++ [st.functions.length] } },
       { g with generated_lambda := some { l with
          members := l.members.add_instance_method F.local_name st.functions.length
            AccessType.access_public } }) := by
    simp only [Vertex.create] at hreg
    rcases has_this_param_already_cases _ st b hb with h | ⟨p, f, h1, h2⟩
    · refine ⟨false, ?_⟩
      unfold LambdaGenerator.add_invoke_method
      simp only [hparams, hc, bind, Except.bind, pure, Except.pure, Vertex.create,
        Vertex.set_location]
      simp only [hreg, h, State.deref, get?_append_new, hset]
    · refine ⟨f.has_variadic_param, ?_⟩
      unfold LambdaGenerator.add_invoke_method
      simp only [hparams, hc, bind, Except.bind, pure, Except.pure, Vertex.create,
        Vertex.set_location]
      simp only [hreg, h1, State.deref, get?_append_old _ _ _ _ h2, get?_append_new, hset]
  obtain ⟨v, hv⟩ := hfinal
  refine ⟨rest, c, { F with has_variadic_param := v }, hrest, hc, ?_, ?_⟩
  · rw [hv]
    rfl
  · show F.root = _
    rw [hroot, hrooteq]

theorem has_this_param_already_of_func_id (fd : VertexData) (cs : List Vertex) (st : State)
    (p : Nat) (f : FunctionData) (hid : fd.func_id = some p)
    (hf : st.functions.get? p = some f) :
    has_this_param_already (.mk fd cs) st
      = .ok (f.function_in_which_lambda_was_created.isSome || f.is_lambda) := by
  simp only [has_this_param_already, Vertex.get_func_id, Vertex.data, hid, State.deref, hf,
    bind, Except.bind, pure, Except.pure]

/-- The body that `create_invoke_cmd` returns for a closure vertex whose function is
known. -/
theorem create_invoke_cmd_of_func_id (g : LambdaGenerator) (l : LambdaClassData)
    (fd : VertexData) (fnm pl cmd : Vertex) (st : State) (p : Nat) (f : FunctionData)
    (hl : g.generated_lambda = some l) (hseq : cmd.type = Operation.op_seq)
    (hid : fd.func_id = some p) (hf : st.functions.get? p = some f) :
    g.create_invoke_cmd (.mk fd [fnm, pl, cmd]) st = .ok
      (if f.function_in_which_lambda_was_created.isSome then cmd
       else add_this_to_captured_variables l cmd) := by
  cases hparent : f.function_in_which_lambda_was_created with
  | none =>
    simp only [Option.isSome_none, Bool.false_eq_true, if_false]
    exact create_invoke_cmd_rewrites g l _ st cmd hl rfl hseq
      (Or.inr ⟨p, f, hid, hf, hparent⟩)
  | some q =>
    simp only [Option.isSome_some, if_true]
    exact create_invoke_cmd_skips g _ st cmd p f q rfl hseq hid hf hparent

/-- What `create_invoke_fun_returning_call` builds for the function `base` at address `p`,
the synthesized call `call` and the parameters `ps`. -/
theorem create_invoke_fun_returning_call_run (g : LambdaGenerator) (l : LambdaClassData)
    (st : State) (p : Nat) (base : FunctionData) (call pl : Vertex)
    (hl : g.generated_lambda = some l)
    (hbase : st.functions.get? p = some base)
    (hpl : pl.type = Operation.op_func_param_list)
    (hps : ∀ q ∈ pl.children, q.type = Operation.op_func_param)
    (hne : (base.function_in_which_lambda_was_created.isSome || base.is_lambda) = true →
      pl.children ≠ []) :
    ∃ rest F,
      mark_generic_params
        (if (base.function_in_which_lambda_was_created.isSome || base.is_lambda) = true
          then pl.children.tail else pl.children) 0 = .ok rest ∧
      g.create_invoke_fun_returning_call (some p) call pl st = .ok
        ({ st with
            functions := st.functions ++ [F]
            G := { st.G with
              registered_functions := st.G.registered_functions ++ [st.functions.length] } },
         { g with generated_lambda := some { l with
            members := l.members.add_instance_method F.local_name st.functions.length
              AccessType.access_public } }) ∧
      F.root = some (dispatch_root g l st.functions.length pl.location.line rest
        (if base.function_in_which_lambda_was_created.isSome then g.returning_call_body call
         else add_this_to_captured_variables l (g.returning_call_body call))) := by
  have hseq : (g.returning_call_body call).type = Operation.op_seq := by
    cases call with
    | mk d cs => rfl
  have hb := has_this_param_already_of_func_id
    { type := Operation.op_function, func_id := some p }
    [g.lambda_class_name, pl, g.returning_call_body call] st p base rfl hbase
  obtain ⟨rest, c, F, hrest, hc, hrun, hroot⟩ := add_invoke_method_root g l st
    { type := Operation.op_function, func_id := some p } g.lambda_class_name pl
    (g.returning_call_body call) _ hl hpl hps hseq hb hne
  rw [create_invoke_cmd_of_func_id g l _ _ _ _ st p base hl hseq rfl hbase] at hc
  cases hc
  exact ⟨rest, F, hrest, hrun, hroot⟩

/-- What `add_invoke_method_which_call_method` builds for the method `called` at address
`p` with the parameters `p0 :: ps`. -/
theorem add_invoke_method_which_call_method_run (g : LambdaGenerator) (l : LambdaClassData)
    (st : State) (p : Nat) (called : FunctionData) (p0 : Vertex) (ps vars : List Vertex)
    (hl : g.generated_lambda = some l)
    (hm : st.functions.get? p = some called)
    (hparams : called.get_params = .ok (p0 :: ps))
    (hps : ∀ q ∈ ps, q.type = Operation.op_func_param)
    (hvars : vars_of_params ps = .ok vars)
    (hne : (called.function_in_which_lambda_was_created.isSome || called.is_lambda) = true →
      ps ≠ []) :
    ∃ rest F,
      mark_generic_params
        (if (called.function_in_which_lambda_was_created.isSome || called.is_lambda) = true
          then ps.tail else ps) 0 = .ok rest ∧
      g.add_invoke_method_which_call_method (some p) st = .ok
        ({ st with
            functions := st.functions ++ [F]
            G := { st.G with
              registered_functions := st.G.registered_functions ++ [st.functions.length] } },
         { g with
            generated_lambda := some { with_captured_receiver g l with
              members := (with_captured_receiver g l).members.add_instance_method F.local_name
                st.functions.length AccessType.access_public }
            uses := g.uses ++ [captured_receiver_param g] }) ∧
      F.root = some (dispatch_root g l st.functions.length ({} : Location).line rest
        (if called.function_in_which_lambda_was_created.isSome then
          g.returning_call_body (forwarding_method_call g p called vars)
         else add_this_to_captured_variables (with_captured_receiver g l)
          (g.returning_call_body (forwarding_method_call g p called vars)))) := by
  let g1 : LambdaGenerator :=
    { g with
      generated_lambda := some (with_captured_receiver g l)
      uses := g.uses ++ [captured_receiver_param g] }
  have hunfold : g.add_invoke_method_which_call_method (some p) st =
      g1.create_invoke_fun_returning_call (some p) (forwarding_method_call g p called vars)
        (Vertex.create Operation.op_func_param_list ps) st := by
    simp only [LambdaGenerator.add_invoke_method_which_call_method, hl, State.deref, hm,
      LambdaGenerator.create_params_for_invoke_which_call_method,
      FunctionData.get_params_as_vector_of_vars, hparams, List.drop, hvars, bind, Except.bind,
      pure, Except.pure]
    rfl
  obtain ⟨rest, F, hrest, hrun, hroot⟩ := create_invoke_fun_returning_call_run g1
    (with_captured_receiver g l) st p called (forwarding_method_call g p called vars)
    (Vertex.create Operation.op_func_param_list ps) rfl hm rfl hps hne
  exact ⟨rest, F, hrest, hunfold.trans hrun, hroot⟩

/-- What `add_invoke_method_which_call_function` builds for the function `called` at
address `p` with the parameter list `pl`. -/
theorem add_invoke_method_which_call_function_run (g : LambdaGenerator) (l : LambdaClassData)
    (st : State) (p : Nat) (called : FunctionData) (rt pl : Vertex) (vars : List Vertex)
    (hl : g.generated_lambda = some l)
    (hm : st.functions.get? p = some called)
    (hroot : called.root = some rt) (hparams : rt.params = .ok pl)
    (hpl : pl.type = Operation.op_func_param_list)
    (hps : ∀ q ∈ pl.children, q.type = Operation.op_func_param)
    (hvars : vars_of_params pl.children = .ok vars)
    (hne : (called.function_in_which_lambda_was_created.isSome || called.is_lambda) = true →
      pl.children ≠ []) :
    ∃ rest F,
      mark_generic_params
        (if (called.function_in_which_lambda_was_created.isSome || called.is_lambda) = true
          then pl.children.tail else pl.children) 0 = .ok rest ∧
      g.add_invoke_method_which_call_function (some p) st = .ok
        ({ st with
            functions := st.functions ++ [F]
            G := { st.G with
              registered_functions := st.G.registered_functions ++ [st.functions.length] } },
         { g with generated_lambda := some { l with
            members := l.members.add_instance_method F.local_name st.functions.length
              AccessType.access_public } }) ∧
      F.root = some (dispatch_root g l st.functions.length pl.location.line rest
        (if called.function_in_which_lambda_was_created.isSome then
          g.returning_call_body (forwarding_function_call p called vars)
         else add_this_to_captured_variables l
          (g.returning_call_body (forwarding_function_call p called vars)))) := by
  have hgp : called.get_params = .ok pl.children := by
    simp only [FunctionData.get_params, hroot, hparams, as_of_type _ _ hpl, bind, Except.bind,
      pure, Except.pure]
  have hunfold : g.add_invoke_method_which_call_function (some p) st =
      g.create_invoke_fun_returning_call (some p) (forwarding_function_call p called vars)
        pl st := by
    simp only [LambdaGenerator.add_invoke_method_which_call_function, State.deref, hm,
      FunctionData.get_params_as_vector_of_vars, hgp, List.drop, hvars, hroot, hparams, bind,
      Except.bind, pure, Except.pure]
    rfl
  obtain ⟨rest, F, hrest, hrun, hF⟩ := create_invoke_fun_returning_call_run g l st p called
    (forwarding_function_call p called vars) pl hl hm hpl hps hne
  exact ⟨rest, F, hrest, hunfold.trans hrun, hF⟩

theorem dispatch_root_cmd (g : LambdaGenerator) (l : LambdaClassData) (this : Nat) (line : Int)
    (rest : List Vertex) (cmd : Vertex) :
    (dispatch_root g l this line rest cmd).cmd = .ok (update_location this cmd) := by
  simp [dispatch_root, update_location, update_location_list, Vertex.cmd, Vertex.ith,
    Vertex.children]

mutual
/-- Body rewriting changes nothing in a static lambda class without instance fields. -/
theorem add_this_no_fields_vertex (l : LambdaClassData)
    (hfields : l.members.instance_fields = []) (hstatic : l.is_static = true) :
    ∀ v : Vertex, add_this_to_captured_variables l v = v
  | .mk d cs => by
    have hcs := add_this_no_fields_list l hfields hstatic cs
    by_cases hd : d.type = Operation.op_var
    · simp [add_this_to_captured_variables, hd, ClassMembersContainer.get_instance_field,
        hfields, hstatic]
    · simp [add_this_to_captured_variables, hd, hcs]
theorem add_this_no_fields_list (l : LambdaClassData)
    (hfields : l.members.instance_fields = []) (hstatic : l.is_static = true) :
    ∀ vs : List Vertex, add_this_to_captured_variables_list l vs = vs
  | [] => by simp [add_this_to_captured_variables_list]
  | v :: vs => by
    simp [add_this_to_captured_variables_list, add_this_no_fields_vertex l hfields hstatic v,
      add_this_no_fields_list l hfields hstatic vs]
end

/-- C22, counterexample. For the method `A::m($obj, $x, $y)`, which has no lambda-creation
parent, the body of the dispatch method that `add_invoke_method_which_call_method` builds is
`return m($this->captured_array_arg, $x, $y)`: the rewriting was applied, and the first
argument of the call is a property access, not the variable `captured_array_arg` of the
synthesized sequence. -/
theorem forwarding_method_body_is_rewritten :
    ∃ st1 g1 F root body,
      example_static_generator.add_invoke_method_which_call_method (some 0)
        example_method_state = .ok (st1, g1) ∧
      st1.functions.get? 1 = some F ∧ F.root = some root ∧ root.cmd = .ok body ∧
      body = update_location 1
        (.mk { type := Operation.op_seq }
          [.mk { type := Operation.op_return }
            [.mk { type := Operation.op_func_call, str_val := "m".toList, func_id := some 0,
                   extra_type := OperationExtra.op_ex_func_call_arrow }
              [captured_receiver_access example_static_generator,
               .mk { type := Operation.op_var, str_val := "x".toList } [],
               .mk { type := Operation.op_var, str_val := "y".toList } []]]]) ∧
      body ≠ update_location 1
        (example_static_generator.returning_call_body
          (forwarding_method_call example_static_generator 0 example_method
            [.mk { type := Operation.op_var, str_val := "x".toList } [],
             .mk { type := Operation.op_var, str_val := "y".toList } []])) :=
  ⟨_, _, _, _, _, rfl, rfl, rfl, rfl, rfl, by decide⟩

/-- C22, amended. On both forwarding builder paths the synthesized sequence
`return <call>` passes through `create_invoke_cmd` like the body of any closure.  The body
of the generated dispatch method is the synthesized sequence, stamped with its owner,
without rewriting only when the called function has its lambda-creation parent set;
otherwise it is the result of `add_this_to_captured_variables` on that sequence (on the
call-method path in the lambda class that holds the field `captured_array_arg`).  On the
call-function path the rewriting changes nothing when the lambda class is static and has
no instance field. -/
theorem forwarding_body_spec (g : LambdaGenerator) (l : LambdaClassData) (st : State) (p : Nat)
    (called : FunctionData)
    (hl : g.generated_lambda = some l) (hm : st.functions.get? p = some called) :
    (∀ p0 ps vars, called.get_params = .ok (p0 :: ps) →
      (∀ q ∈ ps, q.type = Operation.op_func_param) → vars_of_params ps = .ok vars →
      ((called.function_in_which_lambda_was_created.isSome || called.is_lambda) = true →
        ps ≠ []) →
      ∃ st1 g1 F root,
        g.add_invoke_method_which_call_method (some p) st = .ok (st1, g1) ∧
        st1.functions.get? st.functions.length = some F ∧ F.root = some root ∧
        root.cmd = .ok (update_location st.functions.length
          (if called.function_in_which_lambda_was_created.isSome then
            g.returning_call_body (forwarding_method_call g p called vars)
           else add_this_to_captured_variables (with_captured_receiver g l)
            (g.returning_call_body (forwarding_method_call g p called vars)))))
    ∧ (∀ rt pl vars, called.root = some rt → rt.params = .ok pl →
      pl.type = Operation.op_func_param_list →
      (∀ q ∈ pl.children, q.type = Operation.op_func_param) →
      vars_of_params pl.children = .ok vars →
      ((called.function_in_which_lambda_was_created.isSome || called.is_lambda) = true →
        pl.children ≠ []) →
      ∃ st1 g1 F root,
        g.add_invoke_method_which_call_function (some p) st = .ok (st1, g1) ∧
        st1.functions.get? st.functions.length = some F ∧ F.root = some root ∧
        root.cmd = .ok (update_location st.functions.length
          (if called.function_in_which_lambda_was_created.isSome then
            g.returning_call_body (forwarding_function_call p called vars)
           else add_this_to_captured_variables l
            (g.returning_call_body (forwarding_function_call p called vars)))) ∧
        (l.members.instance_fields = [] → l.is_static = true →
          root.cmd = .ok (update_location st.functions.length
            (g.returning_call_body (forwarding_function_call p called vars))))) := by
  constructor
  · intro p0 ps vars hparams hps hvars hne
    obtain ⟨rest, F, -, hrun, hroot⟩ := add_invoke_method_which_call_method_run g l st p called
      p0 ps vars hl hm hparams hps hvars hne
    exact ⟨_, _, F, _, hrun, get?_append_new _ _, hroot, dispatch_root_cmd _ _ _ _ _ _⟩
  · intro rt pl vars hroot hparams hpl hps hvars hne
    obtain ⟨rest, F, -, hrun, hF⟩ := add_invoke_method_which_call_function_run g l st p called
      rt pl vars hl hm hroot hparams hpl hps hvars hne
    refine ⟨_, _, F, _, hrun, get?_append_new _ _, hF, dispatch_root_cmd _ _ _ _ _ _, ?_⟩
    intro hfields hstatic
    rw [dispatch_root_cmd, add_this_no_fields_vertex l hfields hstatic]
    simp

/-- The forwarding to the free function `f($x)` from a static lambda class without fields
has the body `return f($x)`. -/
theorem forwarding_body_spec_witness :
    ∃ st1 g1 F root,
      example_static_generator.add_invoke_method_which_call_function (some 0)
        example_free_function_state = .ok (st1, g1) ∧
      st1.functions.get? 1 = some F ∧ F.root = some root ∧
      root.cmd = .ok (update_location 1
        (example_static_generator.returning_call_body
          (forwarding_function_call 0 example_free_function
            [.mk { type := Operation.op_var, str_val := "x".toList } []]))) := by
  obtain ⟨st1, g1, F, root, h1, h2, h3, -, h5⟩ :=
    (forwarding_body_spec example_static_generator
      { name := "L$lambda".toList, is_static := true } example_free_function_state 0
      example_free_function rfl rfl).2
      (.mk { type := Operation.op_function }
        [.mk { type := Operation.op_func_name, str_val := "f".toList } [],
         .mk { type := Operation.op_func_param_list } [example_param "int".toList "x".toList],
         .mk { type := Operation.op_seq }
           [.mk { type := Operation.op_return }
              [.mk { type := Operation.op_var, str_val := "x".toList } []]]])
      (.mk { type := Operation.op_func_param_list } [example_param "int".toList "x".toList])
      [.mk { type := Operation.op_var, str_val := "x".toList } []]
      rfl rfl rfl (by decide) rfl (fun h => by cases h)
  exact ⟨st1, g1, F, root, h1, h2, h3, h5 rfl rfl⟩

/-- Body rewriting turns the variable `captured_array_arg` into a property access on
`$this` once the lambda class has the field of the receiving object. -/
theorem add_this_captured_receiver (g : LambdaGenerator) (l : LambdaClassData) :
    add_this_to_captured_variables (with_captured_receiver g l)
      (g.get_var_of_captured_array_arg Operation.op_var) = captured_receiver_access g := by
  have hfield : ((with_captured_receiver g l).members.get_instance_field
      "captured_array_arg".toList).isSome = true := by
    simp only [ClassMembersContainer.get_instance_field, with_captured_receiver,
      List.find?_isSome]
    exact ⟨captured_receiver_field g, by simp, by
      simp [captured_receiver_field, ClassMemberInstanceField.local_name,
        LambdaGenerator.get_var_of_captured_array_arg, Vertex.create, Vertex.set_string,
        Vertex.set_location, Vertex.get_string, Vertex.data]⟩
  simp only [LambdaGenerator.get_var_of_captured_array_arg, Vertex.create, Vertex.set_string,
    Vertex.set_location, add_this_to_captured_variables, ne_eq, not_true_eq_false, if_false,
    hfield, if_true, captured_receiver_access]

/-- Body rewriting leaves variables alone that neither carry the name of an instance field
nor stand for the enclosing instance. -/
theorem add_this_list_of_free_vars (l : LambdaClassData) :
    ∀ vars : List Vertex,
      (∀ v ∈ vars, v.type = Operation.op_var ∧
        l.members.get_instance_field v.get_string = none ∧
        (l.is_static = true ∨ v.get_string ≠ "this".toList)) →
      add_this_to_captured_variables_list l vars = vars
  | [], _ => by simp [add_this_to_captured_variables_list]
  | .mk d cs :: vs, h => by
    have hv := h (.mk d cs) (by simp)
    have hd : d.type = Operation.op_var := hv.1
    have hfield : l.members.get_instance_field d.str_val = none := hv.2.1
    have hthis : (!l.is_static && d.str_val == "this".toList) = false := by
      rcases hv.2.2 with hs | hn
      · simp [hs]
      · have hn2 : ¬ d.str_val = ['t', 'h', 'i', 's'] := hn
        simp [hn2]
    have hrest := add_this_list_of_free_vars l vs (fun v hv2 => h v (by simp [hv2]))
    simp only [add_this_to_captured_variables_list, add_this_to_captured_variables, hd, ne_eq,
      not_true_eq_false, if_false, hfield, Option.isSome_none, Bool.false_eq_true, hthis,
      hrest]

/-- Body rewriting of a synthesized sequence `return <call>` rewrites the arguments of the
call. -/
theorem add_this_returning_call_body (g : LambdaGenerator) (l : LambdaClassData)
    (d : VertexData) (args : List Vertex) (hd : d.type = Operation.op_func_call) :
    add_this_to_captured_variables l (g.returning_call_body (.mk d args))
      = .mk { type := Operation.op_seq, location := g.created_location }
          [.mk { type := Operation.op_return, location := g.created_location }
            [.mk { d with location := g.created_location }
              (add_this_to_captured_variables_list l args)]] := by
  simp [LambdaGenerator.returning_call_body, Vertex.create, Vertex.set_location,
    add_this_to_captured_variables, add_this_to_captured_variables_list, hd]

/-- C23, failing input. The method `L::__invoke($this)` of a lambda class has one
parameter and its lambda-creation parent set, as `generate` leaves every instance method of
a lambda class.  `add_invoke_method_which_call_method` builds no dispatch method for it:
line 84 has dropped the receiver, `create_invoke_params` skips one more parameter as the
`$this` of the closure, and its assertion fails; the call-function builder does build for
the same method.  For `L::__invoke($this, $x)` the dispatch method declares the
self-parameter alone, `$x` is dropped although the body still passes it, and the receiver
stays the plain variable `captured_array_arg`. -/
theorem add_invoke_method_which_call_method_created_method :
    ((∃ p0, example_created_method.get_params = .ok [p0]) ∧
      example_created_method_state.functions.get? 1 = some example_created_method ∧
      example_static_generator.add_invoke_method_which_call_method (some 1)
        example_created_method_state = .error Fault.assert_failed ∧
      ∃ st1 g1, example_static_generator.add_invoke_method_which_call_function (some 1)
        example_created_method_state = .ok (st1, g1))
    ∧ ((∃ p0 p1, example_created_method_with_param.get_params = .ok [p0, p1]) ∧
      example_created_method_state.functions.get? 2
        = some example_created_method_with_param ∧
      ∃ st1 g1 F root params body,
        example_static_generator.add_invoke_method_which_call_method (some 2)
          example_created_method_state = .ok (st1, g1) ∧
        st1.functions.get? 3 = some F ∧ F.root = some root ∧
        root.params = .ok params ∧
        params.children.map param_name = ["this".toList] ∧
        root.cmd = .ok body ∧
        body = update_location 3
          (example_static_generator.returning_call_body
            (forwarding_method_call example_static_generator 2
              example_created_method_with_param
              [.mk { type := Operation.op_var, str_val := "x".toList } []]))) :=
  ⟨⟨⟨_, rfl⟩, rfl, rfl, _, _, rfl⟩,
   ⟨_, _, rfl⟩, rfl, _, _, _, _, _, _, rfl, rfl, rfl, rfl, rfl, rfl, rfl⟩

/-- The forwarding to a method `m` (at address `p`) that is no lambda and has no
lambda-creation parent, with the parameters `p0 :: ps`:
`add_invoke_method_which_call_method` adds exactly one instance field (private, named
`captured_array_arg`) to the lambda class and one capture to the generator, and builds a
dispatch method whose body is a single `return` of a single arrow call of `m` whose
arguments are the property access `$this->captured_array_arg` followed by the rewritten
variables of `ps` (the variables themselves when none of them carries the name of an
instance field or stands for the enclosing instance), and whose parameters after the
self-parameter are `ps` with their generic slots marked.  With a method without parameters
the builder fails an assertion. -/
theorem add_invoke_method_which_call_method_spec (g : LambdaGenerator) (l : LambdaClassData)
    (st : State) (p : Nat) (called : FunctionData)
    (hl : g.generated_lambda = some l) (hm : st.functions.get? p = some called) :
    (∀ p0 ps vars, called.get_params = .ok (p0 :: ps) →
      (∀ q ∈ ps, q.type = Operation.op_func_param) → vars_of_params ps = .ok vars →
      called.function_in_which_lambda_was_created = none → called.is_lambda = false →
      ∃ st1 g1 l1 F rest,
        g.add_invoke_method_which_call_method (some p) st = .ok (st1, g1) ∧
        g1.generated_lambda = some l1 ∧
        l1.members.instance_fields = l.members.instance_fields ++ [captured_receiver_field g] ∧
        g1.uses = g.uses ++ [captured_receiver_param g] ∧
        st1.functions.get? st.functions.length = some F ∧
        mark_generic_params ps 0 = .ok rest ∧
        F.root = some (dispatch_root g l st.functions.length ({} : Location).line rest
          (.mk { type := Operation.op_seq, location := g.created_location }
            [.mk { type := Operation.op_return, location := g.created_location }
              [.mk { type := Operation.op_func_call, location := g.created_location,
                     extra_type := OperationExtra.op_ex_func_call_arrow,
                     str_val := called.local_name, func_id := some p }
                (captured_receiver_access g ::
                  add_this_to_captured_variables_list (with_captured_receiver g l) vars)]])) ∧
        ((∀ v ∈ vars, v.type = Operation.op_var ∧
            (with_captured_receiver g l).members.get_instance_field v.get_string = none ∧
            (l.is_static = true ∨ v.get_string ≠ "this".toList)) →
          add_this_to_captured_variables_list (with_captured_receiver g l) vars = vars))
    ∧ (called.get_params = .ok [] →
        g.add_invoke_method_which_call_method (some p) st = .error Fault.assert_failed) := by
  constructor
  · intro p0 ps vars hparams hps hvars hparent hlambda
    have hb : (called.function_in_which_lambda_was_created.isSome || called.is_lambda)
        = false := by
      simp [hparent, hlambda]
    obtain ⟨rest, F, hrest, hrun, hroot⟩ := add_invoke_method_which_call_method_run g l st p
      called p0 ps vars hl hm hparams hps hvars (fun h => by rw [hb] at h; cases h)
    rw [hb] at hrest
    simp only [Bool.false_eq_true, if_false] at hrest
    refine ⟨_, _, _, F, rest, hrun, rfl, rfl, rfl, get?_append_new _ _, hrest, ?_,
      add_this_list_of_free_vars _ vars⟩
    rw [hroot, hparent]
    simp only [Option.isSome_none, Bool.false_eq_true, if_false]
    rw [forwarding_method_call, add_this_returning_call_body _ _ _ _ rfl,
      add_this_to_captured_variables_list, add_this_captured_receiver]
  · intro hparams
    simp only [LambdaGenerator.add_invoke_method_which_call_method, hl, State.deref, hm,
      LambdaGenerator.create_params_for_invoke_which_call_method,
      FunctionData.get_params_as_vector_of_vars, hparams, List.drop, vars_of_params, bind,
      Except.bind, pure, Except.pure]
    rfl

/-- The forwarding to the method `A::m($obj, $x, $y)` captures the receiving object and
calls `m($this->captured_array_arg, $x, $y)`; its parameters after `$this` are `$x` and
`$y`. -/
theorem add_invoke_method_which_call_method_spec_witness :
    ∃ st1 g1 l1 F rest,
      example_static_generator.add_invoke_method_which_call_method (some 0)
        example_method_state = .ok (st1, g1) ∧
      g1.generated_lambda = some l1 ∧
      l1.members.instance_fields = [captured_receiver_field example_static_generator] ∧
      g1.uses = [captured_receiver_param example_static_generator] ∧
      st1.functions.get? 1 = some F ∧
      rest = [example_param "int".toList "x".toList, example_param "int".toList "y".toList] ∧
      F.root = some (dispatch_root example_static_generator
        { name := "L$lambda".toList, is_static := true } 1 ({} : Location).line rest
        (.mk { type := Operation.op_seq }
          [.mk { type := Operation.op_return }
            [.mk { type := Operation.op_func_call,
                   extra_type := OperationExtra.op_ex_func_call_arrow,
                   str_val := "m".toList, func_id := some 0 }
              [captured_receiver_access example_static_generator,
               .mk { type := Operation.op_var, str_val := "x".toList } [],
               .mk { type := Operation.op_var, str_val := "y".toList } []]]])) := by
  obtain ⟨st1, g1, l1, F, rest, h1, h2, h3, h4, h5, h6, h7, -⟩ :=
    (add_invoke_method_which_call_method_spec example_static_generator
      { name := "L$lambda".toList, is_static := true } example_method_state 0 example_method
      rfl rfl).1
      (example_param "A".toList "obj".toList)
      [example_param "int".toList "x".toList, example_param "int".toList "y".toList]
      [.mk { type := Operation.op_var, str_val := "x".toList } [],
       .mk { type := Operation.op_var, str_val := "y".toList } []]
      rfl (by decide) rfl rfl rfl
  have hrest : rest
      = [example_param "int".toList "x".toList, example_param "int".toList "y".toList] := by
    have h := h6
    rw [show mark_generic_params
        [example_param "int".toList "x".toList, example_param "int".toList "y".toList] 0
        = .ok [example_param "int".toList "x".toList, example_param "int".toList "y".toList]
        from rfl] at h
    cases h
    rfl
  exact ⟨st1, g1, l1, F, rest, h1, h2, h3, h4, h5, hrest, h7⟩

/-! ## Finalization of a lambda class -/

/-- The loop of `generate` rewrites only the lambda-creation parent of the functions it
visits. -/
theorem set_creation_parent_run (parent : FunctionPtr) :
    ∀ (ms : List ClassMemberInstanceMethod) (st : State),
      (∀ m ∈ ms, ∃ p, m.function = some p ∧ p < st.functions.length) →
      ∃ fs, set_creation_parent parent ms st = .ok { st with functions := fs } ∧
        fs.length = st.functions.length ∧
        ∀ q f, st.functions.get? q = some f →
          ∃ f0, fs.get? q = some f0 ∧ f0.is_required = f.is_required ∧
            f0.is_lambda = f.is_lambda ∧ f0.class_id = f.class_id
  | [], st, _ => ⟨st.functions, rfl, rfl, fun q f h => ⟨f, h, rfl, rfl, rfl⟩⟩
  | m :: ms, st, h => by
    obtain ⟨p, hp, hlt⟩ := h m (by simp)
    obtain ⟨f, hf⟩ : ∃ f, st.functions.get? p = some f := by
      cases hg : st.functions.get? p with
      | some f => exact ⟨f, rfl⟩
      | none =>
        rw [List.get?_eq_none] at hg
        omega
    obtain ⟨fs, hrun, hlen, hfields⟩ := set_creation_parent_run parent ms
      { st with functions :=
          st.functions.set p { f with function_in_which_lambda_was_created := parent } }
      (fun m2 hm2 => by
        obtain ⟨p2, hp2, hlt2⟩ := h m2 (by simp [hm2])
        exact ⟨p2, hp2, by simpa using hlt2⟩)
    refine ⟨fs, ?_, by simpa using hlen, ?_⟩
    · simp only [set_creation_parent, hp, hf]
      exact hrun
    · intro q g hq
      by_cases hqp : p = q
      · subst hqp
        rw [hf] at hq
        cases hq
        obtain ⟨f0, h0, h1, h2, h3⟩ := hfields p
          { f with function_in_which_lambda_was_created := parent }
          (by simp [List.get?_eq_getElem?, List.getElem?_set, hlt])
        exact ⟨f0, h0, h1, h2, h3⟩
      · exact hfields q g (by
          simp only [List.get?_eq_getElem?, List.getElem?_set, hqp, if_false] at hq ⊢
          exact hq)

theorem require_function_run (st : State) (p : Nat) (f : FunctionData)
    (h : st.functions.get? p = some f) :
    CompilerCore.require_function (some p) st = .ok
      { st with
        functions := st.functions.set p { f with is_required := true }
        G := { st.G with required_functions := st.G.required_functions ++ [p] } } := by
  simp only [CompilerCore.require_function, h]

theorem is_lambda_with_uses_congr (classes : ClassHeap) (f f0 : FunctionData)
    (h1 : f0.is_lambda = f.is_lambda) (h2 : f0.class_id = f.class_id) :
    f0.is_lambda_with_uses classes = f.is_lambda_with_uses classes := by
  simp only [FunctionData.is_lambda_with_uses, h1, h2]

theorem get?_set_ne (fs : List FunctionData) (p q : Nat) (f : FunctionData) (h : p ≠ q) :
    (fs.set p f).get? q = fs.get? q := by
  simp [List.get?_eq_getElem?, List.getElem?_set, h]

theorem get?_set_eq (fs : List FunctionData) (p : Nat) (f g : FunctionData)
    (h : fs.get? p = some g) : (fs.set p f).get? p = some f := by
  have hlt : p < fs.length := by
    by_contra hn
    have : fs.get? p = none := List.get?_eq_none.2 (by omega)
    rw [this] at h
    cases h
  simp [List.get?_eq_getElem?, List.getElem?_set, hlt]

theorem set_append_new (l : List FunctionData) (x y : FunctionData) :
    (l ++ [x]).set l.length y = l ++ [y] := by
  simp

/-- The last steps of `generate_and_require`: the holder function is created at the end of
the heap, registered and required. -/
theorem holder_function_run (this : Nat) (name : Str) (st3 : State) :
    CompilerCore.register_and_require_function
        (some (ClassData.gen_holder_function this name st3).2)
        (ClassData.gen_holder_function this name st3).1
      = .ok { st3 with
          functions := st3.functions ++
            [{ name := name, type_ := func_type_t.func_class_holder, class_id := some this,
               is_required := true }]
          G := { st3.G with
            registered_functions := st3.G.registered_functions ++ [st3.functions.length]
            required_functions := st3.G.required_functions ++ [st3.functions.length] } } := by
  simp only [ClassData.gen_holder_function, CompilerCore.register_and_require_function,
    CompilerCore.require_function, get?_append_new, set_append_new]

/-- The first steps of `generate_and_require` up to the assertion about the dispatch
method. -/
theorem generate_run (g : LambdaGenerator) (l : LambdaClassData) (parent : FunctionPtr)
    (classes : ClassHeap) (st : State)
    (hl : g.generated_lambda = some l)
    (hmethods : ∀ m ∈ l.members.instance_methods,
      ∃ p, m.function = some p ∧ p < st.functions.length) :
    ∃ fs, g.generate parent classes st = .ok
        ({ st with
            functions := fs
            G := { st.G with
              registered_classes := st.G.registered_classes ++ [classes.length]
              total_lambdas := st.G.total_lambdas + 1 } },
         classes ++ [l.toClassData], classes.length) ∧
      fs.length = st.functions.length ∧
      ∀ q f, st.functions.get? q = some f →
        ∃ f0, fs.get? q = some f0 ∧ f0.is_required = f.is_required ∧
          f0.is_lambda = f.is_lambda ∧ f0.class_id = f.class_id := by
  obtain ⟨fs, hloop, hlen, hfields⟩ := set_creation_parent_run parent _ st hmethods
  refine ⟨fs, ?_, hlen, hfields⟩
  simp only [LambdaGenerator.generate, hl, hloop, bind, Except.bind, pure, Except.pure]

/-- C24: on a lambda class `l` whose dispatch method (function `pi`) and constructor
(function `pc`) are not yet required, `generate_and_require` requires the dispatch method
and registers and requires the holder function (the new function at the end of the heap) in
every case, and requires the constructor exactly when the constructor is not a
lambda-with-uses; for a constructor that is a lambda function of the lambda class itself
this is exactly when the class has no instance field.  It fails an assertion if the class
has no `__invoke` method, no constructor, or either is already required. -/
theorem generate_and_require_spec (g : LambdaGenerator) (l : LambdaClassData)
    (parent : FunctionPtr) (classes : ClassHeap) (st : State)
    (hl : g.generated_lambda = some l)
    (hmethods : ∀ m ∈ l.members.instance_methods,
      ∃ p, m.function = some p ∧ p < st.functions.length) :
    (∀ m pi Fi pc Fc uses,
      l.members.get_instance_method "__invoke".toList = some m → m.function = some pi →
      st.functions.get? pi = some Fi → Fi.is_required = false →
      l.construct_function = some pc → st.functions.get? pc = some Fc →
      Fc.is_required = false → pi ≠ pc →
      Fc.is_lambda_with_uses (classes ++ [l.toClassData]) = .ok uses →
      ∃ st1, g.generate_and_require parent classes st
          = .ok (st1, classes ++ [l.toClassData], classes.length) ∧
        st1.G.required_functions = st.G.required_functions ++ [pi]
          ++ (if uses then [] else [pc]) ++ [st.functions.length] ∧
        st1.G.registered_functions = st.G.registered_functions ++ [st.functions.length] ∧
        st1.G.registered_classes = st.G.registered_classes ++ [classes.length] ∧
        (∃ F, st1.functions.get? pi = some F ∧ F.is_required = true) ∧
        (∃ F, st1.functions.get? pc = some F ∧ F.is_required = !uses) ∧
        (∃ H, st1.functions.get? st.functions.length = some H ∧ H.is_required = true ∧
          H.type_ = func_type_t.func_class_holder) ∧
        (Fc.is_lambda = true → Fc.class_id = some classes.length →
          uses = l.members.has_any_instance_var))
    ∧ (l.members.get_instance_method "__invoke".toList = none →
        g.generate_and_require parent classes st = .error Fault.assert_failed)
    ∧ (∀ m pi Fi, l.members.get_instance_method "__invoke".toList = some m →
        m.function = some pi → st.functions.get? pi = some Fi → Fi.is_required = true →
        g.generate_and_require parent classes st = .error Fault.assert_failed)
    ∧ (l.construct_function = none →
        g.generate_and_require parent classes st = .error Fault.assert_failed)
    ∧ (∀ pc Fc, l.construct_function = some pc → st.functions.get? pc = some Fc →
        Fc.is_required = true →
        g.generate_and_require parent classes st = .error Fault.assert_failed) := by
  obtain ⟨fs, hgen, hlen, hfields⟩ := generate_run g l parent classes st hl hmethods
  have hclass : (classes ++ [l.toClassData]).get? classes.length = some l.toClassData := by
    simp
  have hinvoke : ∀ m pi Fi, l.members.get_instance_method "__invoke".toList = some m →
      m.function = some pi → st.functions.get? pi = some Fi → Fi.is_required = false →
      ∃ Fi0, fs.get? pi = some Fi0 ∧
        g.generate_and_require parent classes st =
          (do
            let st2 : State :=
              { st with
                functions := fs.set pi { Fi0 with is_required := true }
                G := { st.G with
                  registered_classes := st.G.registered_classes ++ [classes.length]
                  total_lambdas := st.G.total_lambdas + 1
                  required_functions := st.G.required_functions ++ [pi] } }
            let (constructor, constructor_data) ← assert_constructor l.construct_function st2
            let st3 ←
              if !(← constructor_data.is_lambda_with_uses (classes ++ [l.toClassData])) then
                CompilerCore.require_function (some constructor) st2
              else pure st2
            let (st4, holder) := ClassData.gen_holder_function classes.length l.name st3
            let st5 ← CompilerCore.register_and_require_function (some holder) st4
            pure (st5, classes ++ [l.toClassData], classes.length)) := by
    intro m pi Fi hm hmf hpi hreq
    obtain ⟨Fi0, hFi0, hreq0, -, -⟩ := hfields pi Fi hpi
    refine ⟨Fi0, hFi0, ?_⟩
    have hm2 : l.toClassData.members.get_instance_method "__invoke".toList = some m := hm
    simp only [LambdaGenerator.generate_and_require, hgen, hclass, hm2, assert_invoke_method,
      hmf, hFi0, hreq0, hreq, CompilerCore.require_function, bind, Except.bind, pure,
      Except.pure, Bool.false_eq_true, if_false]
  have hno_invoke : l.members.get_instance_method "__invoke".toList = none →
      g.generate_and_require parent classes st = .error Fault.assert_failed := by
    intro hnone
    have hm2 : l.toClassData.members.get_instance_method "__invoke".toList = none := hnone
    simp only [LambdaGenerator.generate_and_require, hgen, hclass, hm2, assert_invoke_method,
      bind, Except.bind, pure, Except.pure]
  have hinvoke_required : ∀ m pi Fi,
      l.members.get_instance_method "__invoke".toList = some m →
      m.function = some pi → st.functions.get? pi = some Fi → Fi.is_required = true →
      g.generate_and_require parent classes st = .error Fault.assert_failed := by
    intro m pi Fi hm hmf hpi hreq
    obtain ⟨Fi0, hFi0, hreq0, -, -⟩ := hfields pi Fi hpi
    have hm2 : l.toClassData.members.get_instance_method "__invoke".toList = some m := hm
    simp only [LambdaGenerator.generate_and_require, hgen, hclass, hm2, assert_invoke_method,
      hmf, hFi0, hreq0, hreq, bind, Except.bind, pure, Except.pure, if_true]
  have hcases : l.members.get_instance_method "__invoke".toList = none ∨
      ∃ m pi Fi, l.members.get_instance_method "__invoke".toList = some m ∧
        m.function = some pi ∧ st.functions.get? pi = some Fi := by
    cases hm : l.members.get_instance_method "__invoke".toList with
    | none => exact Or.inl rfl
    | some m =>
      right
      have hmem : m ∈ l.members.instance_methods := by
        unfold ClassMembersContainer.get_instance_method at hm
        exact List.mem_of_find?_eq_some hm
      obtain ⟨pi, hmf, hlt⟩ := hmethods m hmem
      cases hg : st.functions.get? pi with
      | some Fi => exact ⟨m, pi, Fi, rfl, hmf, hg⟩
      | none =>
        rw [List.get?_eq_none] at hg
        omega
  refine ⟨?_, hno_invoke, hinvoke_required, ?_, ?_⟩
  · intro m pi Fi pc Fc uses hm hmf hpi hreq hctor hpc hcreq hne huses
    obtain ⟨Fi0, hFi0, hrun⟩ := hinvoke m pi Fi hm hmf hpi hreq
    obtain ⟨Fc0, hFc0, hcreq0, hlam0, hcls0⟩ := hfields pc Fc hpc
    have huses0 := (is_lambda_with_uses_congr (classes ++ [l.toClassData]) Fc Fc0 hlam0
      hcls0).trans huses
    have hlen2 : ∀ (f : FunctionData), (fs.set pi f).length = st.functions.length := by
      intro f
      simp [hlen]
    have hlink : Fc.is_lambda = true → Fc.class_id = some classes.length →
        uses = l.members.has_any_instance_var := by
      intro h1 h2
      simp only [FunctionData.is_lambda_with_uses, h1, h2, hclass, if_true] at huses
      cases huses
      rfl
    rw [hrun]
    simp only [assert_constructor, hctor, get?_set_ne fs pi pc _ hne, hFc0, hcreq0, hcreq,
      huses0, bind, Except.bind, pure, Except.pure, Bool.false_eq_true, if_false]
    have hpi_lt : pi < fs.length := by
      by_contra hn
      have : fs.get? pi = none := List.get?_eq_none.2 (by omega)
      rw [this] at hFi0
      cases hFi0
    have hpc_lt : pc < fs.length := by
      by_contra hn
      have : fs.get? pc = none := List.get?_eq_none.2 (by omega)
      rw [this] at hFc0
      cases hFc0
    cases uses with
    | true =>
      simp only [Bool.not_true, Bool.false_eq_true, if_false]
      rw [holder_function_run]
      refine ⟨_, rfl, ?_, ?_, rfl, ?_, ?_, ?_, hlink⟩
      · simp [hlen]
      · simp [hlen]
      · exact ⟨{ Fi0 with is_required := true },
          get?_append_old _ _ _ _ (get?_set_eq fs pi _ Fi0 hFi0), rfl⟩
      · refine ⟨Fc0, get?_append_old _ _ _ _ ?_, by simp [hcreq0, hcreq]⟩
        rw [get?_set_ne fs pi pc _ hne]
        exact hFc0
      · refine ⟨{ name := l.name, type_ := func_type_t.func_class_holder,
                  class_id := some classes.length, is_required := true }, ?_, rfl, rfl⟩
        have hl2 : st.functions.length
            = (fs.set pi { Fi0 with is_required := true }).length := by
          simp [hlen]
        rw [hl2]
        exact get?_append_new _ _
    | false =>
      simp only [Bool.not_false, if_true, CompilerCore.require_function,
        get?_set_ne fs pi pc _ hne, hFc0]
      rw [holder_function_run]
      refine ⟨_, rfl, ?_, ?_, rfl, ?_, ?_, ?_, hlink⟩
      · simp [hlen]
      · simp [hlen]
      · refine ⟨{ Fi0 with is_required := true }, get?_append_old _ _ _ _ ?_, rfl⟩
        rw [get?_set_ne _ pc pi _ (Ne.symm hne)]
        exact get?_set_eq fs pi _ Fi0 hFi0
      · refine ⟨{ Fc0 with is_required := true }, get?_append_old _ _ _ _ ?_, rfl⟩
        exact get?_set_eq _ pc _ Fc0 ((get?_set_ne fs pi pc _ hne).trans hFc0)
      · refine ⟨{ name := l.name, type_ := func_type_t.func_class_holder,
                  class_id := some classes.length, is_required := true }, ?_, rfl, rfl⟩
        have hl2 : st.functions.length
            = ((fs.set pi { Fi0 with is_required := true }).set pc
                { Fc0 with is_required := true }).length := by
          simp [hlen]
        rw [hl2]
        exact get?_append_new _ _
  · intro hctor
    rcases hcases with hnone | ⟨m, pi, Fi, hm, hmf, hpi⟩
    · exact hno_invoke hnone
    · cases hreq : Fi.is_required with
      | true => exact hinvoke_required m pi Fi hm hmf hpi hreq
      | false =>
        obtain ⟨Fi0, hFi0, hrun⟩ := hinvoke m pi Fi hm hmf hpi hreq
        rw [hrun]
        simp only [assert_constructor, hctor, bind, Except.bind]
  · intro pc Fc hctor hpc hcreq
    rcases hcases with hnone | ⟨m, pi, Fi, hm, hmf, hpi⟩
    · exact hno_invoke hnone
    · cases hreq : Fi.is_required with
      | true => exact hinvoke_required m pi Fi hm hmf hpi hreq
      | false =>
        obtain ⟨Fi0, hFi0, hrun⟩ := hinvoke m pi Fi hm hmf hpi hreq
        obtain ⟨Fc0, hFc0, hcreq0, -, -⟩ := hfields pc Fc hpc
        have hne : pi ≠ pc := by
          intro h
          subst h
          rw [hpi] at hpc
          cases hpc
          rw [hreq] at hcreq
          cases hcreq
        rw [hrun]
        simp only [assert_constructor, hctor, get?_set_ne fs pi pc _ hne, hFc0, hcreq0, hcreq,
          bind, Except.bind, if_true]

/-- Without captured fields the dispatch method (0), the constructor (1) and the holder
function (3) are required; with the captured field `a` the constructor is left out. -/
theorem generate_and_require_spec_witness :
    (∃ st1, LambdaGenerator.generate_and_require
          { generated_lambda := some example_finished_lambda } (some 2) []
          example_finished_state = .ok (st1, [example_finished_lambda.toClassData], 0) ∧
        st1.G.required_functions = [0, 1, 3] ∧ st1.G.registered_functions = [3])
    ∧ (∃ st1, LambdaGenerator.generate_and_require
          { generated_lambda := some example_finished_lambda_with_uses } (some 2) []
          example_finished_state
            = .ok (st1, [example_finished_lambda_with_uses.toClassData], 0) ∧
        st1.G.required_functions = [0, 3] ∧ st1.G.registered_functions = [3]) := by
  have hmethods : ∀ m ∈ example_finished_lambda.members.instance_methods,
      ∃ p, m.function = some p ∧ p < example_finished_state.functions.length := by
    intro m hm
    simp only [example_finished_lambda, List.mem_cons, List.mem_singleton, List.not_mem_nil,
      or_false] at hm
    rcases hm with rfl | rfl
    · exact ⟨0, rfl, by decide⟩
    · exact ⟨1, rfl, by decide⟩
  constructor
  · obtain ⟨st1, h1, h2, h3, -⟩ :=
      (generate_and_require_spec { generated_lambda := some example_finished_lambda }
        example_finished_lambda (some 2) [] example_finished_state rfl hmethods).1
        ⟨"__invoke".toList, some 0, AccessType.access_public⟩ 0
        { name := "L$lambda$$__invoke".toList, is_lambda := true, class_id := some 0 } 1
        { name := "L$lambda$$__construct".toList, is_lambda := true, class_id := some 0 } false
        rfl rfl rfl rfl rfl rfl rfl (by decide) rfl
    exact ⟨st1, h1, h2, h3⟩
  · obtain ⟨st1, h1, h2, h3, -⟩ :=
      (generate_and_require_spec { generated_lambda := some example_finished_lambda_with_uses }
        example_finished_lambda_with_uses (some 2) [] example_finished_state rfl hmethods).1
        ⟨"__invoke".toList, some 0, AccessType.access_public⟩ 0
        { name := "L$lambda$$__invoke".toList, is_lambda := true, class_id := some 0 } 1
        { name := "L$lambda$$__construct".toList, is_lambda := true, class_id := some 0 } true
        rfl rfl rfl rfl rfl rfl rfl (by decide) rfl
    exact ⟨st1, h1, h2, h3⟩

end Kphp
